import Mathlib

/-!
SPMP engine (arch/riscv/core/spmp.c) and fault classifier
(arch/riscv/core/fatal.c).

A shallow embedding of the RISC-V S-mode physical memory protection driver
(region encoder, register writer, boot-time table, thread contexts, domain
resynchronisation, buffer validation) and of the trap classifier, and the
properties of them that the specification states.

Machine words (`unsigned long`, `uintptr_t`, `size_t`) are natural numbers
below `2 ^ (RV_REGSIZE * 8)`; every operation that can wrap is reduced
modulo that power explicitly.  The three shadow arrays are maps from a slot
index to a value; `spmp_n_cfg` is the byte view `(uint8_t *)spmp_cfg` that
the C code uses.
-/

namespace Spmp

/-- Build-time parameters of spmp.c.  `tor`, `na4`, `napot` are
`SPMP_TOR_SUPPORTED`, `SPMP_NA4_SUPPORTED`, `SPMP_NAPOT_SUPPORTED`;
`RV_REGSIZE` is the register size in bytes; `SPMP_TOR`, `SPMP_NA4`,
`SPMP_NAPOT` are the address-matching mode constants of csr.h, which the
encoder ORs into the config byte. -/
structure Config where
  tor : Bool
  na4 : Bool
  napot : Bool
  RV_REGSIZE : Nat
  SPMP_TOR : Nat
  SPMP_NA4 : Nat
  SPMP_NAPOT : Nat

/-- Width in bits of `unsigned long`, `uintptr_t` and `size_t`:
`RV_REGSIZE * 8`. -/
def Config.bits (c : Config) : Nat := c.RV_REGSIZE * 8

/-- Addition of two machine words, wrapping. -/
def addw (c : Config) (a b : Nat) : Nat := (a + b) % 2 ^ c.bits

/-- Subtraction of two machine words, wrapping (`0 - 1` is the all-ones word). -/
def subw (c : Config) (a b : Nat) : Nat := (a + (2 ^ c.bits - b % 2 ^ c.bits)) % 2 ^ c.bits

/-- Left shift of a machine word, dropping the bits shifted out. -/
def shlw (c : Config) (a n : Nat) : Nat := (a <<< n) % 2 ^ c.bits

/-- Bitwise complement of a machine word. -/
def notw (c : Config) (a : Nat) : Nat := 2 ^ c.bits - 1 - a % 2 ^ c.bits

/-- Macro `#define SPMP_ADDR(addr) ((addr) >> 2)`. -/
def SPMP_ADDR (addr : Nat) : Nat := addr >>> 2

/-- Macro `#define NAPOT_RANGE(size) (((size)-1) >> 1)`, on machine words. -/
def NAPOT_RANGE (c : Config) (size : Nat) : Nat := (subw c size 1) >>> 1

/-- Macro `#define SPMP_ADDR_NAPOT(addr, size) SPMP_ADDR(addr | NAPOT_RANGE(size))`. -/
def SPMP_ADDR_NAPOT (c : Config) (addr size : Nat) : Nat :=
  SPMP_ADDR (addr ||| NAPOT_RANGE c size)

/-- Store `v` at index `i` of an array. -/
def upd (f : Nat → Nat) (i v : Nat) : Nat → Nat := fun j => if j = i then v else f j

/-- The arguments of `set_spmp_entry` that it reads and writes: the cursor
`*index_p` and the three shadow arrays. -/
structure State where
  index : Nat
  spmp_addr : Nat → Nat
  spmp_n_cfg : Nat → Nat
  spmp_switch : Nat → Nat

/-- Statement `spmp_switch[index/(RV_REGSIZE*8)] |= (1UL << ((index%(RV_REGSIZE*8))));`. -/
def switch_on (c : Config) (sw : Nat → Nat) (index : Nat) : Nat → Nat :=
  upd sw (index / (c.RV_REGSIZE * 8))
    (sw (index / (c.RV_REGSIZE * 8)) ||| (1 <<< (index % (c.RV_REGSIZE * 8))))

/-- Condition of the first encoding branch of `set_spmp_entry`:
`SPMP_TOR_SUPPORTED && ((index == 0 && start == 0) ||
(index != 0 && spmp_addr[index - 1] == SPMP_ADDR(start)))`. -/
abbrev tor_continuation (c : Config) (st : State) (start : Nat) : Prop :=
  c.tor = true ∧
    ((st.index = 0 ∧ start = 0) ∨
      (st.index ≠ 0 ∧ st.spmp_addr (st.index - 1) = SPMP_ADDR start))

/-- Condition of the NA4 branch: `SPMP_NA4_SUPPORTED && size == 4`. -/
abbrev na4_applies (c : Config) (size : Nat) : Prop :=
  c.na4 = true ∧ size = 4

/-- Condition of the NAPOT branch: `SPMP_NAPOT_SUPPORTED &&
((size & (size - 1)) == 0) && ((start & (size - 1)) == 0) &&
(SPMP_NA4_SUPPORTED || (size != 4))`, with `size - 1` a machine word. -/
abbrev napot_applies (c : Config) (start size : Nat) : Prop :=
  c.napot = true ∧
    size &&& subw c size 1 = 0 ∧
    start &&& subw c size 1 = 0 ∧
    (c.na4 = true ∨ size ≠ 4)

/-- The state left by a branch that writes one entry at the cursor. -/
def write_one (c : Config) (st : State) (addr cfg : Nat) : State :=
  { index := st.index + 1
    spmp_addr := upd st.spmp_addr st.index addr
    spmp_n_cfg := upd st.spmp_n_cfg st.index (cfg % 256)
    spmp_switch := switch_on c st.spmp_switch st.index }

/-- The state left by the two-slot TOR branch: a boundary entry with config
0 at the cursor, whose switch bit is not touched, then the TOR entry. -/
def write_two (c : Config) (st : State) (addr0 addr1 cfg1 : Nat) : State :=
  { index := st.index + 2
    spmp_addr := upd (upd st.spmp_addr st.index addr0) (st.index + 1) addr1
    spmp_n_cfg := upd (upd st.spmp_n_cfg st.index 0) (st.index + 1) (cfg1 % 256)
    spmp_switch := switch_on c st.spmp_switch (st.index + 1) }

/-- Function `set_spmp_entry` of spmp.c: the return value and the state it
leaves.  The branches are those of the C function, in its order.  Stores to
`uint8_t` are reduced modulo 256.  On the branches that compute `index + 1`
the cursor is below `index_limit`, an `unsigned int`, so that sum does not
wrap.  The two `__ASSERT`s on alignment are hypotheses of the theorems. -/
def set_spmp_entry (c : Config) (st : State) (perm start size index_limit : Nat) :
    Bool × State :=
  if st.index ≥ index_limit then
    (false, st)
  else if tor_continuation c st start then
    (true, write_one c st (SPMP_ADDR (addw c start size)) (perm ||| c.SPMP_TOR))
  else if na4_applies c size then
    (true, write_one c st (SPMP_ADDR start) (perm ||| c.SPMP_NA4))
  else if napot_applies c start size then
    (true, write_one c st (SPMP_ADDR_NAPOT c start size) (perm ||| c.SPMP_NAPOT))
  else if c.tor = true ∧ st.index + 1 ≥ index_limit then
    (false, st)
  else if c.tor = true then
    (true, write_two c st (SPMP_ADDR start) (SPMP_ADDR (addw c start size))
      (perm ||| c.SPMP_TOR))
  else
    (false, st)

/-- A 32-bit build: all three address matching modes, 4-byte registers, and
for the mode constants the encoding of the RISC-V privileged architecture
(A field in bits 3 and 4 of the config byte: TOR 1, NA4 2, NAPOT 3). -/
def rv32 : Config :=
  { tor := true, na4 := true, napot := true, RV_REGSIZE := 4,
    SPMP_TOR := 0x08, SPMP_NA4 := 0x10, SPMP_NAPOT := 0x18 }

/-- The same build with `CONFIG_SPMP_NO_TOR`. -/
def rv32_no_tor : Config := { rv32 with tor := false }

/-- All-zero shadow arrays with the cursor at `i`. -/
def empty_at (i : Nat) : State :=
  { index := i, spmp_addr := fun _ => 0, spmp_n_cfg := fun _ => 0, spmp_switch := fun _ => 0 }

/-- Bit `i` of the switch mask, located as `set_spmp_entry` locates it:
word `i / (RV_REGSIZE*8)`, bit `i % (RV_REGSIZE*8)`. -/
def switch_bit (c : Config) (sw : Nat → Nat) (i : Nat) : Bool :=
  (sw (i / (c.RV_REGSIZE * 8))).testBit (i % (c.RV_REGSIZE * 8))

/-- A request to the encoder: permission flags, start and size. -/
structure Region where
  perm : Nat
  start : Nat
  size : Nat

/-- Successive `set_spmp_entry` calls on the same cursor and arrays, one per
region in order, the way `z_riscv_spmp_init` and `resync_spmp_domain` issue
them: a failed call does not stop the later ones.  Gives the return values
in call order and the final state. -/
def set_spmp_entries (c : Config) (index_limit : Nat) : State → List Region → List Bool × State
  | st, [] => ([], st)
  | st, r :: rs =>
    ((set_spmp_entry c st r.perm r.start r.size index_limit).1 ::
        (set_spmp_entries c index_limit
          (set_spmp_entry c st r.perm r.start r.size index_limit).2 rs).1,
      (set_spmp_entries c index_limit
        (set_spmp_entry c st r.perm r.start r.size index_limit).2 rs).2)

/-- Build options and declarations that spmp.c uses and that live outside
it.  `CONFIG_ASSERT` tells whether `__ASSERT` is compiled in (a failed
assertion is then fatal) or expands to nothing.  `SPMP_R`, `SPMP_W`,
`SPMP_X` are the permission constants of csr.h.  `u_mode_slots` is
`ARRAY_SIZE(thread->arch.u_mode_spmpaddr_regs)`.  `nr_bits` is the width of
the `spmp_update_nr` counters. -/
structure Build where
  CONFIG_SPMP_SLOTS : Nat
  CONFIG_ASSERT : Bool
  CONFIG_QEMU_TARGET : Bool
  CONFIG_MPU_REQUIRES_POWER_OF_TWO_ALIGNMENT : Bool
  SPMP_R : Nat
  SPMP_W : Nat
  SPMP_X : Nat
  u_mode_slots : Nat
  nr_bits : Nat

/-- Why a function did not return: a failed `__ASSERT`, `k_panic()`, or a
read or write outside an array (undefined in C). -/
inductive Stop where
  | assertion
  | panic
  | out_of_array
  deriving DecidableEq

/-- One call `z_riscv_write_spmp_entries(start, end, spmp_cfg, spmp_addr,
spmp_switch)` of the assembly routine that loads the hardware registers:
its range and the arrays as they were at the call. -/
structure HwWrite where
  first : Nat
  last : Nat
  spmp_cfg : Nat → Nat
  spmp_addr : Nat → Nat
  spmp_switch : Nat → Nat

/-- What `write_spmp_entries` leaves: whether it stopped, the two arrays it
can modify, and the hardware writes it issued, in order. -/
structure WriteOut where
  stop : Option Stop
  spmp_n_cfg : Nat → Nat
  spmp_switch : Nat → Nat
  hw : List HwWrite

/-- The loop `for (index = end; index % SPMPCFG_STRIDE != 0; index++)` of
`write_spmp_entries`, with body `spmp_n_cfg[index] = 0;
*spmp_switch &= ~(1UL << index);`.  `SPMPCFG_STRIDE` is
`sizeof(unsigned long)`, that is `RV_REGSIZE`.  The first argument bounds
the number of iterations; the result carries the final `index`.  A shift
count of the register width or more is undefined in C; the shift
instruction of the target takes the count modulo the register width, and
so does this definition. -/
def clear_trailing_loop (c : Config) :
    Nat → Nat → (Nat → Nat) → (Nat → Nat) → Nat × (Nat → Nat) × (Nat → Nat)
  | 0, index, cfg, sw => (index, cfg, sw)
  | fuel + 1, index, cfg, sw =>
    if index % c.RV_REGSIZE ≠ 0 then
      clear_trailing_loop c fuel (index + 1) (upd cfg index 0)
        (upd sw 0 (sw 0 &&& notw c (shlw c 1 (index % c.bits))))
    else
      (index, cfg, sw)

/-- Function `write_spmp_entries` of spmp.c.  The `__ASSERT` is checked when
`CONFIG_ASSERT` is set, then the `k_panic()` test, then the clearing loop
(which needs fewer than `SPMPCFG_STRIDE` iterations), then the hardware
writes.  The two stores of `read_cycle()` to fixed addresses are
diagnostics and are left out. -/
def write_spmp_entries (c : Config) (b : Build) (start end_idx : Nat)
    (clear_trailing_entries : Bool) (spmp_addr spmp_n_cfg spmp_switch : Nat → Nat)
    (index_limit : Nat) : WriteOut :=
  if b.CONFIG_ASSERT = true ∧
      ¬ (start < end_idx ∧ end_idx ≤ index_limit ∧ index_limit ≤ b.CONFIG_SPMP_SLOTS) then
    { stop := some Stop.assertion, spmp_n_cfg := spmp_n_cfg, spmp_switch := spmp_switch,
      hw := [] }
  else if start ≥ end_idx ∨ end_idx > index_limit then
    { stop := some Stop.panic, spmp_n_cfg := spmp_n_cfg, spmp_switch := spmp_switch,
      hw := [] }
  else
    let cleared :=
      if clear_trailing_entries = true then
        clear_trailing_loop c c.RV_REGSIZE end_idx spmp_n_cfg spmp_switch
      else (end_idx, spmp_n_cfg, spmp_switch)
    { stop := none, spmp_n_cfg := cleared.2.1, spmp_switch := cleared.2.2,
      hw :=
        (if b.CONFIG_QEMU_TARGET = true then
          [{ first := start, last := b.CONFIG_SPMP_SLOTS, spmp_cfg := fun _ => 0,
             spmp_addr := fun _ => 0, spmp_switch := fun _ => 0 }]
        else []) ++
        [{ first := start, last := end_idx, spmp_cfg := cleared.2.1,
           spmp_addr := spmp_addr, spmp_switch := cleared.2.2 }] }

/-- The globals `global_spmp_cfg[0]`, `global_spmp_last_addr` and
`global_spmp_end_index`. -/
structure Global where
  global_spmp_cfg : Nat
  global_spmp_last_addr : Nat
  global_spmp_end_index : Nat

/-- A `struct k_mem_partition`: start, size and `attr.spmp_attr`. -/
structure Partition where
  start : Nat
  size : Nat
  attr : Nat

/-- A `struct k_mem_domain`: the partition array (a slot with size 0 is
unused), `num_partitions`, and `arch.spmp_update_nr`. -/
structure Domain where
  partitions : List Partition
  num_partitions : Nat
  spmp_update_nr : Nat

/-- The fields of `struct k_thread` that spmp.c and fatal.c use:
`stack_info.start`, `stack_info.size`, the three user-mode shadow arrays
(`u_mode_spmpcfg_regs` in its byte view) and the three user-mode counters
of `thread->arch`; then `stack_info.delta`, `arch.priv_stack_start`, the
value of `z_stack_is_user_capable(stack_obj)`, and the supervisor-mode
shadow arrays with their end index. -/
structure Thread where
  stack_start : Nat
  stack_size : Nat
  u_mode_spmpaddr_regs : Nat → Nat
  u_mode_spmpcfg_regs : Nat → Nat
  u_mode_spmpswitch_reg : Nat → Nat
  u_mode_spmp_end_index : Nat
  u_mode_spmp_domain_offset : Nat
  u_mode_spmp_update_nr : Nat
  stack_delta : Nat := 0
  priv_stack_start : Nat := 0
  user_capable : Bool := false
  s_mode_spmpaddr_regs : Nat → Nat := fun _ => 0
  s_mode_spmpcfg_regs : Nat → Nat := fun _ => 0
  s_mode_spmpswitch_reg : Nat → Nat := fun _ => 0
  s_mode_spmp_end_index : Nat := 0

/-- The arguments `SPMP_U_MODE(thread)` together with a cursor, as the
state `set_spmp_entry` works on. -/
def Thread.u_mode (t : Thread) (index : Nat) : State :=
  { index := index, spmp_addr := t.u_mode_spmpaddr_regs,
    spmp_n_cfg := t.u_mode_spmpcfg_regs, spmp_switch := t.u_mode_spmpswitch_reg }

/-- The thread with its user-mode shadow arrays replaced by those of `st`. -/
def Thread.with_u_mode (t : Thread) (st : State) : Thread :=
  { t with u_mode_spmpaddr_regs := st.spmp_addr, u_mode_spmpcfg_regs := st.spmp_n_cfg,
           u_mode_spmpswitch_reg := st.spmp_switch }

/-- Function `z_riscv_spmp_thread_init` on the user-mode arrays:
`spmp_cfg[0] = global_spmp_cfg[0]` stores one register, that is the bytes
0 to `RV_REGSIZE - 1` of the byte view (little endian), and
`spmp_addr[global_spmp_end_index - 1] = global_spmp_last_addr`, which is
outside the array when `global_spmp_end_index` is 0.  Gives the state with
the cursor at `global_spmp_end_index`. -/
def z_riscv_spmp_thread_init (c : Config) (g : Global) (t : Thread) : Option State :=
  if g.global_spmp_end_index = 0 then none
  else some
    { index := g.global_spmp_end_index
      spmp_addr := upd t.u_mode_spmpaddr_regs (g.global_spmp_end_index - 1)
        g.global_spmp_last_addr
      spmp_n_cfg := fun i =>
        if i < c.RV_REGSIZE then (g.global_spmp_cfg >>> (8 * i)) % 256
        else t.u_mode_spmpcfg_regs i
      spmp_switch := t.u_mode_spmpswitch_reg }

/-- Function `z_riscv_spmp_usermode_prepare`: seed from the globals, map the
stack read/write, map the one dummy region, record the cursor as domain
offset and end index, reset the update number.  The return values of the
two `set_spmp_entry` calls are not looked at. -/
def z_riscv_spmp_usermode_prepare (c : Config) (b : Build) (g : Global) (t : Thread) :
    Option Thread :=
  match z_riscv_spmp_thread_init c g t with
  | none => none
  | some st0 =>
    let st1 := (set_spmp_entry c st0 (b.SPMP_R ||| b.SPMP_W) t.stack_start t.stack_size
      b.u_mode_slots).2
    let st2 := (set_spmp_entry c st1 (b.SPMP_R ||| b.SPMP_W) 0xDEAD0000 0xBEE0
      b.u_mode_slots).2
    some { (t.with_u_mode st2) with
      u_mode_spmp_domain_offset := st2.index
      u_mode_spmp_end_index := st2.index
      u_mode_spmp_update_nr := 0 }

/-- What the partition loop of `resync_spmp_domain` leaves: whether it
stopped, the cursor and arrays, and the return values of the
`set_spmp_entry` calls it made, in order. -/
structure ScanOut where
  stop : Option Stop
  st : State
  oks : List Bool

/-- The loop `for (p_idx = 0; remaining_partitions > 0; p_idx++)` of
`resync_spmp_domain`, on the part of the partition array from `p_idx` on.
Reading `domain->partitions[p_idx]` past the end of the array stops with
`out_of_array`.  With `CONFIG_ASSERT` the two `__ASSERT`s are fatal;
without it a partition smaller than 4 bytes is skipped and a failed
`set_spmp_entry` is ignored. -/
def resync_loop (c : Config) (b : Build) : Nat → List Partition → State → ScanOut
  | 0, _, st => { stop := none, st := st, oks := [] }
  | _ + 1, [], st => { stop := some Stop.out_of_array, st := st, oks := [] }
  | remaining + 1, part :: rest, st =>
    if part.size = 0 then
      resync_loop c b (remaining + 1) rest st
    else if part.size < 4 then
      if b.CONFIG_ASSERT = true then { stop := some Stop.assertion, st := st, oks := [] }
      else resync_loop c b remaining rest st
    else if (set_spmp_entry c st (b.SPMP_W ||| b.SPMP_X) part.start part.size
        b.u_mode_slots).1 = false ∧ b.CONFIG_ASSERT = true then
      { stop := some Stop.assertion
        st := (set_spmp_entry c st (b.SPMP_W ||| b.SPMP_X) part.start part.size
          b.u_mode_slots).2
        oks := [false] }
    else
      { resync_loop c b remaining rest
          (set_spmp_entry c st (b.SPMP_W ||| b.SPMP_X) part.start part.size
            b.u_mode_slots).2 with
        oks := (set_spmp_entry c st (b.SPMP_W ||| b.SPMP_X) part.start part.size
            b.u_mode_slots).1 ::
          (resync_loop c b remaining rest
            (set_spmp_entry c st (b.SPMP_W ||| b.SPMP_X) part.start part.size
              b.u_mode_slots).2).oks }

/-- What `resync_spmp_domain` leaves: whether it stopped, the thread, and
the return values of its `set_spmp_entry` calls. -/
structure ResyncOut where
  stop : Option Stop
  thread : Thread
  oks : List Bool

/-- Function `resync_spmp_domain`: run the loop from the domain offset, then
store the cursor as end index and copy the domain's update number.  When
the loop stops the two stores are not reached.  The domain lock is not
modelled. -/
def resync_spmp_domain (c : Config) (b : Build) (t : Thread) (d : Domain) : ResyncOut :=
  let out := resync_loop c b d.num_partitions d.partitions
    (t.u_mode t.u_mode_spmp_domain_offset)
  match out.stop with
  | some s => { stop := some s, thread := t.with_u_mode out.st, oks := out.oks }
  | none =>
    { stop := none
      thread := { (t.with_u_mode out.st) with
        u_mode_spmp_end_index := out.st.index
        u_mode_spmp_update_nr := d.spmp_update_nr }
      oks := out.oks }

/-- What `z_riscv_spmp_usermode_enable` leaves: whether it stopped, the
thread, whether it called `resync_spmp_domain`, and the hardware writes. -/
structure EnableOut where
  stop : Option Stop
  thread : Thread
  resynced : Bool
  hw : List HwWrite

/-- Function `z_riscv_spmp_usermode_enable`. -/
def z_riscv_spmp_usermode_enable (c : Config) (b : Build) (g : Global) (t : Thread)
    (d : Domain) : EnableOut :=
  if t.u_mode_spmp_end_index = 0 then
    { stop := none, thread := t, resynced := false, hw := [] }
  else
    let r : ResyncOut :=
      if t.u_mode_spmp_update_nr ≠ d.spmp_update_nr then resync_spmp_domain c b t d
      else { stop := none, thread := t, oks := [] }
    match r.stop with
    | some s =>
      { stop := some s, thread := r.thread,
        resynced := decide (t.u_mode_spmp_update_nr ≠ d.spmp_update_nr), hw := [] }
    | none =>
      let w := write_spmp_entries c b g.global_spmp_end_index r.thread.u_mode_spmp_end_index
        true r.thread.u_mode_spmpaddr_regs r.thread.u_mode_spmpcfg_regs
        r.thread.u_mode_spmpswitch_reg b.u_mode_slots
      { stop := w.stop
        thread := { r.thread with u_mode_spmpcfg_regs := w.spmp_n_cfg,
                                  u_mode_spmpswitch_reg := w.spmp_switch }
        resynced := decide (t.u_mode_spmp_update_nr ≠ d.spmp_update_nr)
        hw := w.hw }

/-- Function `arch_mem_domain_max_partitions_get`, as the C `int` it
returns. -/
def arch_mem_domain_max_partitions_get (b : Build) (g : Global) : Int :=
  (b.CONFIG_SPMP_SLOTS : Int) - (g.global_spmp_end_index : Int) -
    (if b.CONFIG_MPU_REQUIRES_POWER_OF_TWO_ALIGNMENT = true then 1 else 2)

/-- Function `arch_mem_domain_init`: `domain->arch.spmp_update_nr = 0`. -/
def arch_mem_domain_init (d : Domain) : Domain :=
  { d with spmp_update_nr := 0 }

/-- Function `arch_mem_domain_partition_add`:
`domain->arch.spmp_update_nr += 1`, on a counter of `nr_bits` bits. -/
def arch_mem_domain_partition_add (b : Build) (d : Domain) : Domain :=
  { d with spmp_update_nr := (d.spmp_update_nr + 1) % 2 ^ b.nr_bits }

/-- Function `arch_mem_domain_partition_remove`:
`domain->arch.spmp_update_nr += 1`, on a counter of `nr_bits` bits. -/
def arch_mem_domain_partition_remove (b : Build) (d : Domain) : Domain :=
  { d with spmp_update_nr := (d.spmp_update_nr + 1) % 2 ^ b.nr_bits }

/-- Function `arch_mem_domain_thread_add`:
`thread->arch.u_mode_spmp_update_nr = 0`. -/
def arch_mem_domain_thread_add (t : Thread) : Thread :=
  { t with u_mode_spmp_update_nr := 0 }

/-- Macro `IS_WITHIN(inner_start, inner_size, outer_start, outer_size)`, its
two subtractions on machine words. -/
abbrev IS_WITHIN (c : Config) (inner_start inner_size outer_start outer_size : Nat) : Prop :=
  inner_start ≥ outer_start ∧ inner_size ≤ outer_size ∧
    subw c inner_start outer_start ≤ subw c outer_size inner_size

/-- The partition loop of `arch_buffer_validate`, on the part of the
partition array from `p_idx` on, with `bit` the value of
`write ? SPMP_W : SPMP_R`: the value of `ret` when the loop ends, or
nothing when it reads past the end of the array. -/
def validate_loop (c : Config) (start size bit : Nat) : Nat → List Partition → Option Int
  | 0, _ => some (-1)
  | _ + 1, [] => none
  | remaining + 1, part :: rest =>
    if part.size = 0 then
      validate_loop c start size bit (remaining + 1) rest
    else if ¬ IS_WITHIN c start size part.start part.size then
      validate_loop c start size bit remaining rest
    else if part.attr &&& bit ≠ 0 then some 0
    else some (-1)

/-- Function `arch_buffer_validate` for the current thread `cur`, its domain
`d`, and the read-only region `__rom_region_start`, `__rom_region_size`.
`write` is the truth value of the C argument. -/
def arch_buffer_validate (c : Config) (b : Build) (cur : Thread) (d : Domain)
    (rom_region_start rom_region_size : Nat) (addr size : Nat) (write : Bool) : Option Int :=
  if IS_WITHIN c addr size cur.stack_start cur.stack_size then some 0
  else if write = false ∧ IS_WITHIN c addr size rom_region_start rom_region_size then some 0
  else validate_loop c addr size (if write = true then b.SPMP_W else b.SPMP_R)
    d.num_partitions d.partitions

/-- A 32-bit build with 8 slots, assertions compiled out, not for QEMU, no
power-of-two requirement, the permission bits R 1, W 2, X 4, and 32-bit
update counters. -/
def build32 : Build :=
  { CONFIG_SPMP_SLOTS := 8, CONFIG_ASSERT := false, CONFIG_QEMU_TARGET := false,
    CONFIG_MPU_REQUIRES_POWER_OF_TWO_ALIGNMENT := false,
    SPMP_R := 1, SPMP_W := 2, SPMP_X := 4, u_mode_slots := 8, nr_bits := 32 }

/-- The build `build32` for the QEMU target. -/
def build32_qemu : Build := { build32 with CONFIG_QEMU_TARGET := true }

/-- The build `build32` with assertions compiled in. -/
def build32_assert : Build := { build32 with CONFIG_ASSERT := true }

/-- The build `build32` with 64 slots, for which the switch mask takes two
32-bit words. -/
def build32_64 : Build := { build32 with CONFIG_SPMP_SLOTS := 64, u_mode_slots := 64 }

/-- An array with the same value everywhere. -/
def const_array (v : Nat) : Nat → Nat := fun _ => v

/-- The number of used slots (size not 0) of a partition array. -/
def used_slots (ps : List Partition) : Nat :=
  (ps.filter (fun p => decide (p.size ≠ 0))).length

/-- The first partition, in slot order, that is used and contains the
range [start, start + size), the sums taken in unbounded integers. -/
def first_containing (ps : List Partition) (start size : Nat) : Option Partition :=
  ps.find? (fun p => decide (p.size ≠ 0 ∧ p.start ≤ start ∧ start + size ≤ p.start + p.size))

/-- The requests `resync_spmp_domain` makes for the partitions that pass
`keep`, in slot order: write and execute permission, start and size of the
partition. -/
def partition_regions (b : Build) (keep : Partition → Bool) (ps : List Partition) :
    List Region :=
  (ps.filter keep).map (fun p => { perm := b.SPMP_W ||| b.SPMP_X, start := p.start,
                                   size := p.size })

/-- A thread with stack [0x20000, 0x21000), all user-mode shadow entries
zero and the user-mode part not prepared. -/
def thread0 : Thread :=
  { stack_start := 0x20000, stack_size := 0x1000,
    u_mode_spmpaddr_regs := const_array 0, u_mode_spmpcfg_regs := const_array 0,
    u_mode_spmpswitch_reg := const_array 0,
    u_mode_spmp_end_index := 0, u_mode_spmp_domain_offset := 0, u_mode_spmp_update_nr := 0 }

/-- A domain with an unused slot, then a read-only partition
[0x4000, 0x5000), then a read/write partition [0x4000, 0x6000). -/
def domain_ro_rw : Domain :=
  { partitions := [⟨0, 0, 0⟩, ⟨0x4000, 0x1000, 1⟩, ⟨0x4000, 0x2000, 3⟩],
    num_partitions := 2, spmp_update_nr := 2 }

/-- Globals after a boot that used two slots. -/
def global2 : Global :=
  { global_spmp_cfg := 0x1E9E, global_spmp_last_addr := 0x3FFF, global_spmp_end_index := 2 }

/-- The thread `thread0` with its user-mode part marked prepared: domain
offset and end index 3. -/
def thread_prep : Thread :=
  { thread0 with u_mode_spmp_end_index := 3, u_mode_spmp_domain_offset := 3 }

/-- A domain whose only partition is 2 bytes long. -/
def domain_small : Domain :=
  { partitions := [⟨0x1000, 2, 3⟩], num_partitions := 1, spmp_update_nr := 1 }

/-- A domain with a 2-byte partition followed by the partition
[0x4000, 0x5000). -/
def domain_small_then : Domain :=
  { partitions := [⟨0x1000, 2, 3⟩, ⟨0x4000, 0x1000, 3⟩], num_partitions := 2,
    spmp_update_nr := 1 }

/-- A domain, freshly initialised, to which the partition [0x4000, 0x5000)
was then added: its update number is 1. -/
def domain_A : Domain :=
  arch_mem_domain_partition_add build32
    { (arch_mem_domain_init { partitions := [], num_partitions := 0, spmp_update_nr := 77 })
      with partitions := [⟨0x4000, 0x1000, 3⟩], num_partitions := 1 }

/-- A freshly initialised domain without partitions. -/
def domain_B : Domain :=
  arch_mem_domain_init { partitions := [], num_partitions := 0, spmp_update_nr := 77 }

/-- A domain whose update counter holds the largest 32-bit value. -/
def domain_max : Domain :=
  { partitions := [], num_partitions := 0, spmp_update_nr := 0xFFFFFFFF }

/-- The thread `thread0` after `z_riscv_spmp_usermode_prepare` and a first
`z_riscv_spmp_usermode_enable` as a member of `domain_A`. -/
def thread_in_A : Option Thread :=
  (z_riscv_spmp_usermode_prepare rv32 build32 global2 thread0).map
    (fun t => (z_riscv_spmp_usermode_enable rv32 build32 global2 t domain_A).thread)

/-- The build `build32` with 4 slots. -/
def build32_4 : Build := { build32 with CONFIG_SPMP_SLOTS := 4, u_mode_slots := 4 }

/-- The thread `thread0` after `z_riscv_spmp_usermode_prepare` in the 8-slot
build: stack in slot 2, dummy region in slots 3 and 4, domain offset 5. -/
def thread_ready : Thread :=
  (z_riscv_spmp_usermode_prepare rv32 build32 global2 thread0).getD thread0

/-! ## Boot-time initialisation, the stack guard and the fault classifier -/

/-- Options, constants and linker symbols that fatal.c and the stack guard
and boot functions of spmp.c use and that are declared outside them.
`ESF_SIZE` is `sizeof(struct arch_esf)`; `MSTATUS_MPP` and `PRV_U` are from
csr.h; `isr_stack` and `main_stack` are the addresses `z_interrupt_stacks`
and `z_main_stack`; `exc_start`, `exc_end`, `exc_fixup` are the three
addresses of `Z_EXC_HANDLE(z_riscv_user_string_nlen)`; `s_mode_slots` is
`ARRAY_SIZE(thread->arch.s_mode_spmpaddr_regs)`; `irq_stack` is
`z_interrupt_stacks[_current_cpu->id]`. -/
structure Kernel where
  CONFIG_USERSPACE : Bool
  CONFIG_SPMP_STACK_GUARD : Bool
  CONFIG_MULTITHREADING : Bool
  CONFIG_SMP : Bool
  CONFIG_NULL_POINTER_EXCEPTION_DETECTION_SPMP : Bool
  CONFIG_NULL_POINTER_EXCEPTION_REGION_SIZE : Nat
  ESF_SIZE : Nat
  MSTATUS_MPP : Nat
  PRV_U : Nat
  K_THREAD_STACK_RESERVED : Nat
  K_KERNEL_STACK_RESERVED : Nat
  Z_RISCV_STACK_GUARD_SIZE : Nat
  K_ERR_CPU_EXCEPTION : Nat
  K_ERR_STACK_CHK_FAIL : Nat
  isr_stack : Nat
  main_stack : Nat
  irq_stack : Nat
  exc_start : Nat
  exc_end : Nat
  exc_fixup : Nat
  s_mode_slots : Nat
  SPMP_S : Nat
  rom_region_start : Nat
  rom_region_size : Nat
  kernel_ram_start : Nat
  kernel_ram_size : Nat

/-- A `struct arch_esf`: its address, the saved `mepc`, `mstatus`, `sp`
and `ra`, and the other saved registers by number. -/
structure Esf where
  addr : Nat
  mepc : Nat
  mstatus : Nat
  sp : Nat
  ra : Nat
  gpr : Nat → Nat

/-- Function `z_riscv_get_sp_before_exc` of fatal.c (with
`CONFIG_USERSPACE` the saved user stack pointer replaces the kernel one for
a trap taken in user mode). -/
def z_riscv_get_sp_before_exc (c : Config) (k : Kernel) (esf : Esf) : Nat :=
  if k.CONFIG_USERSPACE = true ∧ esf.mstatus &&& k.MSTATUS_MPP = k.PRV_U then esf.sp
  else addw c esf.addr k.ESF_SIZE

/-- Function `bad_stack_pointer` of fatal.c, for the current thread `cur`.
The tests are those of the C function in its order, each under its
`#ifdef`; sums and differences are machine operations, evaluated left to
right. -/
def bad_stack_pointer (c : Config) (k : Kernel) (cur : Thread) (esf : Esf) : Bool :=
  if k.CONFIG_SPMP_STACK_GUARD = true ∧ k.CONFIG_USERSPACE = true ∧
      cur.priv_stack_start ≠ 0 ∧
      addw c esf.addr k.ESF_SIZE ≥ cur.priv_stack_start ∧
      addw c esf.addr k.ESF_SIZE < addw c cur.priv_stack_start k.Z_RISCV_STACK_GUARD_SIZE then
    true
  else if k.CONFIG_SPMP_STACK_GUARD = true ∧ k.CONFIG_USERSPACE = true ∧
      cur.user_capable = true ∧
      addw c esf.addr k.ESF_SIZE ≥ subw c cur.stack_start k.K_THREAD_STACK_RESERVED ∧
      addw c esf.addr k.ESF_SIZE <
        addw c (subw c cur.stack_start k.K_THREAD_STACK_RESERVED)
          k.Z_RISCV_STACK_GUARD_SIZE then
    true
  else if k.CONFIG_SPMP_STACK_GUARD = true ∧ k.CONFIG_MULTITHREADING = true ∧
      addw c esf.addr k.ESF_SIZE ≥ subw c cur.stack_start k.K_KERNEL_STACK_RESERVED ∧
      addw c esf.addr k.ESF_SIZE <
        addw c (subw c cur.stack_start k.K_KERNEL_STACK_RESERVED)
          k.Z_RISCV_STACK_GUARD_SIZE then
    true
  else if k.CONFIG_SPMP_STACK_GUARD = true ∧ k.CONFIG_MULTITHREADING = false ∧
      ((addw c esf.addr k.ESF_SIZE ≥ k.isr_stack ∧
          addw c esf.addr k.ESF_SIZE < addw c k.isr_stack k.Z_RISCV_STACK_GUARD_SIZE) ∨
        (addw c esf.addr k.ESF_SIZE ≥ k.main_stack ∧
          addw c esf.addr k.ESF_SIZE < addw c k.main_stack k.Z_RISCV_STACK_GUARD_SIZE)) then
    true
  else if k.CONFIG_USERSPACE = true ∧ esf.mstatus &&& k.MSTATUS_MPP = 0 ∧
      (esf.sp < cur.stack_start ∨
        esf.sp > subw c (addw c cur.stack_start cur.stack_size) cur.stack_delta) then
    true
  else
    false

/-- A `struct z_exc_handle`: a code range and the address to resume at. -/
structure ExcHandle where
  start : Nat
  last : Nat
  fixup : Nat

/-- The table `exceptions[]` of fatal.c: the one entry
`Z_EXC_HANDLE(z_riscv_user_string_nlen)`.  It exists with
`CONFIG_USERSPACE` only. -/
def exceptions (k : Kernel) : List ExcHandle :=
  if k.CONFIG_USERSPACE = true then
    [{ start := k.exc_start, last := k.exc_end, fixup := k.exc_fixup }]
  else []

/-- The loop over `exceptions[]` in `z_riscv_fault`: the frame with `mepc`
rewritten when an entry matches (the function then returns), nothing when
the loop runs to its end. -/
def fixup_loop : List ExcHandle → Esf → Option Esf
  | [], _ => none
  | h :: hs, esf =>
    if esf.mepc ≥ h.start ∧ esf.mepc < h.last then some { esf with mepc := h.fixup }
    else fixup_loop hs esf

/-- What `z_riscv_fault` does: it returns (`fatal` is `none`) or it calls
`z_riscv_fatal_error(reason, esf)`, which does not return; and the frame it
leaves. -/
structure FaultOut where
  fatal : Option Nat
  esf : Esf

/-- Function `z_riscv_fault` of fatal.c.  The call
`z_riscv_pmp_stackguard_disable()` is under `CONFIG_PMP_STACK_GUARD`, which
a build with SPMP does not set. -/
def z_riscv_fault (c : Config) (k : Kernel) (cur : Thread) (esf : Esf) : FaultOut :=
  match fixup_loop (exceptions k) esf with
  | some e => { fatal := none, esf := e }
  | none =>
    { fatal := some (if bad_stack_pointer c k cur esf = true then k.K_ERR_STACK_CHK_FAIL
        else k.K_ERR_CPU_EXCEPTION)
      esf := esf }

/-- The start addresses of the guard ranges that `bad_stack_pointer` tests
the kernel stack pointer against for the current thread: with the stack
guard built in, the private privileged stack (userspace, when the thread
has one), the reserved area of a user-capable stack (userspace), the
reserved area of a kernel stack (multithreading), or the interrupt and main
stacks (no multithreading). -/
def guard_start (c : Config) (k : Kernel) (cur : Thread) (g : Nat) : Prop :=
  k.CONFIG_SPMP_STACK_GUARD = true ∧
    ((k.CONFIG_USERSPACE = true ∧ cur.priv_stack_start ≠ 0 ∧ g = cur.priv_stack_start) ∨
     (k.CONFIG_USERSPACE = true ∧ cur.user_capable = true ∧
        g = subw c cur.stack_start k.K_THREAD_STACK_RESERVED) ∨
     (k.CONFIG_MULTITHREADING = true ∧
        g = subw c cur.stack_start k.K_KERNEL_STACK_RESERVED) ∨
     (k.CONFIG_MULTITHREADING = false ∧ (g = k.isr_stack ∨ g = k.main_stack)))

/-- The value `stack_bottom` that `z_riscv_spmp_stackguard_prepare`
computes. -/
def stackguard_bottom (c : Config) (k : Kernel) (t : Thread) : Nat :=
  if k.CONFIG_USERSPACE = true ∧ t.priv_stack_start ≠ 0 then t.priv_stack_start
  else if k.CONFIG_USERSPACE = true ∧ t.user_capable = true then
    subw c t.stack_start k.K_THREAD_STACK_RESERVED
  else subw c t.stack_start k.K_KERNEL_STACK_RESERVED

/-- The thread seen through `SPMP_S_MODE(thread)`: its supervisor-mode
arrays in the place of the user-mode ones. -/
def Thread.s_mode_args (t : Thread) : Thread :=
  { t with u_mode_spmpaddr_regs := t.s_mode_spmpaddr_regs,
           u_mode_spmpcfg_regs := t.s_mode_spmpcfg_regs,
           u_mode_spmpswitch_reg := t.s_mode_spmpswitch_reg }

/-- Function `z_riscv_spmp_stackguard_prepare` (it exists with
`CONFIG_SPMP_STACK_GUARD`): seed the supervisor-mode arrays from the
globals, encode the guard region `[stack_bottom, stack_bottom +
Z_RISCV_STACK_GUARD_SIZE)` without permissions, store the cursor. -/
def z_riscv_spmp_stackguard_prepare (c : Config) (k : Kernel) (g : Global) (t : Thread) :
    Option Thread :=
  match z_riscv_spmp_thread_init c g t.s_mode_args with
  | none => none
  | some st0 =>
    some { t with
      s_mode_spmpaddr_regs := (set_spmp_entry c st0 0 (stackguard_bottom c k t)
        k.Z_RISCV_STACK_GUARD_SIZE k.s_mode_slots).2.spmp_addr
      s_mode_spmpcfg_regs := (set_spmp_entry c st0 0 (stackguard_bottom c k t)
        k.Z_RISCV_STACK_GUARD_SIZE k.s_mode_slots).2.spmp_n_cfg
      s_mode_spmpswitch_reg := (set_spmp_entry c st0 0 (stackguard_bottom c k t)
        k.Z_RISCV_STACK_GUARD_SIZE k.s_mode_slots).2.spmp_switch
      s_mode_spmp_end_index := (set_spmp_entry c st0 0 (stackguard_bottom c k t)
        k.Z_RISCV_STACK_GUARD_SIZE k.s_mode_slots).2.index }

/-- The register `spmp_cfg[0]` read back from the byte view: bytes 0 to
`RV_REGSIZE - 1`, little endian. -/
def cfg_word (cfg : Nat → Nat) : Nat → Nat
  | 0 => 0
  | n + 1 => cfg_word cfg n + (cfg n % 256) <<< (8 * n)

/-- What `z_riscv_spmp_init` leaves: whether it stopped, the return values
of its `set_spmp_entry` calls, the hardware writes, and the globals. -/
structure InitOut where
  stop : Option Stop
  oks : List Bool
  hw : List HwWrite
  global : Global

/-- The `set_spmp_entry` calls of `z_riscv_spmp_init`, in order: the
read-only region, the kernel RAM, the null-pointer guard and the interrupt
stack guard when configured. -/
def init_regions (b : Build) (k : Kernel) : List Region :=
  [{ perm := k.SPMP_S ||| b.SPMP_W ||| b.SPMP_X, start := k.rom_region_start,
     size := k.rom_region_size },
   { perm := b.SPMP_W ||| b.SPMP_X, start := k.kernel_ram_start,
     size := k.kernel_ram_size }] ++
  (if k.CONFIG_NULL_POINTER_EXCEPTION_DETECTION_SPMP = true then
    [{ perm := 0, start := 0, size := k.CONFIG_NULL_POINTER_EXCEPTION_REGION_SIZE }]
   else []) ++
  (if k.CONFIG_SPMP_STACK_GUARD = true then
    [{ perm := 0, start := k.irq_stack, size := k.Z_RISCV_STACK_GUARD_SIZE }]
   else [])

/-- Function `z_riscv_spmp_init`, run with globals `g`.  `addr0` and `cfg0`
are the contents of the uninitialised locals `spmp_addr` and `spmp_cfg`;
`spmp_switch` starts as zero.  No return value of `set_spmp_entry` is looked
at.  The local `spmp_cfg[1]` holds `RV_REGSIZE` config bytes: when the
cursor went past that, a `set_spmp_entry` call has stored a config byte
outside the array, which is undefined, and the model stops with
`out_of_array`.  With `CONFIG_SMP` and the stack guard the last address is
overwritten with `-1L`, and the three `__ASSERT`s compare with the globals
of a core that booted before. -/
def z_riscv_spmp_init (c : Config) (b : Build) (k : Kernel) (g : Global)
    (addr0 cfg0 : Nat → Nat) : InitOut :=
  let enc := set_spmp_entries c b.CONFIG_SPMP_SLOTS
    { index := 0, spmp_addr := addr0, spmp_n_cfg := cfg0, spmp_switch := fun _ => 0 }
    (init_regions b k)
  let w := write_spmp_entries c b 0 enc.2.index true enc.2.spmp_addr enc.2.spmp_n_cfg
    enc.2.spmp_switch b.CONFIG_SPMP_SLOTS
  if c.RV_REGSIZE < enc.2.index then
    { stop := some Stop.out_of_array, oks := enc.1, hw := [], global := g }
  else
    match w.stop with
    | some s => { stop := some s, oks := enc.1, hw := w.hw, global := g }
    | none =>
      let addr1 :=
        if k.CONFIG_SMP = true ∧ k.CONFIG_SPMP_STACK_GUARD = true then
          upd enc.2.spmp_addr (enc.2.index - 1) (2 ^ c.bits - 1)
        else enc.2.spmp_addr
      if k.CONFIG_SMP = true ∧ b.CONFIG_ASSERT = true ∧ g.global_spmp_end_index ≠ 0 ∧
          ¬ (g.global_spmp_end_index = enc.2.index ∧
             g.global_spmp_cfg = cfg_word w.spmp_n_cfg c.RV_REGSIZE ∧
             g.global_spmp_last_addr = addr1 (enc.2.index - 1)) then
        { stop := some Stop.assertion, oks := enc.1, hw := w.hw, global := g }
      else
        { stop := none, oks := enc.1, hw := w.hw,
          global := { global_spmp_cfg := cfg_word w.spmp_n_cfg c.RV_REGSIZE
                      global_spmp_last_addr := addr1 (enc.2.index - 1)
                      global_spmp_end_index := enc.2.index } }

/-- The lower bound of the range that the hardware gives a TOR entry in slot
`i`: 0 for slot 0, else the address field of the slot before, times 4. -/
def tor_lower (spmp_addr : Nat → Nat) (i : Nat) : Nat :=
  if i = 0 then 0 else spmp_addr (i - 1) <<< 2

/-- The upper bound (exclusive) of the range of a TOR entry in slot `i`:
its address field times 4. -/
def tor_upper (spmp_addr : Nat → Nat) (i : Nat) : Nat :=
  spmp_addr i <<< 2

/-- A kernel configuration for a 32-bit build with userspace, the stack
guard and multithreading: frames of 128 bytes, guard of 64 bytes inside a
reserved area of 64 bytes, the probe routine at [0x80001000, 0x80001020)
with fixup 0x80001040, four region parameters for boot. -/
def kernel32 : Kernel :=
  { CONFIG_USERSPACE := true, CONFIG_SPMP_STACK_GUARD := true, CONFIG_MULTITHREADING := true,
    CONFIG_SMP := false, CONFIG_NULL_POINTER_EXCEPTION_DETECTION_SPMP := false,
    CONFIG_NULL_POINTER_EXCEPTION_REGION_SIZE := 0x400,
    ESF_SIZE := 128, MSTATUS_MPP := 0x100, PRV_U := 0,
    K_THREAD_STACK_RESERVED := 64, K_KERNEL_STACK_RESERVED := 64,
    Z_RISCV_STACK_GUARD_SIZE := 64,
    K_ERR_CPU_EXCEPTION := 0, K_ERR_STACK_CHK_FAIL := 2,
    isr_stack := 0x80010000, main_stack := 0x80012000, irq_stack := 0x80010000,
    exc_start := 0x80001000, exc_end := 0x80001020, exc_fixup := 0x80001040,
    s_mode_slots := 8, SPMP_S := 0x80,
    rom_region_start := 0x80000000, rom_region_size := 0x3000,
    kernel_ram_start := 0x80004000, kernel_ram_size := 0x3000 }

/-- A frame at 0x2FF00 of a trap taken in supervisor mode at pc
0x80002000. -/
def esf_kernel : Esf :=
  { addr := 0x2FF00, mepc := 0x80002000, mstatus := 0x100, sp := 0, ra := 0,
    gpr := fun _ => 0 }

/-- A frame at 0x2FF00 of a trap taken in user mode at pc 0x80002000 with the
user stack pointer at 0x1FF00, below the stack of `thread0`. -/
def esf_user_low : Esf :=
  { addr := 0x2FF00, mepc := 0x80002000, mstatus := 0, sp := 0x1FF00, ra := 0,
    gpr := fun _ => 0 }

/-- A frame at 0x1FF50 of a trap taken in supervisor mode: the kernel stack
pointer before the trap, 0x1FFD0, is in the guard below the stack of
`thread0`. -/
def esf_guard : Esf :=
  { addr := 0x1FF50, mepc := 0x80002000, mstatus := 0x100, sp := 0, ra := 0,
    gpr := fun _ => 0 }

/-- A frame of a trap taken inside the probe routine of `kernel32`. -/
def esf_probe : Esf :=
  { addr := 0x2FF00, mepc := 0x80001010, mstatus := 0x100, sp := 0x7777, ra := 0x80000123,
    gpr := fun _ => 5 }

/-- Globals before any core has run `z_riscv_spmp_init`. -/
def global0 : Global :=
  { global_spmp_cfg := 0, global_spmp_last_addr := 0, global_spmp_end_index := 0 }

/-- The config bytes that `resync_spmp_domain` can store: 0 for the boundary
slot of a two-slot TOR encoding, else write and execute permission together
with one of the three modes. -/
def wx_config (c : Config) (b : Build) (v : Nat) : Prop :=
  v = 0 ∨ v = (b.SPMP_W ||| b.SPMP_X ||| c.SPMP_TOR) % 256 ∨
    v = (b.SPMP_W ||| b.SPMP_X ||| c.SPMP_NA4) % 256 ∨
    v = (b.SPMP_W ||| b.SPMP_X ||| c.SPMP_NAPOT) % 256

/-- The domain `domain_small_then` with other attributes on its partitions. -/
def domain_small_then_ro : Domain :=
  { partitions := [⟨0x1000, 2, 0⟩, ⟨0x4000, 0x1000, 1⟩], num_partitions := 2,
    spmp_update_nr := 1 }

/-- A thread with a private privileged stack at 0x30000. -/
def thread_priv : Thread := { thread0 with priv_stack_start := 0x30000 }

/-- A frame at 0x2FFA0: the kernel stack pointer before the trap, 0x30020,
is in the guard of the private privileged stack of `thread_priv`. -/
def esf_priv_guard : Esf :=
  { addr := 0x2FFA0, mepc := 0x80002000, mstatus := 0x100, sp := 0, ra := 0,
    gpr := fun _ => 0 }

/-! ## Machine-word and bit lemmas -/

theorem two_pow_land_pred (k : Nat) : 2 ^ k &&& (2 ^ k - 1) = 0 := by
  rw [Nat.and_pow_two_sub_one_eq_mod, Nat.mod_self]

theorem land_pred_eq_zero (n : Nat) (h : n &&& (n - 1) = 0) : n = 0 ∨ ∃ k, n = 2 ^ k := by
  induction n using Nat.strong_induction_on with
  | _ n ih =>
    rcases Nat.lt_or_ge n 2 with h2 | h2
    · rcases Nat.eq_zero_or_pos n with h0 | h0
      · exact Or.inl h0
      · exact Or.inr ⟨0, by omega⟩
    · right
      have hdiv : n / 2 &&& (n - 1) / 2 = 0 := by
        rw [← Nat.and_div_two, h]
      rcases Nat.mod_two_eq_zero_or_one n with he | ho
      · have e1 : (n - 1) / 2 = n / 2 - 1 := by omega
        rw [e1] at hdiv
        rcases ih (n / 2) (by omega) hdiv with h0 | ⟨k, hk⟩
        · omega
        · exact ⟨k + 1, by rw [pow_succ]; omega⟩
      · have e1 : (n - 1) / 2 = n / 2 := by omega
        rw [e1, Nat.and_self] at hdiv
        omega

theorem shiftRight_lor (a b n : Nat) : (a ||| b) >>> n = a >>> n ||| b >>> n := by
  apply Nat.eq_of_testBit_eq
  intro i
  simp

theorem shr_shl_two (a : Nat) (h : a % 4 = 0) : (a >>> 2) <<< 2 = a := by
  rw [Nat.shiftRight_eq_div_pow, Nat.shiftLeft_eq]
  omega

theorem testBit_of_mod_two_pow_eq_zero (a k i : Nat) (h : a % 2 ^ k = 0) (hi : i < k) :
    a.testBit i = false := by
  have := Nat.testBit_mod_two_pow a k i
  rw [h] at this
  simp [hi] at this
  exact this.symm ▸ rfl

theorem napot_decode (w k start : Nat) (hs : start < 2 ^ w) (hk : k ≤ w)
    (h2 : 2 ≤ k ∨ w ≤ k) (ha : start % 2 ^ k = 0) :
    ((((start ||| ((2 ^ k - 1) >>> 1)) >>> 2) <<< 2) % 2 ^ w) &&&
      (2 ^ w - 1 - (2 ^ k - 1) % 2 ^ w) = start := by
  have hlt : 2 ^ k - 1 < 2 ^ w := by
    have : 2 ^ k ≤ 2 ^ w := Nat.pow_le_pow_right (by decide) hk
    have : 0 < 2 ^ k := Nat.two_pow_pos k
    omega
  rw [Nat.mod_eq_of_lt hlt]
  have e : 2 ^ w - 1 - (2 ^ k - 1) = 2 ^ w - ((2 ^ k - 1) + 1) := by omega
  rw [e]
  apply Nat.eq_of_testBit_eq
  intro i
  rw [Nat.testBit_and, Nat.testBit_two_pow_sub_succ hlt, Nat.testBit_mod_two_pow,
    Nat.testBit_shiftLeft, Nat.testBit_shiftRight, Nat.testBit_or, Nat.testBit_shiftRight,
    Nat.testBit_two_pow_sub_one, Nat.testBit_two_pow_sub_one]
  by_cases hiw : i < w
  · by_cases hik : i < k
    · have := testBit_of_mod_two_pow_eq_zero start k i ha hik
      simp [hiw, hik, this]
    · have hi2 : 2 ≤ i := by omega
      have e2 : 2 + (i - 2) = i := by omega
      have e3 : ¬ (1 + i < k) := by omega
      simp [hiw, hik, hi2, e2, e3]
  · have : start.testBit i = false :=
      Nat.testBit_lt_two_pow (lt_of_lt_of_le hs (Nat.pow_le_pow_right (by decide) (by omega)))
    simp [hiw, this]

/-- The machine word `0 - 1` is all ones. -/
theorem subw_zero_one (c : Config) : subw c 0 1 = 2 ^ c.bits - 1 := by
  unfold subw
  have hp : 0 < 2 ^ c.bits := Nat.two_pow_pos _
  rcases Nat.eq_or_lt_of_le (Nat.succ_le_of_lt hp) with h1 | h1
  · rw [← h1]
  · rw [Nat.mod_eq_of_lt h1, Nat.zero_add]
    exact Nat.mod_eq_of_lt (by omega)

/-- For a nonzero machine word `size - 1` does not wrap. -/
theorem subw_pos_one (c : Config) (size : Nat) (h0 : 0 < size) (h : size < 2 ^ c.bits) :
    subw c size 1 = size - 1 := by
  unfold subw
  have h1 : 1 < 2 ^ c.bits := by omega
  rw [Nat.mod_eq_of_lt h1]
  have e : size + (2 ^ c.bits - 1) = (size - 1) + 2 ^ c.bits := by omega
  rw [e, Nat.add_mod_right]
  exact Nat.mod_eq_of_lt (by omega)

/-- The two bit tests of the NAPOT branch say: `size` is zero or a power of
two, and `start` is a multiple of it (`start % 0 = start`, so for size zero
that is `start = 0`). -/
theorem napot_test_iff (c : Config) (start size : Nat) (hs : start < 2 ^ c.bits)
    (hz : size < 2 ^ c.bits) :
    (size &&& subw c size 1 = 0 ∧ start &&& subw c size 1 = 0) ↔
      ((size = 0 ∨ ∃ k, size = 2 ^ k) ∧ start % size = 0) := by
  rcases Nat.eq_zero_or_pos size with h0 | h0
  · subst h0
    rw [subw_zero_one]
    simp [Nat.mod_eq_of_lt hs]
  · rw [subw_pos_one c size h0 hz]
    constructor
    · rintro ⟨h1, h2⟩
      rcases land_pred_eq_zero size h1 with h | ⟨k, hk⟩
      · omega
      · refine ⟨Or.inr ⟨k, hk⟩, ?_⟩
        rw [hk, Nat.and_pow_two_sub_one_eq_mod] at h2
        rw [hk]; exact h2
    · rintro ⟨h1 | ⟨k, hk⟩, h2⟩
      · omega
      · subst hk
        exact ⟨two_pow_land_pred k, by rw [Nat.and_pow_two_sub_one_eq_mod]; exact h2⟩

/-! ## The branches of `set_spmp_entry` -/

theorem set_spmp_entry_full (c : Config) (st : State) (perm start size index_limit : Nat)
    (h : index_limit ≤ st.index) :
    set_spmp_entry c st perm start size index_limit = (false, st) := by
  simp [set_spmp_entry, h]

theorem set_spmp_entry_tor_cont (c : Config) (st : State) (perm start size index_limit : Nat)
    (h : st.index < index_limit) (hc : tor_continuation c st start) :
    set_spmp_entry c st perm start size index_limit =
      (true, write_one c st (SPMP_ADDR (addw c start size)) (perm ||| c.SPMP_TOR)) := by
  unfold set_spmp_entry
  rw [if_neg (by omega), if_pos hc]

theorem set_spmp_entry_na4 (c : Config) (st : State) (perm start size index_limit : Nat)
    (h : st.index < index_limit) (hc : ¬ tor_continuation c st start)
    (h4 : na4_applies c size) :
    set_spmp_entry c st perm start size index_limit =
      (true, write_one c st (SPMP_ADDR start) (perm ||| c.SPMP_NA4)) := by
  unfold set_spmp_entry
  rw [if_neg (by omega), if_neg hc, if_pos h4]

theorem set_spmp_entry_napot (c : Config) (st : State) (perm start size index_limit : Nat)
    (h : st.index < index_limit) (hc : ¬ tor_continuation c st start)
    (h4 : ¬ na4_applies c size) (hn : napot_applies c start size) :
    set_spmp_entry c st perm start size index_limit =
      (true, write_one c st (SPMP_ADDR_NAPOT c start size) (perm ||| c.SPMP_NAPOT)) := by
  unfold set_spmp_entry
  rw [if_neg (by omega), if_neg hc, if_neg h4, if_pos hn]

theorem set_spmp_entry_tor_two (c : Config) (st : State) (perm start size index_limit : Nat)
    (h : st.index + 1 < index_limit) (hc : ¬ tor_continuation c st start)
    (h4 : ¬ na4_applies c size) (hn : ¬ napot_applies c start size) (ht : c.tor = true) :
    set_spmp_entry c st perm start size index_limit =
      (true, write_two c st (SPMP_ADDR start) (SPMP_ADDR (addw c start size))
        (perm ||| c.SPMP_TOR)) := by
  unfold set_spmp_entry
  rw [if_neg (by omega), if_neg hc, if_neg h4, if_neg hn, if_neg (by omega), if_pos ht]

theorem set_spmp_entry_no_room (c : Config) (st : State) (perm start size index_limit : Nat)
    (h : index_limit ≤ st.index + 1) (hc : ¬ tor_continuation c st start)
    (h4 : ¬ na4_applies c size) (hn : ¬ napot_applies c start size) :
    set_spmp_entry c st perm start size index_limit = (false, st) := by
  unfold set_spmp_entry
  rw [if_neg hc, if_neg h4, if_neg hn]
  split_ifs with h1 h2 h3
  · rfl
  · rfl
  · exact absurd ⟨h3, h⟩ h2
  · rfl

theorem set_spmp_entry_bad_range (c : Config) (st : State) (perm start size index_limit : Nat)
    (hc : ¬ tor_continuation c st start)
    (h4 : ¬ na4_applies c size) (hn : ¬ napot_applies c start size) (ht : c.tor = false) :
    set_spmp_entry c st perm start size index_limit = (false, st) := by
  unfold set_spmp_entry
  split_ifs <;> first | rfl | (exfalso; simp_all)

/-- Every call ends in one of the three shapes: failure with the state
untouched, one entry written at the cursor, or two entries written. -/
theorem set_spmp_entry_shape (c : Config) (st : State) (perm start size index_limit : Nat) :
    set_spmp_entry c st perm start size index_limit = (false, st) ∨
    (st.index < index_limit ∧ ∃ a g,
      set_spmp_entry c st perm start size index_limit = (true, write_one c st a g)) ∨
    (st.index + 1 < index_limit ∧ c.tor = true ∧ ¬ tor_continuation c st start ∧ ∃ a b g,
      set_spmp_entry c st perm start size index_limit = (true, write_two c st a b g)) := by
  unfold set_spmp_entry
  split_ifs with h1 h2 h3 h4 h5 h6
  · exact Or.inl rfl
  · exact Or.inr (Or.inl ⟨by omega, _, _, rfl⟩)
  · exact Or.inr (Or.inl ⟨by omega, _, _, rfl⟩)
  · exact Or.inr (Or.inl ⟨by omega, _, _, rfl⟩)
  · exact Or.inl rfl
  · have hroom : st.index + 1 < index_limit := by
      by_contra hh
      exact h5 ⟨h6, by omega⟩
    exact Or.inr (Or.inr ⟨hroom, h6, h2, _, _, _, rfl⟩)
  · exact Or.inl rfl

/-! ## C1: the selection order -/

/-- C2 (as stated, refuted): from an empty array the adjacent regions
(0x1000,0x1000) and (0x2000,0x3000) are both encoded successfully, but the
first is a NAPOT entry, whose address field is not the region end, so the
second cannot continue it and takes two slots. -/
theorem C2_counterexample :
    (set_spmp_entry rv32 (empty_at 0) 3 0x1000 0x1000 8).1 = true ∧
    (set_spmp_entry rv32 (set_spmp_entry rv32 (empty_at 0) 3 0x1000 0x1000 8).2
      3 0x2000 0x3000 8).1 = true ∧
    addw rv32 0x1000 0x1000 = 0x2000 ∧
    (set_spmp_entry rv32 (set_spmp_entry rv32 (empty_at 0) 3 0x1000 0x1000 8).2
      3 0x2000 0x3000 8).2.index =
      (set_spmp_entry rv32 (empty_at 0) 3 0x1000 0x1000 8).2.index + 2 := by
  decide

/-- C2 (amended): for two consecutive successful calls on the same arrays
with start1 + size1 == start2 (machine sum), when the first call encoded
its region with TOR (the continuation rule applied to it, or neither NA4
nor NAPOT did), the second call advances the cursor by exactly one; and
encoding (0x1000,0x1000) then (0x2000,0x1000) from an empty array ends
with the cursor at 2. -/
theorem C2_adjacent_after_tor (c : Config) (st : State)
    (perm1 start1 size1 perm2 start2 size2 index_limit : Nat)
    (ht : c.tor = true)
    (hadj : addw c start1 size1 = start2)
    (hfirst : tor_continuation c st start1 ∨
      (¬ na4_applies c size1 ∧ ¬ napot_applies c start1 size1))
    (h1 : (set_spmp_entry c st perm1 start1 size1 index_limit).1 = true)
    (h2 : (set_spmp_entry c (set_spmp_entry c st perm1 start1 size1 index_limit).2
      perm2 start2 size2 index_limit).1 = true) :
    (set_spmp_entry c (set_spmp_entry c st perm1 start1 size1 index_limit).2
      perm2 start2 size2 index_limit).2.index =
      (set_spmp_entry c st perm1 start1 size1 index_limit).2.index + 1 ∧
    (set_spmp_entry rv32 (set_spmp_entry rv32 (empty_at 0) perm1 0x1000 0x1000 8).2
      perm2 0x2000 0x1000 8).2.index = 2 := by
  constructor
  · have hidx : st.index < index_limit := by
      by_contra hh
      rw [set_spmp_entry_full c st perm1 start1 size1 index_limit (by omega)] at h1
      exact Bool.noConfusion h1
    -- after the first call the entry before the cursor holds the region end
    have hprev : tor_continuation c (set_spmp_entry c st perm1 start1 size1 index_limit).2
        start2 := by
      by_cases hc : tor_continuation c st start1
      · rw [set_spmp_entry_tor_cont c st perm1 start1 size1 index_limit hidx hc]
        refine ⟨ht, Or.inr ⟨Nat.succ_ne_zero _, ?_⟩⟩
        simp [write_one, upd, hadj]
      · rcases hfirst with hf | ⟨hf4, hfn⟩
        · exact absurd hf hc
        · have hroom : st.index + 1 < index_limit := by
            by_contra hh
            rw [set_spmp_entry_no_room c st perm1 start1 size1 index_limit (by omega)
              hc hf4 hfn] at h1
            exact Bool.noConfusion h1
          rw [set_spmp_entry_tor_two c st perm1 start1 size1 index_limit hroom hc hf4 hfn ht]
          refine ⟨ht, Or.inr ⟨Nat.succ_ne_zero _, ?_⟩⟩
          simp [write_two, upd, hadj]
    have hidx2 : (set_spmp_entry c st perm1 start1 size1 index_limit).2.index < index_limit := by
      by_contra hh
      rw [set_spmp_entry_full c _ perm2 start2 size2 index_limit (by omega)] at h2
      exact Bool.noConfusion h2
    rw [set_spmp_entry_tor_cont c _ perm2 start2 size2 index_limit hidx2 hprev]
    rfl
  · rw [set_spmp_entry_napot rv32 (empty_at 0) perm1 0x1000 0x1000 8 (by decide) (by decide)
      (by decide) (by decide)]
    have hprev : (write_one rv32 (empty_at 0) (SPMP_ADDR_NAPOT rv32 0x1000 0x1000)
        (perm1 ||| rv32.SPMP_NAPOT)).spmp_addr 0 = 0x5FF := by
      simp only [write_one, upd, empty_at, if_true]
      decide
    rw [set_spmp_entry_napot rv32 _ perm2 0x2000 0x1000 8 (by simp [write_one, empty_at])
      (fun h => by
        rcases h.2 with ⟨h0, _⟩ | ⟨_, h1⟩
        · exact absurd h0 (by simp [write_one, empty_at])
        · rw [show (write_one rv32 (empty_at 0) (SPMP_ADDR_NAPOT rv32 0x1000 0x1000)
            (perm1 ||| rv32.SPMP_NAPOT)).index - 1 = 0 from rfl, hprev] at h1
          exact absurd h1 (by decide))
      (by decide) (by decide)]
    rfl

/-- C2 (amended), at a concrete pair: (0,0x1000) by TOR continuation at
slot 0, then (0x1000,0x3000), which continues it. -/
theorem C2_adjacent_after_tor_witness :
    (set_spmp_entry rv32 (set_spmp_entry rv32 (empty_at 0) 3 0 0x1000 8).2
      3 0x1000 0x3000 8).2.index =
      (set_spmp_entry rv32 (empty_at 0) 3 0 0x1000 8).2.index + 1 ∧
    (set_spmp_entry rv32 (set_spmp_entry rv32 (empty_at 0) 3 0x1000 0x1000 8).2
      3 0x2000 0x1000 8).2.index = 2 :=
  C2_adjacent_after_tor rv32 (empty_at 0) 3 0 0x1000 3 0x1000 0x3000 8 rfl (by decide)
    (Or.inl (by decide)) (by decide) (by decide)

/-! ## C3 to C6: NAPOT and NA4 encodings -/

/-- The NAPOT branch condition holds for a size that is zero or a power of
two other than 4 with start a multiple of it. -/
theorem napot_applies_of_pot (c : Config) (start size : Nat) (hn : c.napot = true)
    (h4 : size ≠ 4) (hs : start < 2 ^ c.bits) (hz : size < 2 ^ c.bits)
    (hp : (size = 0 ∨ ∃ k, size = 2 ^ k) ∧ start % size = 0) :
    napot_applies c start size :=
  ⟨hn, ((napot_test_iff c start size hs hz).mpr hp).1,
    ((napot_test_iff c start size hs hz).mpr hp).2, Or.inr h4⟩

/-- C4: whenever `set_spmp_entry` takes the NAPOT encoding (NAPOT enabled,
a free slot, no TOR continuation, size a power of two other than 4, or
zero, start a multiple of size; start and size machine words, size 4-byte
aligned), the address field written is (start | ((size-1)>>1)) >> 2 and
decoding it gives back start: (A<<2) & ~(size-1) == start in machine-word
arithmetic; for (0x80000000, 0x1000) in the 32-bit build the field is
0x200001FF. -/
theorem C4_napot_roundtrip (c : Config) (st : State) (perm start size index_limit : Nat)
    (hn : c.napot = true) (hidx : st.index < index_limit)
    (hc : ¬ tor_continuation c st start)
    (h4 : size ≠ 4) (hz4 : size % 4 = 0)
    (hs : start < 2 ^ c.bits) (hz : size < 2 ^ c.bits)
    (hp : (size = 0 ∨ ∃ k, size = 2 ^ k) ∧ start % size = 0) :
    (set_spmp_entry c st perm start size index_limit).1 = true ∧
    (set_spmp_entry c st perm start size index_limit).2.index = st.index + 1 ∧
    (set_spmp_entry c st perm start size index_limit).2.spmp_n_cfg st.index =
      (perm ||| c.SPMP_NAPOT) % 256 ∧
    (set_spmp_entry c st perm start size index_limit).2.spmp_addr st.index =
      (start ||| (subw c size 1 >>> 1)) >>> 2 ∧
    shlw c ((set_spmp_entry c st perm start size index_limit).2.spmp_addr st.index) 2 &&&
      notw c (subw c size 1) = start ∧
    (set_spmp_entry rv32 (empty_at 0) perm 0x80000000 0x1000 8).2.spmp_addr 0 =
      0x200001FF := by
  have hr := set_spmp_entry_napot c st perm start size index_limit hidx hc (fun h => h4 h.2)
    (napot_applies_of_pot c start size hn h4 hs hz hp)
  have haddr : (set_spmp_entry c st perm start size index_limit).2.spmp_addr st.index =
      (start ||| (subw c size 1 >>> 1)) >>> 2 := by
    rw [hr]
    simp [write_one, upd, SPMP_ADDR_NAPOT, SPMP_ADDR, NAPOT_RANGE]
  refine ⟨by rw [hr], by rw [hr]; rfl, by rw [hr]; simp [write_one, upd], haddr, ?_, ?_⟩
  · rw [haddr]
    unfold shlw notw
    rcases hp with ⟨h0 | ⟨k, hk⟩, ha⟩
    · subst h0
      have hs0 : start = 0 := by simpa using ha
      subst hs0
      rw [subw_zero_one]
      exact napot_decode c.bits c.bits 0 hs (le_refl _) (Or.inr (le_refl _)) (Nat.zero_mod _)
    · subst hk
      have hk2 : 2 ≤ k := by
        rcases k with _ | _ | k
        · simp at hz4
        · simp at hz4
        · omega
      have hkw : k < c.bits := (Nat.pow_lt_pow_iff_right (by decide)).mp hz
      rw [subw_pos_one c _ (Nat.two_pow_pos k) hz]
      exact napot_decode c.bits k start hs (le_of_lt hkw) (Or.inl hk2) ha
  · rw [set_spmp_entry_napot rv32 (empty_at 0) perm 0x80000000 0x1000 8 (by decide) (by decide)
      (by decide) (by decide)]
    simp only [write_one, upd, empty_at, if_true]
    decide

/-- C4, at a concrete call: (0x80000000, 0x1000) at cursor 0 of the 32-bit
build. -/
theorem C4_napot_roundtrip_witness :
    (set_spmp_entry rv32 (empty_at 0) 3 0x80000000 0x1000 8).2.spmp_addr (empty_at 0).index =
      (0x80000000 ||| (subw rv32 0x1000 1 >>> 1)) >>> 2 ∧
    shlw rv32 ((set_spmp_entry rv32 (empty_at 0) 3 0x80000000 0x1000 8).2.spmp_addr
      (empty_at 0).index) 2 &&& notw rv32 (subw rv32 0x1000 1) = 0x80000000 :=
  have h := C4_napot_roundtrip rv32 (empty_at 0) 3 0x80000000 0x1000 8 rfl (by decide)
    (by decide) (by decide) (by decide) (by decide) (by decide)
    ⟨Or.inr ⟨12, by decide⟩, by decide⟩
  ⟨h.2.2.2.1, h.2.2.2.2.1⟩

/-- C5 (as stated, refuted): with NA4 enabled, at cursor 0 the region
(0, 4) has a free slot, but the TOR continuation rule comes first: the
entry written has config perm|TOR and address field 1, which shifted left
by 2 is 4, not the start 0. -/
theorem C5_counterexample :
    rv32.na4 = true ∧ (0 : Nat) % 4 = 0 ∧ (empty_at 0).index < 8 ∧
    (set_spmp_entry rv32 (empty_at 0) 3 0 4 8).2.spmp_n_cfg 0 = (3 ||| rv32.SPMP_TOR) % 256 ∧
    (set_spmp_entry rv32 (empty_at 0) 3 0 4 8).2.spmp_n_cfg 0 ≠ (3 ||| rv32.SPMP_NA4) % 256 ∧
    shlw rv32 ((set_spmp_entry rv32 (empty_at 0) 3 0 4 8).2.spmp_addr 0) 2 ≠ 0 := by
  decide

/-- C5 (amended): with NA4 enabled, for every 4-byte-aligned machine-word
start, size == 4 and every cursor state with a free slot at which the TOR
continuation rule does not apply, `set_spmp_entry` succeeds and writes
exactly one entry, at the cursor, with config byte perm|NA4, whose address
field shifted left by 2 equals start. -/
theorem C5_na4_selected (c : Config) (st : State) (perm start index_limit : Nat)
    (h4 : c.na4 = true) (hidx : st.index < index_limit)
    (hc : ¬ tor_continuation c st start)
    (hs4 : start % 4 = 0) (hs : start < 2 ^ c.bits) :
    set_spmp_entry c st perm start 4 index_limit =
      (true, write_one c st (SPMP_ADDR start) (perm ||| c.SPMP_NA4)) ∧
    (set_spmp_entry c st perm start 4 index_limit).2.spmp_n_cfg st.index =
      (perm ||| c.SPMP_NA4) % 256 ∧
    shlw c ((set_spmp_entry c st perm start 4 index_limit).2.spmp_addr st.index) 2 =
      start := by
  have hr := set_spmp_entry_na4 c st perm start 4 index_limit hidx hc ⟨h4, rfl⟩
  refine ⟨hr, by rw [hr]; simp [write_one, upd], ?_⟩
  rw [hr]
  simp only [write_one, upd, if_true, SPMP_ADDR, shlw]
  rw [shr_shl_two start hs4]
  exact Nat.mod_eq_of_lt hs

/-- C5 (amended), at a concrete call: (0x1000, 4) at cursor 0. -/
theorem C5_na4_selected_witness :
    set_spmp_entry rv32 (empty_at 0) 3 0x1000 4 8 =
      (true, write_one rv32 (empty_at 0) (SPMP_ADDR 0x1000) (3 ||| rv32.SPMP_NA4)) ∧
    (set_spmp_entry rv32 (empty_at 0) 3 0x1000 4 8).2.spmp_n_cfg (empty_at 0).index =
      (3 ||| rv32.SPMP_NA4) % 256 ∧
    shlw rv32 ((set_spmp_entry rv32 (empty_at 0) 3 0x1000 4 8).2.spmp_addr
      (empty_at 0).index) 2 = 0x1000 :=
  C5_na4_selected rv32 (empty_at 0) 3 0x1000 8 rfl (by decide) (by decide) (by decide)
    (by decide)

/-- C6 (as stated, refuted): the region (0x80000000, 0x1000) is encoded in
NAPOT mode with address field 0x200001FF, while
(start >> 2) | ((size - 1) >> 2) is 0x200003FF. -/
theorem C6_counterexample :
    (set_spmp_entry rv32 (empty_at 0) 3 0x80000000 0x1000 8).1 = true ∧
    (set_spmp_entry rv32 (empty_at 0) 3 0x80000000 0x1000 8).2.spmp_n_cfg 0 =
      (3 ||| rv32.SPMP_NAPOT) % 256 ∧
    (set_spmp_entry rv32 (empty_at 0) 3 0x80000000 0x1000 8).2.spmp_addr 0 = 0x200001FF ∧
    (0x80000000 >>> 2) ||| ((0x1000 - 1) >>> 2) = 0x200003FF ∧
    (set_spmp_entry rv32 (empty_at 0) 3 0x80000000 0x1000 8).2.spmp_addr 0 ≠
      (0x80000000 >>> 2) ||| ((0x1000 - 1) >>> 2) := by
  decide

/-- C6 (amended): for every region that `set_spmp_entry` encodes in NAPOT
mode (NAPOT enabled, a free slot, no TOR continuation, size zero or a power
of two other than 4, start a multiple of size), the written address field
equals (start >> 2) | ((size - 1) >> 3), with size - 1 a machine word. -/
theorem C6_napot_field (c : Config) (st : State) (perm start size index_limit : Nat)
    (hn : c.napot = true) (hidx : st.index < index_limit)
    (hc : ¬ tor_continuation c st start) (h4 : size ≠ 4)
    (hs : start < 2 ^ c.bits) (hz : size < 2 ^ c.bits)
    (hp : (size = 0 ∨ ∃ k, size = 2 ^ k) ∧ start % size = 0) :
    set_spmp_entry c st perm start size index_limit =
      (true, write_one c st ((start >>> 2) ||| (subw c size 1 >>> 3))
        (perm ||| c.SPMP_NAPOT)) ∧
    (set_spmp_entry c st perm start size index_limit).2.spmp_addr st.index =
      (start >>> 2) ||| (subw c size 1 >>> 3) := by
  have hr := set_spmp_entry_napot c st perm start size index_limit hidx hc (fun h => h4 h.2)
    (napot_applies_of_pot c start size hn h4 hs hz hp)
  have hf : SPMP_ADDR_NAPOT c start size = (start >>> 2) ||| (subw c size 1 >>> 3) := by
    unfold SPMP_ADDR_NAPOT SPMP_ADDR NAPOT_RANGE
    rw [shiftRight_lor, ← Nat.shiftRight_add]
  rw [hf] at hr
  refine ⟨hr, ?_⟩
  rw [hr]
  simp [write_one, upd]

/-- C6 (amended), at a concrete call: (0x80000000, 0x1000) at cursor 0. -/
theorem C6_napot_field_witness :
    (set_spmp_entry rv32 (empty_at 0) 3 0x80000000 0x1000 8).2.spmp_addr (empty_at 0).index =
      (0x80000000 >>> 2) ||| (subw rv32 0x1000 1 >>> 3) :=
  (C6_napot_field rv32 (empty_at 0) 3 0x80000000 0x1000 8 rfl (by decide) (by decide)
    (by decide) (by decide) (by decide) ⟨Or.inr ⟨12, by decide⟩, by decide⟩).2

/-! ## C7: the switch mask -/

theorem switch_bit_switch_on_same (c : Config) (sw : Nat → Nat) (i : Nat) :
    switch_bit c (switch_on c sw i) i = true := by
  simp [switch_bit, switch_on, upd, Nat.one_shiftLeft, Nat.testBit_two_pow]

theorem switch_bit_switch_on_ne (c : Config) (sw : Nat → Nat) (i j : Nat) (h : j ≠ i) :
    switch_bit c (switch_on c sw i) j = switch_bit c sw j := by
  unfold switch_bit switch_on upd
  by_cases hw : j / (c.RV_REGSIZE * 8) = i / (c.RV_REGSIZE * 8)
  · have hm : ¬ i % (c.RV_REGSIZE * 8) = j % (c.RV_REGSIZE * 8) := by
      intro hm
      apply h
      rw [← Nat.div_add_mod j (c.RV_REGSIZE * 8), ← Nat.div_add_mod i (c.RV_REGSIZE * 8),
        hw, hm]
    simp [hw, Nat.one_shiftLeft, Nat.testBit_two_pow, hm]
  · simp [hw]

/-- C7 (as stated, refuted): the two-slot TOR encoding of (0x1000, 0x3000)
from an empty array succeeds and writes slots 0 and 1, but only bit 1 of
the switch mask is set; bit 0, the bit of the boundary slot, stays clear. -/
theorem C7_counterexample :
    (set_spmp_entry rv32 (empty_at 0) 3 0x1000 0x3000 8).1 = true ∧
    (empty_at 0).index ≤ 0 ∧
    0 < (set_spmp_entry rv32 (empty_at 0) 3 0x1000 0x3000 8).2.index ∧
    switch_bit rv32 (set_spmp_entry rv32 (empty_at 0) 3 0x1000 0x3000 8).2.spmp_switch 0 =
      false := by
  decide

/-- C7 (amended): after every successful `set_spmp_entry` call the switch
bit of the last slot written (new cursor - 1, the entry that carries the
permission and the mode) is set, and every other bit of the switch mask is
as before; so when the call wrote one slot every written slot has its bit
set, and when it wrote two (two-slot TOR) the boundary slot with config 0
keeps whatever bit it had. -/
theorem C7_switch_mask (c : Config) (st : State) (perm start size index_limit : Nat)
    (hok : (set_spmp_entry c st perm start size index_limit).1 = true) :
    switch_bit c (set_spmp_entry c st perm start size index_limit).2.spmp_switch
      ((set_spmp_entry c st perm start size index_limit).2.index - 1) = true ∧
    (∀ i, i ≠ (set_spmp_entry c st perm start size index_limit).2.index - 1 →
      switch_bit c (set_spmp_entry c st perm start size index_limit).2.spmp_switch i =
        switch_bit c st.spmp_switch i) ∧
    ((set_spmp_entry c st perm start size index_limit).2.index = st.index + 1 →
      ∀ i, st.index ≤ i → i < (set_spmp_entry c st perm start size index_limit).2.index →
        switch_bit c (set_spmp_entry c st perm start size index_limit).2.spmp_switch i =
          true) := by
  rcases set_spmp_entry_shape c st perm start size index_limit with
    hr | ⟨_, a, g, hr⟩ | ⟨_, _, _, a, b, g, hr⟩
  · rw [hr] at hok
    exact Bool.noConfusion hok
  · rw [hr]
    refine ⟨switch_bit_switch_on_same c _ _, fun i hi => switch_bit_switch_on_ne c _ _ i hi, ?_⟩
    intro _ i h1 h2
    have hi : i = st.index := by
      have : (write_one c st a g).index = st.index + 1 := rfl
      simp only [this] at h2
      omega
    subst hi
    exact switch_bit_switch_on_same c _ _
  · rw [hr]
    refine ⟨switch_bit_switch_on_same c _ _, fun i hi => switch_bit_switch_on_ne c _ _ i hi, ?_⟩
    intro h
    have : (write_two c st a b g).index = st.index + 2 := rfl
    simp only [this] at h
    omega

/-- C7 (amended), at a concrete call: the two-slot encoding of
(0x1000, 0x3000) from an empty array. -/
theorem C7_switch_mask_witness :
    switch_bit rv32 (set_spmp_entry rv32 (empty_at 0) 3 0x1000 0x3000 8).2.spmp_switch
      ((set_spmp_entry rv32 (empty_at 0) 3 0x1000 0x3000 8).2.index - 1) = true :=
  (C7_switch_mask rv32 (empty_at 0) 3 0x1000 0x3000 8 (by decide)).1

/-! ## C8 to C10: failure, cursor and frame -/

/-- A call that fails leaves the cursor and the three arrays as they were. -/
theorem set_spmp_entry_fail_state (c : Config) (st : State)
    (perm start size index_limit : Nat)
    (h : (set_spmp_entry c st perm start size index_limit).1 = false) :
    set_spmp_entry c st perm start size index_limit = (false, st) := by
  rcases set_spmp_entry_shape c st perm start size index_limit with
    hr | ⟨_, a, g, hr⟩ | ⟨_, _, _, a, b, g, hr⟩
  · exact hr
  · rw [hr] at h
    exact Bool.noConfusion h
  · rw [hr] at h
    exact Bool.noConfusion h

/-- A cursor within the limit stays within the limit. -/
theorem set_spmp_entry_index_le (c : Config) (st : State) (perm start size index_limit : Nat)
    (h : st.index ≤ index_limit) :
    (set_spmp_entry c st perm start size index_limit).2.index ≤ index_limit := by
  rcases set_spmp_entry_shape c st perm start size index_limit with
    hr | ⟨h1, a, g, hr⟩ | ⟨h2, _, _, a, b, g, hr⟩
  · rw [hr]; exact h
  · rw [hr]; exact h1
  · rw [hr]; exact h2

/-- What a successful call writes does not depend on the limit it was
given. -/
theorem set_spmp_entry_limit_indep (c : Config) (st : State)
    (perm start size n m : Nat)
    (hn : (set_spmp_entry c st perm start size n).1 = true)
    (hm : (set_spmp_entry c st perm start size m).1 = true) :
    set_spmp_entry c st perm start size n = set_spmp_entry c st perm start size m := by
  have room : ∀ l, (set_spmp_entry c st perm start size l).1 = true → st.index < l := by
    intro l hl
    by_contra hh
    rw [set_spmp_entry_full c st perm start size l (by omega)] at hl
    exact Bool.noConfusion hl
  have h1 := room n hn
  have h2 := room m hm
  by_cases hc : tor_continuation c st start
  · rw [set_spmp_entry_tor_cont c st perm start size n h1 hc,
      set_spmp_entry_tor_cont c st perm start size m h2 hc]
  by_cases h4 : na4_applies c size
  · rw [set_spmp_entry_na4 c st perm start size n h1 hc h4,
      set_spmp_entry_na4 c st perm start size m h2 hc h4]
  by_cases hp : napot_applies c start size
  · rw [set_spmp_entry_napot c st perm start size n h1 hc h4 hp,
      set_spmp_entry_napot c st perm start size m h2 hc h4 hp]
  have room2 : ∀ l, (set_spmp_entry c st perm start size l).1 = true → st.index + 1 < l := by
    intro l hl
    by_contra hh
    rw [set_spmp_entry_no_room c st perm start size l (by omega) hc h4 hp] at hl
    exact Bool.noConfusion hl
  have ht : c.tor = true := by
    by_contra hh
    rw [set_spmp_entry_bad_range c st perm start size n hc h4 hp (by simpa using hh)] at hn
    exact Bool.noConfusion hn
  rw [set_spmp_entry_tor_two c st perm start size n (room2 n hn) hc h4 hp ht,
    set_spmp_entry_tor_two c st perm start size m (room2 m hm) hc h4 hp ht]

/-- Successive calls keep the cursor within the limit. -/
theorem set_spmp_entries_index_le (c : Config) (index_limit : Nat) (rs : List Region) :
    ∀ st : State, st.index ≤ index_limit →
      (set_spmp_entries c index_limit st rs).2.index ≤ index_limit := by
  induction rs with
  | nil => intro st h; exact h
  | cons r rs ih =>
    intro st h
    exact ih _ (set_spmp_entry_index_le c st r.perm r.start r.size index_limit h)

/-- Two runs of the same calls in which every call succeeds end in the same
state, whatever the two limits. -/
theorem set_spmp_entries_limit_indep (c : Config) (n m : Nat) (rs : List Region) :
    ∀ st : State,
      (∀ b ∈ (set_spmp_entries c n st rs).1, b = true) →
      (∀ b ∈ (set_spmp_entries c m st rs).1, b = true) →
      (set_spmp_entries c n st rs).2 = (set_spmp_entries c m st rs).2 := by
  induction rs with
  | nil => intro st _ _; rfl
  | cons r rs ih =>
    intro st hn hm
    have e := set_spmp_entry_limit_indep c st r.perm r.start r.size n m
      (hn _ (List.mem_cons_self _ _)) (hm _ (List.mem_cons_self _ _))
    have hn2 : ∀ b ∈ (set_spmp_entries c n
        (set_spmp_entry c st r.perm r.start r.size n).2 rs).1, b = true :=
      fun b hb => hn b (List.mem_cons_of_mem _ hb)
    have hm2 : ∀ b ∈ (set_spmp_entries c m
        (set_spmp_entry c st r.perm r.start r.size m).2 rs).1, b = true :=
      fun b hb => hm b (List.mem_cons_of_mem _ hb)
    rw [e] at hn2
    have := ih _ hn2 hm2
    show (set_spmp_entries c n (set_spmp_entry c st r.perm r.start r.size n).2 rs).2 =
      (set_spmp_entries c m (set_spmp_entry c st r.perm r.start r.size m).2 rs).2
    rw [e]
    exact this

/-- C8: when regions are encoded by successive `set_spmp_entry` calls
starting at cursor G into arrays of capacity N, and the regions need more
than N - G slots (encoding them from the same state with a limit M under
which every call succeeds consumes more than N - G), at least one call
returns failure; and every `set_spmp_entry` call that returns failure
leaves the cursor, the address array, the config array and the switch mask
exactly as they were.  The function has no access to the hardware
registers: its whole effect is the returned state. -/
theorem C8_exhaustion_fails_clean (c : Config) (st : State) (rs : List Region) (N M : Nat)
    (hG : st.index ≤ N)
    (hM : ∀ b ∈ (set_spmp_entries c M st rs).1, b = true)
    (hneed : N - st.index < (set_spmp_entries c M st rs).2.index - st.index) :
    false ∈ (set_spmp_entries c N st rs).1 ∧
    ∀ (st1 : State) (perm start size index_limit : Nat),
      (set_spmp_entry c st1 perm start size index_limit).1 = false →
      (set_spmp_entry c st1 perm start size index_limit).2 = st1 := by
  constructor
  · by_contra hno
    have hall : ∀ b ∈ (set_spmp_entries c N st rs).1, b = true := by
      intro b hb
      cases b with
      | true => rfl
      | false => exact absurd hb hno
    have e := set_spmp_entries_limit_indep c N M rs st hall hM
    have hle := set_spmp_entries_index_le c N rs st hG
    rw [e] at hle
    omega
  · intro st1 perm start size index_limit h
    rw [set_spmp_entry_fail_state c st1 perm start size index_limit h]

/-- C8, at a concrete run: two regions that need three slots, encoded from
cursor 2 into arrays of capacity 4. -/
theorem C8_exhaustion_fails_clean_witness :
    false ∈ (set_spmp_entries rv32 4 (empty_at 2)
      [⟨3, 0x1000, 0x3000⟩, ⟨3, 0x8000, 0x1000⟩]).1 :=
  (C8_exhaustion_fails_clean rv32 (empty_at 2) [⟨3, 0x1000, 0x3000⟩, ⟨3, 0x8000, 0x1000⟩] 4 8
    (by decide) (by decide) (by decide)).1

/-- C9 (as stated, refuted): in a build without TOR, a call that fails for
lack of slots (cursor 8 of 8) and a call that fails because its range
(0x1000, 0x3000) fits no enabled mode although slots are free (cursor 0 of
8) return the same value, false. -/
theorem C9_counterexample :
    8 ≤ (empty_at 8).index ∧ (empty_at 0).index + 1 < 8 ∧
    ¬ tor_continuation rv32_no_tor (empty_at 0) 0x1000 ∧
    ¬ na4_applies rv32_no_tor 0x3000 ∧ ¬ napot_applies rv32_no_tor 0x1000 0x3000 ∧
    (set_spmp_entry rv32_no_tor (empty_at 8) 3 0x1000 0x1000 8).1 = false ∧
    (set_spmp_entry rv32_no_tor (empty_at 0) 3 0x1000 0x3000 8).1 = false ∧
    (set_spmp_entry rv32_no_tor (empty_at 8) 3 0x1000 0x1000 8).1 =
      (set_spmp_entry rv32_no_tor (empty_at 0) 3 0x1000 0x3000 8).1 := by
  decide

/-- C9 (amended): `set_spmp_entry` reports both failure causes with the
same outcome: a call that fails because no slot is free and a call that
fails because the region fits no enabled addressing mode (TOR disabled,
neither NA4 nor NAPOT applies) both return false and leave the cursor and
the arrays as they were. -/
theorem C9_one_failure_outcome (c : Config) (st1 st2 : State)
    (perm1 start1 size1 limit1 perm2 start2 size2 limit2 : Nat)
    (hfull : limit1 ≤ st1.index)
    (_hfree : st2.index < limit2) (ht : c.tor = false)
    (h4 : ¬ na4_applies c size2) (hp : ¬ napot_applies c start2 size2) :
    set_spmp_entry c st1 perm1 start1 size1 limit1 = (false, st1) ∧
    set_spmp_entry c st2 perm2 start2 size2 limit2 = (false, st2) ∧
    (set_spmp_entry c st1 perm1 start1 size1 limit1).1 =
      (set_spmp_entry c st2 perm2 start2 size2 limit2).1 := by
  have e1 := set_spmp_entry_full c st1 perm1 start1 size1 limit1 hfull
  have e2 := set_spmp_entry_bad_range c st2 perm2 start2 size2 limit2
    (fun h => by have h1 := h.1; rw [ht] at h1; exact Bool.noConfusion h1) h4 hp ht
  exact ⟨e1, e2, by rw [e1, e2]⟩

/-- C9 (amended), at a concrete pair of calls in the build without TOR. -/
theorem C9_one_failure_outcome_witness :
    (set_spmp_entry rv32_no_tor (empty_at 8) 3 0x1000 0x1000 8).1 =
      (set_spmp_entry rv32_no_tor (empty_at 0) 3 0x1000 0x3000 8).1 :=
  (C9_one_failure_outcome rv32_no_tor (empty_at 8) (empty_at 0) 3 0x1000 0x1000 8
    3 0x1000 0x3000 8 (by decide) (by decide) rfl (by decide) (by decide)).2.2

/-- C10: for every `set_spmp_entry` call entered with cursor <= index_limit,
the cursor advances by exactly 1 or 2 on success and by 0 on failure, the
new cursor is still <= index_limit, and every address and config entry at
an index below the old cursor or at or above the new cursor is unchanged. -/
theorem C10_cursor_and_frame (c : Config) (st : State) (perm start size index_limit : Nat)
    (h : st.index ≤ index_limit) :
    ((set_spmp_entry c st perm start size index_limit).1 = true →
      (set_spmp_entry c st perm start size index_limit).2.index = st.index + 1 ∨
      (set_spmp_entry c st perm start size index_limit).2.index = st.index + 2) ∧
    ((set_spmp_entry c st perm start size index_limit).1 = false →
      (set_spmp_entry c st perm start size index_limit).2.index = st.index) ∧
    (set_spmp_entry c st perm start size index_limit).2.index ≤ index_limit ∧
    ∀ i, (i < st.index ∨ (set_spmp_entry c st perm start size index_limit).2.index ≤ i) →
      (set_spmp_entry c st perm start size index_limit).2.spmp_addr i = st.spmp_addr i ∧
      (set_spmp_entry c st perm start size index_limit).2.spmp_n_cfg i = st.spmp_n_cfg i := by
  refine ⟨?_, ?_, set_spmp_entry_index_le c st perm start size index_limit h, ?_⟩
  · intro hok
    rcases set_spmp_entry_shape c st perm start size index_limit with
      hr | ⟨_, a, g, hr⟩ | ⟨_, _, _, a, b, g, hr⟩
    · rw [hr] at hok
      exact Bool.noConfusion hok
    · rw [hr]; exact Or.inl rfl
    · rw [hr]; exact Or.inr rfl
  · intro hf
    rw [set_spmp_entry_fail_state c st perm start size index_limit hf]
  · intro i hi
    rcases set_spmp_entry_shape c st perm start size index_limit with
      hr | ⟨_, a, g, hr⟩ | ⟨_, _, _, a, b, g, hr⟩
    · rw [hr]
      exact ⟨rfl, rfl⟩
    · rw [hr] at hi ⊢
      have hne : i ≠ st.index := by
        have : (write_one c st a g).index = st.index + 1 := rfl
        simp only [this] at hi
        omega
      simp [write_one, upd, hne]
    · rw [hr] at hi ⊢
      have hne : i ≠ st.index ∧ i ≠ st.index + 1 := by
        have : (write_two c st a b g).index = st.index + 2 := rfl
        simp only [this] at hi
        omega
      simp [write_two, upd, hne.1, hne.2]

/-- C10, at a concrete call: the two-slot encoding of (0x1000, 0x3000) at
cursor 2 of 8. -/
theorem C10_cursor_and_frame_witness :
    ((set_spmp_entry rv32 (empty_at 2) 3 0x1000 0x3000 8).2.index = (empty_at 2).index + 1 ∨
      (set_spmp_entry rv32 (empty_at 2) 3 0x1000 0x3000 8).2.index = (empty_at 2).index + 2) ∧
    (set_spmp_entry rv32 (empty_at 2) 3 0x1000 0x3000 8).2.index ≤ 8 ∧
    (set_spmp_entry rv32 (empty_at 2) 3 0x1000 0x3000 8).2.spmp_addr 1 =
      (empty_at 2).spmp_addr 1 :=
  have h := C10_cursor_and_frame rv32 (empty_at 2) 3 0x1000 0x3000 8 (by decide)
  ⟨h.1 (by decide), h.2.2.1, (h.2.2.2 1 (Or.inl (by decide))).1⟩

/-! ## C11 and C12: the register writer -/

/-- C11 (as stated, refuted): in the build for QEMU a valid range [0, 2)
of 8 slots makes `write_spmp_entries` issue two hardware writes, the first
over [0, 8), not the write of [0, 2) alone; and with assertions compiled
in, the valid range [0, 2) with index_limit 16 above the 8 slots of the
build is a fatal assertion. -/
theorem C11_counterexample :
    (write_spmp_entries rv32 build32_qemu 0 2 false (const_array 0) (const_array 0)
      (const_array 0) 8).stop = none ∧
    (write_spmp_entries rv32 build32_qemu 0 2 false (const_array 0) (const_array 0)
      (const_array 0) 8).hw.map (fun h => (h.first, h.last)) = [(0, 8), (0, 2)] ∧
    (0 < 2 ∧ 2 ≤ 16) ∧
    (write_spmp_entries rv32 build32_assert 0 2 false (const_array 0) (const_array 0)
      (const_array 0) 16).stop = some Stop.assertion := by
  decide

/-- C11 (amended): for index_limit <= CONFIG_SPMP_SLOTS,
`write_spmp_entries(start, end, ..., index_limit)` stops fatally if and
only if not (start < end and end <= index_limit); when it stops it has
modified no shadow entry and issued no hardware write; when the range is
valid its last hardware write is the one of the shadow arrays for exactly
[start, end), preceded, in the build for QEMU only, by one write of zeros
over [start, CONFIG_SPMP_SLOTS). -/
theorem C11_write_range_check (c : Config) (b : Build) (start end_idx : Nat) (clear : Bool)
    (spmp_addr spmp_n_cfg spmp_switch : Nat → Nat) (index_limit : Nat)
    (hlim : index_limit ≤ b.CONFIG_SPMP_SLOTS) :
    ((write_spmp_entries c b start end_idx clear spmp_addr spmp_n_cfg spmp_switch
        index_limit).stop ≠ none ↔ ¬ (start < end_idx ∧ end_idx ≤ index_limit)) ∧
    ((write_spmp_entries c b start end_idx clear spmp_addr spmp_n_cfg spmp_switch
        index_limit).stop ≠ none →
      (write_spmp_entries c b start end_idx clear spmp_addr spmp_n_cfg spmp_switch
        index_limit).spmp_n_cfg = spmp_n_cfg ∧
      (write_spmp_entries c b start end_idx clear spmp_addr spmp_n_cfg spmp_switch
        index_limit).spmp_switch = spmp_switch ∧
      (write_spmp_entries c b start end_idx clear spmp_addr spmp_n_cfg spmp_switch
        index_limit).hw = []) ∧
    ((write_spmp_entries c b start end_idx clear spmp_addr spmp_n_cfg spmp_switch
        index_limit).stop = none →
      (write_spmp_entries c b start end_idx clear spmp_addr spmp_n_cfg spmp_switch
        index_limit).hw =
        (if b.CONFIG_QEMU_TARGET = true then
          [{ first := start, last := b.CONFIG_SPMP_SLOTS, spmp_cfg := fun _ => 0,
             spmp_addr := fun _ => 0, spmp_switch := fun _ => 0 }]
        else []) ++
        [{ first := start, last := end_idx,
           spmp_cfg := (write_spmp_entries c b start end_idx clear spmp_addr spmp_n_cfg
             spmp_switch index_limit).spmp_n_cfg,
           spmp_addr := spmp_addr,
           spmp_switch := (write_spmp_entries c b start end_idx clear spmp_addr spmp_n_cfg
             spmp_switch index_limit).spmp_switch }]) := by
  by_cases hv : start < end_idx ∧ end_idx ≤ index_limit
  · have h1 : ¬ (b.CONFIG_ASSERT = true ∧
        ¬ (start < end_idx ∧ end_idx ≤ index_limit ∧ index_limit ≤ b.CONFIG_SPMP_SLOTS)) :=
      fun h => h.2 ⟨hv.1, hv.2, hlim⟩
    have h2 : ¬ (start ≥ end_idx ∨ end_idx > index_limit) := by omega
    unfold write_spmp_entries
    rw [if_neg h1, if_neg h2]
    simp [hv]
  · unfold write_spmp_entries
    have h2 : start ≥ end_idx ∨ end_idx > index_limit := by omega
    by_cases ha : b.CONFIG_ASSERT = true
    · have h1 : b.CONFIG_ASSERT = true ∧
          ¬ (start < end_idx ∧ end_idx ≤ index_limit ∧ index_limit ≤ b.CONFIG_SPMP_SLOTS) :=
        ⟨ha, fun h => hv ⟨h.1, h.2.1⟩⟩
      rw [if_pos h1]
      simp [hv]
    · have h1 : ¬ (b.CONFIG_ASSERT = true ∧
          ¬ (start < end_idx ∧ end_idx ≤ index_limit ∧ index_limit ≤ b.CONFIG_SPMP_SLOTS)) :=
        fun h => ha h.1
      rw [if_neg h1, if_pos h2]
      simp [hv]

/-- C11 (amended), at a concrete call: the range [2, 1) is refused. -/
theorem C11_write_range_check_witness :
    (write_spmp_entries rv32 build32 2 1 true (const_array 0) (const_array 0)
      (const_array 0) 8).stop ≠ none ↔ ¬ (2 < 1 ∧ 1 ≤ 8) :=
  (C11_write_range_check rv32 build32 2 1 true (const_array 0) (const_array 0)
    (const_array 0) 8 (by decide)).1

/-- The mask `~(1UL << index)` has every bit of the word set but bit
`index`. -/
theorem testBit_notw_shlw_one (c : Config) (index k : Nat) (hk : k < c.bits) :
    (notw c (shlw c 1 index)).testBit k = !decide (index = k) := by
  unfold notw shlw
  rw [Nat.one_shiftLeft, Nat.mod_mod]
  rcases Nat.lt_or_ge index c.bits with hi | hi
  · have hlt : 2 ^ index < 2 ^ c.bits := Nat.pow_lt_pow_right (by decide) hi
    rw [Nat.mod_eq_of_lt hlt]
    have e : 2 ^ c.bits - 1 - 2 ^ index = 2 ^ c.bits - (2 ^ index + 1) := by omega
    rw [e, Nat.testBit_two_pow_sub_succ hlt, Nat.testBit_two_pow]
    simp [hk]
  · have hd : 2 ^ index % 2 ^ c.bits = 0 :=
      Nat.mod_eq_zero_of_dvd (Nat.pow_dvd_pow 2 hi)
    rw [hd, Nat.sub_zero, Nat.testBit_two_pow_sub_one]
    have hne : index ≠ k := by omega
    simp [hk, hne]

/-- The clearing loop, started at `index` with enough iterations allowed,
stops at the first multiple `m` of the stride at or after `index`; when
`m` is at most the register width (every shift count is below the width),
it zeroes the config bytes of [index, m), touches only word 0 of the switch
mask, and clears in it the bits of [index, m). -/
theorem clear_trailing_loop_spec (c : Config) (m : Nat) (hm : m % c.RV_REGSIZE = 0)
    (hmw : m ≤ c.bits) :
    ∀ (fuel index : Nat) (cfg sw : Nat → Nat),
      index ≤ m → (∀ j, index ≤ j → j < m → j % c.RV_REGSIZE ≠ 0) → m - index ≤ fuel →
      (clear_trailing_loop c fuel index cfg sw).1 = m ∧
      (∀ i, (clear_trailing_loop c fuel index cfg sw).2.1 i =
        if index ≤ i ∧ i < m then 0 else cfg i) ∧
      (∀ j, j ≠ 0 → (clear_trailing_loop c fuel index cfg sw).2.2 j = sw j) ∧
      (∀ k, k < c.bits → ((clear_trailing_loop c fuel index cfg sw).2.2 0).testBit k =
        ((sw 0).testBit k && !decide (index ≤ k ∧ k < m))) := by
  intro fuel
  induction fuel with
  | zero =>
    intro index cfg sw h1 _ h3
    have e : index = m := by omega
    subst e
    refine ⟨rfl, fun i => ?_, fun j _ => rfl, fun k _ => ?_⟩
    · have : ¬ (index ≤ i ∧ i < index) := by omega
      simp [clear_trailing_loop, this]
    · have : ¬ (index ≤ k ∧ k < index) := by omega
      simp [clear_trailing_loop, this]
  | succ fuel ih =>
    intro index cfg sw h1 h2 h3
    by_cases hz : index % c.RV_REGSIZE = 0
    · have e : index = m := by
        by_contra hne
        exact h2 index (le_refl _) (by omega) hz
      subst e
      have hr : clear_trailing_loop c (fuel + 1) index cfg sw = (index, cfg, sw) := by
        simp [clear_trailing_loop, hz]
      rw [hr]
      refine ⟨rfl, fun i => ?_, fun j _ => rfl, fun k _ => ?_⟩
      · have : ¬ (index ≤ i ∧ i < index) := by omega
        simp [this]
      · have : ¬ (index ≤ k ∧ k < index) := by omega
        simp [this]
    · have hlt : index < m := by
        rcases Nat.lt_or_ge index m with h | h
        · exact h
        · have e : index = m := by omega
          rw [e] at hz
          exact absurd hm hz
      have hr : clear_trailing_loop c (fuel + 1) index cfg sw =
          clear_trailing_loop c fuel (index + 1) (upd cfg index 0)
            (upd sw 0 (sw 0 &&& notw c (shlw c 1 index))) := by
        simp [clear_trailing_loop, hz, Nat.mod_eq_of_lt (lt_of_lt_of_le hlt hmw)]
      rw [hr]
      obtain ⟨r1, r2, r3, r4⟩ := ih (index + 1) (upd cfg index 0)
        (upd sw 0 (sw 0 &&& notw c (shlw c 1 index))) (by omega)
        (fun j hj1 hj2 => h2 j (by omega) hj2) (by omega)
      refine ⟨r1, fun i => ?_, fun j hj => ?_, fun k hk => ?_⟩
      · rw [r2 i]
        by_cases hi : i = index
        · subst hi
          simp [upd, hlt]
        · by_cases hin : index + 1 ≤ i ∧ i < m
          · have : index ≤ i ∧ i < m := by omega
            simp [hin, this]
          · have : ¬ (index ≤ i ∧ i < m) := by omega
            simp [hin, this, upd, hi]
      · rw [r3 j hj]
        simp [upd, hj]
      · rw [r4 k hk]
        simp only [upd, if_true, Nat.testBit_and, testBit_notw_shlw_one c index k hk]
        by_cases hi : index = k
        · subst hi
          simp [hlt]
        · by_cases hin : index + 1 ≤ k ∧ k < m
          · have : index ≤ k ∧ k < m := by omega
            simp [hin, this, hi]
          · have : ¬ (index ≤ k ∧ k < m) := by omega
            simp [hin, this, hi]

/-- For slot indices inside the first word of the switch mask the register
writer does what is asked of it: for a valid range (and index_limit within
the slots of the build) with clear_trailing set, and `m` the smallest
multiple of the stride at or after `end`, when `m` is at most the register
width, the config byte and the switch bit of every slot in [end, m) are
zero, every config byte and switch bit below `end` is unchanged, and
these arrays are the ones written to the hardware; with clear_trailing
unset no shadow entry changes. -/
theorem write_spmp_entries_trailing (c : Config) (b : Build) (start end_idx m : Nat)
    (clear : Bool) (spmp_addr spmp_n_cfg spmp_switch : Nat → Nat) (index_limit : Nat)
    (hlim : index_limit ≤ b.CONFIG_SPMP_SLOTS) (hv : start < end_idx ∧ end_idx ≤ index_limit)
    (hs : 0 < c.RV_REGSIZE) (hm : m % c.RV_REGSIZE = 0) (hem : end_idx ≤ m)
    (hmw : m ≤ c.bits)
    (hmin : ∀ j, end_idx ≤ j → j < m → j % c.RV_REGSIZE ≠ 0) :
    (clear = true →
      (∀ i, end_idx ≤ i → i < m →
        (write_spmp_entries c b start end_idx clear spmp_addr spmp_n_cfg spmp_switch
          index_limit).spmp_n_cfg i = 0) ∧
      (∀ i, end_idx ≤ i → i < m →
        switch_bit c (write_spmp_entries c b start end_idx clear spmp_addr spmp_n_cfg
          spmp_switch index_limit).spmp_switch i = false) ∧
      (∀ i, i < end_idx →
        (write_spmp_entries c b start end_idx clear spmp_addr spmp_n_cfg spmp_switch
          index_limit).spmp_n_cfg i = spmp_n_cfg i ∧
        switch_bit c (write_spmp_entries c b start end_idx clear spmp_addr spmp_n_cfg
          spmp_switch index_limit).spmp_switch i = switch_bit c spmp_switch i)) ∧
    (clear = false →
      (write_spmp_entries c b start end_idx clear spmp_addr spmp_n_cfg spmp_switch
        index_limit).spmp_n_cfg = spmp_n_cfg ∧
      (write_spmp_entries c b start end_idx clear spmp_addr spmp_n_cfg spmp_switch
        index_limit).spmp_switch = spmp_switch) := by
  have h1 : ¬ (b.CONFIG_ASSERT = true ∧
      ¬ (start < end_idx ∧ end_idx ≤ index_limit ∧ index_limit ≤ b.CONFIG_SPMP_SLOTS)) :=
    fun h => h.2 ⟨hv.1, hv.2, hlim⟩
  have h2 : ¬ (start ≥ end_idx ∨ end_idx > index_limit) := by omega
  have hfuel : m - end_idx ≤ c.RV_REGSIZE := by
    by_contra hh
    have hj := hmin (m - c.RV_REGSIZE) (by omega) (by omega)
    apply hj
    have e : m = (m - c.RV_REGSIZE) + c.RV_REGSIZE := by omega
    rw [e, Nat.add_mod_right] at hm
    exact hm
  obtain ⟨_, r2, r3, r4⟩ := clear_trailing_loop_spec c m hm hmw c.RV_REGSIZE end_idx
    spmp_n_cfg spmp_switch hem hmin hfuel
  have hbits : c.RV_REGSIZE * 8 = c.bits := rfl
  constructor
  · intro hc
    subst hc
    unfold write_spmp_entries
    rw [if_neg h1, if_neg h2]
    simp only [if_true]
    refine ⟨fun i hi1 hi2 => ?_, fun i hi1 hi2 => ?_, fun i hi => ⟨?_, ?_⟩⟩
    · rw [r2 i]
      simp [hi1, hi2]
    · have hi3 : i < c.bits := lt_of_lt_of_le hi2 hmw
      unfold switch_bit
      rw [hbits, Nat.div_eq_of_lt hi3, Nat.mod_eq_of_lt hi3, r4 i hi3]
      simp [hi1, hi2]
    · rw [r2 i]
      have : ¬ (end_idx ≤ i ∧ i < m) := by omega
      simp [this]
    · unfold switch_bit
      rw [hbits]
      by_cases hw : i / c.bits = 0
      · have hpos : 0 < c.bits := by unfold Config.bits; omega
        rw [hw, r4 _ (Nat.mod_lt _ hpos)]
        have hi3 : i < c.bits := by
          rcases Nat.lt_or_ge i c.bits with h | h
          · exact h
          · have := Nat.div_pos h hpos
            omega
        have : ¬ (end_idx ≤ i % c.bits ∧ i % c.bits < m) := by
          rw [Nat.mod_eq_of_lt hi3]
          omega
        simp [this]
      · rw [r3 _ hw]
  · intro hc
    subst hc
    unfold write_spmp_entries
    rw [if_neg h1, if_neg h2]
    simp

/-- C12 (the code at the failing input): in a 32-bit build with 64 slots,
`write_spmp_entries` on the valid range [0, 33) with clear_trailing set
zeroes the config bytes of slots 33, 34 and 35, but the switch bit of slot
33, which `set_spmp_entry` keeps in bit 1 of word 1, is still set in the
arrays written to the hardware: the loop only ever modifies word 0. -/
theorem C12_switch_bit_not_cleared :
    (write_spmp_entries rv32 build32_64 0 33 true (const_array 0) (const_array 0x1B)
      (const_array 0xFFFFFFFF) 64).stop = none ∧
    switch_bit rv32 (const_array 0xFFFFFFFF) 33 = true ∧
    (write_spmp_entries rv32 build32_64 0 33 true (const_array 0) (const_array 0x1B)
      (const_array 0xFFFFFFFF) 64).spmp_n_cfg 33 = 0 ∧
    (write_spmp_entries rv32 build32_64 0 33 true (const_array 0) (const_array 0x1B)
      (const_array 0xFFFFFFFF) 64).spmp_n_cfg 35 = 0 ∧
    switch_bit rv32 (write_spmp_entries rv32 build32_64 0 33 true (const_array 0)
      (const_array 0x1B) (const_array 0xFFFFFFFF) 64).spmp_switch 33 = true ∧
    (write_spmp_entries rv32 build32_64 0 33 true (const_array 0) (const_array 0x1B)
      (const_array 0xFFFFFFFF) 64).hw.map (fun h => switch_bit rv32 h.spmp_switch 33) =
      [true] := by
  decide

/-! ## C13 and C14: the buffer validator -/

/-- A machine subtraction that does not borrow is the plain difference. -/
theorem subw_of_le (c : Config) (a b : Nat) (hba : b ≤ a) (ha : a < 2 ^ c.bits) :
    subw c a b = a - b := by
  unfold subw
  rw [Nat.mod_eq_of_lt (lt_of_le_of_lt hba ha)]
  have e : a + (2 ^ c.bits - b) = (a - b) + 2 ^ c.bits := by omega
  rw [e, Nat.add_mod_right]
  exact Nat.mod_eq_of_lt (by omega)

/-- On machine words `IS_WITHIN` is containment of the inner range in the
outer one, the range ends taken in unbounded integers. -/
theorem IS_WITHIN_iff (c : Config) (a s b t : Nat) (ha : a < 2 ^ c.bits)
    (ht : t < 2 ^ c.bits) :
    IS_WITHIN c a s b t ↔ (b ≤ a ∧ a + s ≤ b + t) := by
  unfold IS_WITHIN
  constructor
  · rintro ⟨h1, h2, h3⟩
    rw [subw_of_le c a b h1 ha, subw_of_le c t s h2 ht] at h3
    omega
  · rintro ⟨h1, h2⟩
    have h3 : s ≤ t := by omega
    refine ⟨h1, h3, ?_⟩
    rw [subw_of_le c a b h1 ha, subw_of_le c t s h3 ht]
    omega

/-- C13: for every pointer and length (machine words) whose range lies fully
inside the calling thread's own stack [stack.start, stack.start +
stack.size), `arch_buffer_validate` returns 0, for read and for write
requests, whatever the domain holds. -/
theorem C13_stack_buffer_valid (c : Config) (b : Build) (cur : Thread) (d : Domain)
    (rom_region_start rom_region_size addr size : Nat) (write : Bool)
    (ha : addr < 2 ^ c.bits) (hst : cur.stack_size < 2 ^ c.bits)
    (hin : cur.stack_start ≤ addr ∧ addr + size ≤ cur.stack_start + cur.stack_size) :
    arch_buffer_validate c b cur d rom_region_start rom_region_size addr size write =
      some 0 := by
  unfold arch_buffer_validate
  rw [if_pos ((IS_WITHIN_iff c addr size cur.stack_start cur.stack_size ha hst).mpr hin)]

/-- C13, at a concrete call: 16 bytes inside the stack of `thread0`, for
writing. -/
theorem C13_stack_buffer_valid_witness :
    arch_buffer_validate rv32 build32 thread0 domain_ro_rw 0 0x1000 0x20100 16 true =
      some 0 :=
  C13_stack_buffer_valid rv32 build32 thread0 domain_ro_rw 0 0x1000 0x20100 16 true
    (by decide) (by decide) (by decide)

theorem used_slots_cons (p : Partition) (ps : List Partition) :
    used_slots (p :: ps) = if p.size = 0 then used_slots ps else used_slots ps + 1 := by
  unfold used_slots
  by_cases h : p.size = 0 <;> simp [List.filter_cons, h]

theorem first_containing_cons (p : Partition) (ps : List Partition) (start size : Nat) :
    first_containing (p :: ps) start size =
      if p.size ≠ 0 ∧ p.start ≤ start ∧ start + size ≤ p.start + p.size then some p
      else first_containing ps start size := by
  unfold first_containing
  by_cases h : p.size ≠ 0 ∧ p.start ≤ start ∧ start + size ≤ p.start + p.size
  · rw [List.find?_cons_of_pos _ (by simpa using h), if_pos h]
  · rw [List.find?_cons_of_neg _ (by simpa using h), if_neg h]

theorem first_containing_of_unused (start size : Nat) :
    ∀ ps : List Partition, used_slots ps = 0 → first_containing ps start size = none := by
  intro ps
  induction ps with
  | nil => intro _; rfl
  | cons p ps ih =>
    intro h
    rw [used_slots_cons] at h
    by_cases hp : p.size = 0
    · rw [if_pos hp] at h
      rw [first_containing_cons, if_neg (fun hh => hh.1 hp)]
      exact ih h
    · rw [if_neg hp] at h
      omega

/-- On a domain whose `num_partitions` counts its used slots, the partition
loop of the validator ends, inside the array, with the verdict of the first
used partition that contains the range. -/
theorem validate_loop_first (c : Config) (start size bit : Nat) (hs : start < 2 ^ c.bits) :
    ∀ (ps : List Partition) (remaining : Nat),
      remaining = used_slots ps → (∀ p ∈ ps, p.size < 2 ^ c.bits) →
      validate_loop c start size bit remaining ps =
        some (match first_containing ps start size with
          | some p => if p.attr &&& bit ≠ 0 then 0 else -1
          | none => -1) := by
  intro ps
  induction ps with
  | nil =>
    intro remaining h _
    subst h
    rfl
  | cons p ps ih =>
    intro remaining h hw
    have hw2 : ∀ q ∈ ps, q.size < 2 ^ c.bits := fun q hq => hw q (List.mem_cons_of_mem _ hq)
    rw [used_slots_cons] at h
    rw [first_containing_cons]
    by_cases hp : p.size = 0
    · rw [if_pos hp] at h
      rw [if_neg (fun hh => hh.1 hp)]
      cases remaining with
      | zero =>
        rw [first_containing_of_unused start size ps h.symm]
        rfl
      | succ r =>
        have : validate_loop c start size bit (r + 1) (p :: ps) =
            validate_loop c start size bit (r + 1) ps := by
          simp [validate_loop, hp]
        rw [this]
        exact ih (r + 1) h hw2
    · rw [if_neg hp] at h
      subst h
      have hiff := IS_WITHIN_iff c start size p.start p.size hs (hw p (List.mem_cons_self _ _))
      by_cases hin : p.start ≤ start ∧ start + size ≤ p.start + p.size
      · rw [if_pos ⟨hp, hin⟩]
        have hW : IS_WITHIN c start size p.start p.size := hiff.mpr hin
        simp only [validate_loop, hp, if_false, not_not.mpr hW]
        split_ifs <;> rfl
      · rw [if_neg (fun hh => hin hh.2)]
        have hW : ¬ IS_WITHIN c start size p.start p.size := fun hh => hin (hiff.mp hh)
        have : validate_loop c start size bit (used_slots ps + 1) (p :: ps) =
            validate_loop c start size bit (used_slots ps) ps := by
          simp only [validate_loop, hp, if_false, hW, not_false_eq_true, if_true]
        rw [this]
        exact ih _ rfl hw2

/-- C14: for machine-word arguments and a domain whose `num_partitions`
counts its used slots, for every range that is not inside the caller's
stack and (for a read) not inside the global read-only region,
`arch_buffer_validate` returns a value, 0 or -1, and it is 0 if and only if
some used partition of the caller's domain contains the range and the
first such partition in slot order has the requested permission bit
(`SPMP_W` for a write, `SPMP_R` for a read) in its attribute; what later
partitions hold does not enter; when no used partition contains the range
the value is -1. -/
theorem C14_first_partition_decides (c : Config) (b : Build) (cur : Thread) (d : Domain)
    (rom_region_start rom_region_size addr size : Nat) (write : Bool)
    (ha : addr < 2 ^ c.bits) (hst : cur.stack_size < 2 ^ c.bits)
    (hro : rom_region_size < 2 ^ c.bits)
    (hparts : ∀ p ∈ d.partitions, p.size < 2 ^ c.bits)
    (hwf : d.num_partitions = used_slots d.partitions)
    (hnstack : ¬ (cur.stack_start ≤ addr ∧ addr + size ≤ cur.stack_start + cur.stack_size))
    (hnrom : write = false →
      ¬ (rom_region_start ≤ addr ∧ addr + size ≤ rom_region_start + rom_region_size)) :
    ∃ r : Int,
      arch_buffer_validate c b cur d rom_region_start rom_region_size addr size write =
        some r ∧
      (r = 0 ∨ r = -1) ∧
      (r = 0 ↔ ∃ p, first_containing d.partitions addr size = some p ∧
        p.attr &&& (if write = true then b.SPMP_W else b.SPMP_R) ≠ 0) ∧
      ((∀ p ∈ d.partitions,
          ¬ (p.size ≠ 0 ∧ p.start ≤ addr ∧ addr + size ≤ p.start + p.size)) → r = -1) := by
  have h1 : ¬ IS_WITHIN c addr size cur.stack_start cur.stack_size :=
    fun h => hnstack ((IS_WITHIN_iff c addr size _ _ ha hst).mp h)
  have h2 : ¬ (write = false ∧ IS_WITHIN c addr size rom_region_start rom_region_size) :=
    fun h => hnrom h.1 ((IS_WITHIN_iff c addr size _ _ ha hro).mp h.2)
  have hv : arch_buffer_validate c b cur d rom_region_start rom_region_size addr size write =
      validate_loop c addr size (if write = true then b.SPMP_W else b.SPMP_R)
        d.num_partitions d.partitions := by
    unfold arch_buffer_validate
    rw [if_neg h1, if_neg h2]
  rw [hv, validate_loop_first c addr size _ ha d.partitions d.num_partitions hwf hparts]
  refine ⟨_, rfl, ?_, ?_, ?_⟩
  · cases first_containing d.partitions addr size with
    | none => exact Or.inr rfl
    | some p =>
      by_cases hb : p.attr &&& (if write = true then b.SPMP_W else b.SPMP_R) ≠ 0
      · exact Or.inl (if_pos hb)
      · exact Or.inr (if_neg hb)
  · cases first_containing d.partitions addr size with
    | none =>
      constructor
      · intro h
        have h' : (-1 : Int) = 0 := h
        exact absurd h' (by decide)
      · rintro ⟨p, hp, _⟩
        exact Option.noConfusion hp
    | some p =>
      by_cases hb : p.attr &&& (if write = true then b.SPMP_W else b.SPMP_R) ≠ 0
      · constructor
        · intro _
          exact ⟨p, rfl, hb⟩
        · intro _
          exact if_pos hb
      · constructor
        · intro h
          have e : (if p.attr &&& (if write = true then b.SPMP_W else b.SPMP_R) ≠ 0
              then (0 : Int) else -1) = -1 := if_neg hb
          change (if p.attr &&& (if write = true then b.SPMP_W else b.SPMP_R) ≠ 0
              then (0 : Int) else -1) = 0 at h
          rw [e] at h
          exact absurd h (by decide)
        · rintro ⟨q, hq, hqb⟩
          have e : q = p := (Option.some.inj hq).symm
          subst e
          exact absurd hqb hb
  · intro hno
    have hnone : first_containing d.partitions addr size = none := by
      unfold first_containing
      rw [List.find?_eq_none]
      intro p hp
      simpa using hno p hp
    rw [hnone]

/-- C14, at a concrete call: a write of 16 bytes at 0x4100 in `domain_ro_rw`
is refused by the read-only partition that comes first, although the
read/write partition after it contains the range too. -/
theorem C14_first_partition_decides_witness :
    ∃ r : Int,
      arch_buffer_validate rv32 build32 thread0 domain_ro_rw 0 0x1000 0x4100 16 true =
        some r ∧
      (r = 0 ∨ r = -1) ∧
      (r = 0 ↔ ∃ p, first_containing domain_ro_rw.partitions 0x4100 16 = some p ∧
        p.attr &&& (if true = true then build32.SPMP_W else build32.SPMP_R) ≠ 0) ∧
      ((∀ p ∈ domain_ro_rw.partitions,
          ¬ (p.size ≠ 0 ∧ p.start ≤ 0x4100 ∧ 0x4100 + 16 ≤ p.start + p.size)) → r = -1) :=
  C14_first_partition_decides rv32 build32 thread0 domain_ro_rw 0 0x1000 0x4100 16 true
    (by decide) (by decide) (by decide) (by decide) (by decide) (by decide)
    (fun h => Bool.noConfusion h)

/-! ## C15 and C16: resynchronisation -/

/-- A call never moves the cursor back. -/
theorem set_spmp_entry_index_ge (c : Config) (st : State) (perm start size index_limit : Nat) :
    st.index ≤ (set_spmp_entry c st perm start size index_limit).2.index := by
  rcases set_spmp_entry_shape c st perm start size index_limit with
    hr | ⟨_, a, g, hr⟩ | ⟨_, _, _, a, b, g, hr⟩
  · rw [hr]
  · rw [hr]; exact Nat.le_succ _
  · rw [hr]; exact Nat.le_add_right _ 2

/-- A successful call moves the cursor forward. -/
theorem set_spmp_entry_index_gt (c : Config) (st : State) (perm start size index_limit : Nat)
    (h : (set_spmp_entry c st perm start size index_limit).1 = true) :
    st.index < (set_spmp_entry c st perm start size index_limit).2.index := by
  rcases set_spmp_entry_shape c st perm start size index_limit with
    hr | ⟨_, a, g, hr⟩ | ⟨_, _, _, a, b, g, hr⟩
  · rw [hr] at h
    exact Bool.noConfusion h
  · rw [hr]; exact Nat.lt_succ_self _
  · rw [hr]; exact Nat.lt_add_of_pos_right (by decide)

/-- A call leaves the address and config entries below the cursor alone. -/
theorem set_spmp_entry_below (c : Config) (st : State) (perm start size index_limit i : Nat)
    (hi : i < st.index) :
    (set_spmp_entry c st perm start size index_limit).2.spmp_addr i = st.spmp_addr i ∧
    (set_spmp_entry c st perm start size index_limit).2.spmp_n_cfg i = st.spmp_n_cfg i := by
  rcases set_spmp_entry_shape c st perm start size index_limit with
    hr | ⟨_, a, g, hr⟩ | ⟨_, _, _, a, b, g, hr⟩
  · rw [hr]
    exact ⟨rfl, rfl⟩
  · rw [hr]
    have hne : i ≠ st.index := by omega
    simp [write_one, upd, hne]
  · rw [hr]
    have hne : i ≠ st.index ∧ i ≠ st.index + 1 := by omega
    simp [write_two, upd, hne.1, hne.2]

/-- Successive calls never move the cursor back and leave the address and
config entries below the starting cursor alone. -/
theorem set_spmp_entries_below (c : Config) (index_limit : Nat) (rs : List Region) :
    ∀ st : State,
      st.index ≤ (set_spmp_entries c index_limit st rs).2.index ∧
      ∀ i, i < st.index →
        (set_spmp_entries c index_limit st rs).2.spmp_addr i = st.spmp_addr i ∧
        (set_spmp_entries c index_limit st rs).2.spmp_n_cfg i = st.spmp_n_cfg i := by
  induction rs with
  | nil => intro st; exact ⟨le_refl _, fun i _ => ⟨rfl, rfl⟩⟩
  | cons r rs ih =>
    intro st
    have hge := set_spmp_entry_index_ge c st r.perm r.start r.size index_limit
    obtain ⟨h1, h2⟩ := ih (set_spmp_entry c st r.perm r.start r.size index_limit).2
    refine ⟨le_trans hge h1, fun i hi => ?_⟩
    have hb := set_spmp_entry_below c st r.perm r.start r.size index_limit i hi
    have h3 := h2 i (lt_of_lt_of_le hi hge)
    exact ⟨h3.1.trans hb.1, h3.2.trans hb.2⟩

theorem partition_regions_cons (b : Build) (keep : Partition → Bool) (p : Partition)
    (ps : List Partition) :
    partition_regions b keep (p :: ps) =
      if keep p = true then
        { perm := b.SPMP_W ||| b.SPMP_X, start := p.start, size := p.size } ::
          partition_regions b keep ps
      else partition_regions b keep ps := by
  unfold partition_regions
  by_cases h : keep p = true <;> simp [List.filter_cons, h]

theorem partition_regions_of_unused (b : Build) :
    ∀ ps : List Partition, used_slots ps = 0 →
      partition_regions b (fun p => decide (4 ≤ p.size)) ps = [] := by
  intro ps
  induction ps with
  | nil => intro _; rfl
  | cons p ps ih =>
    intro h
    rw [used_slots_cons] at h
    by_cases hp : p.size = 0
    · rw [if_pos hp] at h
      rw [partition_regions_cons, if_neg (by simp [hp])]
      exact ih h
    · rw [if_neg hp] at h
      omega

/-- On a partition array whose used slots number `remaining`, a loop of
`resync_spmp_domain` that runs to its end has made exactly the
`set_spmp_entry` calls for the partitions of at least 4 bytes, in slot
order. -/
theorem resync_loop_eq_entries (c : Config) (b : Build) :
    ∀ (ps : List Partition) (remaining : Nat) (st : State),
      remaining = used_slots ps → (resync_loop c b remaining ps st).stop = none →
      (resync_loop c b remaining ps st).st =
        (set_spmp_entries c b.u_mode_slots st
          (partition_regions b (fun p => decide (4 ≤ p.size)) ps)).2 ∧
      (resync_loop c b remaining ps st).oks =
        (set_spmp_entries c b.u_mode_slots st
          (partition_regions b (fun p => decide (4 ≤ p.size)) ps)).1 := by
  intro ps
  induction ps with
  | nil =>
    intro remaining st h _
    subst h
    exact ⟨rfl, rfl⟩
  | cons p ps ih =>
    intro remaining st h hstop
    rw [used_slots_cons] at h
    rw [partition_regions_cons]
    by_cases hp : p.size = 0
    · rw [if_pos hp] at h
      rw [if_neg (by simp [hp])]
      cases remaining with
      | zero =>
        rw [partition_regions_of_unused b ps h.symm]
        exact ⟨rfl, rfl⟩
      | succ r =>
        have e : resync_loop c b (r + 1) (p :: ps) st = resync_loop c b (r + 1) ps st := by
          simp [resync_loop, hp]
        rw [e] at hstop ⊢
        exact ih (r + 1) st h hstop
    · rw [if_neg hp] at h
      subst h
      by_cases h4 : p.size < 4
      · rw [if_neg (by simp [h4])]
        by_cases ha : b.CONFIG_ASSERT = true
        · have e : resync_loop c b (used_slots ps + 1) (p :: ps) st =
              { stop := some Stop.assertion, st := st, oks := [] } := by
            simp [resync_loop, hp, h4, ha]
          rw [e] at hstop
          exact Option.noConfusion hstop
        · have e : resync_loop c b (used_slots ps + 1) (p :: ps) st =
              resync_loop c b (used_slots ps) ps st := by
            simp [resync_loop, hp, h4, ha]
          rw [e] at hstop ⊢
          exact ih _ st rfl hstop
      · rw [if_pos (by simp; omega)]
        by_cases hf : (set_spmp_entry c st (b.SPMP_W ||| b.SPMP_X) p.start p.size
            b.u_mode_slots).1 = false ∧ b.CONFIG_ASSERT = true
        · have e : (resync_loop c b (used_slots ps + 1) (p :: ps) st).stop =
              some Stop.assertion := by
            simp [resync_loop, hp, h4, hf.1, hf.2]
          rw [e] at hstop
          exact Option.noConfusion hstop
        · have e : resync_loop c b (used_slots ps + 1) (p :: ps) st =
              { resync_loop c b (used_slots ps) ps
                  (set_spmp_entry c st (b.SPMP_W ||| b.SPMP_X) p.start p.size
                    b.u_mode_slots).2 with
                oks := (set_spmp_entry c st (b.SPMP_W ||| b.SPMP_X) p.start p.size
                    b.u_mode_slots).1 ::
                  (resync_loop c b (used_slots ps) ps
                    (set_spmp_entry c st (b.SPMP_W ||| b.SPMP_X) p.start p.size
                      b.u_mode_slots).2).oks } := by
            simp only [resync_loop, hp, h4, if_false, hf]
          rw [e] at hstop ⊢
          obtain ⟨i1, i2⟩ := ih _ (set_spmp_entry c st (b.SPMP_W ||| b.SPMP_X) p.start p.size
            b.u_mode_slots).2 rfl hstop
          refine ⟨?_, ?_⟩
          · simp only [set_spmp_entries]
            exact i1
          · simp only [set_spmp_entries]
            rw [← i2]

/-- C16 (as stated, refuted): without assertions, for a domain whose only
partition is 2 bytes long `resync_spmp_domain` returns with the end index
still at the domain offset 3, while encoding the non-empty partitions from
the domain offset reaches cursor 4. -/
theorem C16_counterexample :
    build32.CONFIG_ASSERT = false ∧
    domain_small.num_partitions = used_slots domain_small.partitions ∧
    (resync_spmp_domain rv32 build32 thread_prep domain_small).stop = none ∧
    (resync_spmp_domain rv32 build32 thread_prep domain_small).thread.u_mode_spmp_end_index =
      3 ∧
    (set_spmp_entries rv32 build32.u_mode_slots
      (thread_prep.u_mode thread_prep.u_mode_spmp_domain_offset)
      (partition_regions build32 (fun p => decide (p.size ≠ 0))
        domain_small.partitions)).2.index = 4 := by
  decide

/-- C16 (amended): for a domain whose `num_partitions` counts its used
slots, after `resync_spmp_domain` returns the thread's cached update number
equals the domain's update number, and the thread's user end index and
user-mode arrays are those reached by encoding, with `set_spmp_entry`, the
domain's partitions of at least 4 bytes in slot order starting from the
thread's domain offset; the address and config entries below the domain
offset are unchanged. -/
theorem C16_resync_result (c : Config) (b : Build) (t : Thread) (d : Domain)
    (hwf : d.num_partitions = used_slots d.partitions)
    (hret : (resync_spmp_domain c b t d).stop = none) :
    (resync_spmp_domain c b t d).thread.u_mode_spmp_update_nr = d.spmp_update_nr ∧
    (resync_spmp_domain c b t d).thread.u_mode_spmp_end_index =
      (set_spmp_entries c b.u_mode_slots (t.u_mode t.u_mode_spmp_domain_offset)
        (partition_regions b (fun p => decide (4 ≤ p.size)) d.partitions)).2.index ∧
    (resync_spmp_domain c b t d).thread.u_mode
        (resync_spmp_domain c b t d).thread.u_mode_spmp_end_index =
      (set_spmp_entries c b.u_mode_slots (t.u_mode t.u_mode_spmp_domain_offset)
        (partition_regions b (fun p => decide (4 ≤ p.size)) d.partitions)).2 ∧
    (resync_spmp_domain c b t d).thread.u_mode_spmp_domain_offset =
      t.u_mode_spmp_domain_offset ∧
    ∀ i, i < t.u_mode_spmp_domain_offset →
      (resync_spmp_domain c b t d).thread.u_mode_spmpaddr_regs i =
        t.u_mode_spmpaddr_regs i ∧
      (resync_spmp_domain c b t d).thread.u_mode_spmpcfg_regs i =
        t.u_mode_spmpcfg_regs i := by
  have hloop : (resync_loop c b d.num_partitions d.partitions
      (t.u_mode t.u_mode_spmp_domain_offset)).stop = none := by
    unfold resync_spmp_domain at hret
    simp only [] at hret
    cases hs : (resync_loop c b d.num_partitions d.partitions
        (t.u_mode t.u_mode_spmp_domain_offset)).stop with
    | none => rfl
    | some s =>
      rw [hs] at hret
      exact Option.noConfusion hret
  obtain ⟨e1, _⟩ := resync_loop_eq_entries c b d.partitions d.num_partitions
    (t.u_mode t.u_mode_spmp_domain_offset) hwf hloop
  have hthread : (resync_spmp_domain c b t d).thread =
      { (t.with_u_mode (resync_loop c b d.num_partitions d.partitions
          (t.u_mode t.u_mode_spmp_domain_offset)).st) with
        u_mode_spmp_end_index := (resync_loop c b d.num_partitions d.partitions
          (t.u_mode t.u_mode_spmp_domain_offset)).st.index
        u_mode_spmp_update_nr := d.spmp_update_nr } := by
    unfold resync_spmp_domain
    simp only []
    rw [hloop]
  have hbelow := (set_spmp_entries_below c b.u_mode_slots
    (partition_regions b (fun p => decide (4 ≤ p.size)) d.partitions)
    (t.u_mode t.u_mode_spmp_domain_offset)).2
  rw [hthread, e1]
  refine ⟨rfl, rfl, rfl, rfl, fun i hi => ?_⟩
  exact hbelow i hi

/-- C16 (amended), at a concrete call: `thread_prep` and a domain with a
2-byte partition followed by the partition [0x4000, 0x5000). -/
theorem C16_resync_result_witness :
    (resync_spmp_domain rv32 build32 thread_prep domain_small_then).thread.u_mode_spmp_update_nr
      = domain_small_then.spmp_update_nr ∧
    (resync_spmp_domain rv32 build32 thread_prep domain_small_then).thread.u_mode_spmp_end_index
      = (set_spmp_entries rv32 build32.u_mode_slots
        (thread_prep.u_mode thread_prep.u_mode_spmp_domain_offset)
        (partition_regions build32 (fun p => decide (4 ≤ p.size))
          domain_small_then.partitions)).2.index :=
  have h := C16_resync_result rv32 build32 thread_prep domain_small_then (by decide)
    (by decide)
  ⟨h.1, h.2.1⟩

/-! ## C17 and C18: the update numbers -/

/-- C17 (as stated, refuted): at the largest value of a 32-bit counter,
`arch_mem_domain_partition_add` and `arch_mem_domain_partition_remove`
leave the update number 0, which is not greater than before. -/
theorem C17_counterexample :
    domain_max.spmp_update_nr < 2 ^ build32.nr_bits ∧
    ¬ (domain_max.spmp_update_nr <
      (arch_mem_domain_partition_add build32 domain_max).spmp_update_nr) ∧
    ¬ (domain_max.spmp_update_nr <
      (arch_mem_domain_partition_remove build32 domain_max).spmp_update_nr) := by
  decide

/-- C17 (amended): `arch_mem_domain_partition_add` and
`arch_mem_domain_partition_remove` each leave the domain's update number
at (old + 1) modulo 2^N, N the counter width: it always differs from the
old number, so a thread synced to the old number is out of date
afterwards, and it is greater than the old number unless that was the
largest value 2^N - 1, after which it is 0. -/
theorem C17_update_nr_changes (b : Build) (d : Domain) (hN : 0 < b.nr_bits)
    (hd : d.spmp_update_nr < 2 ^ b.nr_bits) :
    (arch_mem_domain_partition_add b d).spmp_update_nr ≠ d.spmp_update_nr ∧
    (arch_mem_domain_partition_remove b d).spmp_update_nr ≠ d.spmp_update_nr ∧
    (d.spmp_update_nr + 1 < 2 ^ b.nr_bits →
      (arch_mem_domain_partition_add b d).spmp_update_nr = d.spmp_update_nr + 1 ∧
      (arch_mem_domain_partition_remove b d).spmp_update_nr = d.spmp_update_nr + 1) ∧
    (d.spmp_update_nr + 1 = 2 ^ b.nr_bits →
      (arch_mem_domain_partition_add b d).spmp_update_nr = 0 ∧
      (arch_mem_domain_partition_remove b d).spmp_update_nr = 0) := by
  have h2 : 2 ≤ 2 ^ b.nr_bits := by
    calc 2 = 2 ^ 1 := rfl
      _ ≤ 2 ^ b.nr_bits := Nat.pow_le_pow_right (by decide) hN
  have hadd : (arch_mem_domain_partition_add b d).spmp_update_nr =
      (d.spmp_update_nr + 1) % 2 ^ b.nr_bits := rfl
  have hrem : (arch_mem_domain_partition_remove b d).spmp_update_nr =
      (d.spmp_update_nr + 1) % 2 ^ b.nr_bits := rfl
  rw [hadd, hrem]
  rcases Nat.lt_or_ge (d.spmp_update_nr + 1) (2 ^ b.nr_bits) with hlt | hge
  · rw [Nat.mod_eq_of_lt hlt]
    refine ⟨by omega, by omega, fun _ => ⟨rfl, rfl⟩, fun h => by omega⟩
  · have e : d.spmp_update_nr + 1 = 2 ^ b.nr_bits := by omega
    rw [e, Nat.mod_self]
    refine ⟨by omega, by omega, fun h => by omega, fun _ => ⟨rfl, rfl⟩⟩

/-- C17 (amended), at a concrete domain: update number 2 in a build with
32-bit counters. -/
theorem C17_update_nr_changes_witness :
    (arch_mem_domain_partition_add build32 domain_ro_rw).spmp_update_nr ≠
      domain_ro_rw.spmp_update_nr ∧
    (arch_mem_domain_partition_remove build32 domain_ro_rw).spmp_update_nr ≠
      domain_ro_rw.spmp_update_nr :=
  have h := C17_update_nr_changes build32 domain_ro_rw (by decide) (by decide)
  ⟨h.1, h.2.1⟩

/-- C18 (the code at the failing input): `thread0` is prepared and enabled
as a member of `domain_A`, which maps the partition [0x4000, 0x5000) at
slot 5, then `arch_mem_domain_thread_add` resets its cached update number
for its new domain `domain_B`, freshly initialised and without partitions.
The next `z_riscv_spmp_usermode_enable` finds both numbers 0, does not
resync, and writes to the hardware a range that still ends with the entry
of the partition of `domain_A`. -/
theorem C18_no_resync_on_fresh_domain :
    domain_B.spmp_update_nr = 0 ∧ domain_B.partitions.length = 0 ∧
    thread_in_A.map (fun t => (t.u_mode_spmp_domain_offset, t.u_mode_spmp_end_index,
      t.u_mode_spmp_update_nr)) = some (5, 6, 1) ∧
    thread_in_A.map (fun t => (arch_mem_domain_thread_add t).u_mode_spmp_update_nr) =
      some 0 ∧
    thread_in_A.map (fun t => (z_riscv_spmp_usermode_enable rv32 build32 global2
      (arch_mem_domain_thread_add t) domain_B).resynced) = some false ∧
    thread_in_A.map (fun t => (z_riscv_spmp_usermode_enable rv32 build32 global2
      (arch_mem_domain_thread_add t) domain_B).thread.u_mode_spmp_end_index) = some 6 ∧
    thread_in_A.map (fun t => (z_riscv_spmp_usermode_enable rv32 build32 global2
      (arch_mem_domain_thread_add t) domain_B).hw.map
        (fun h => (h.first, h.last, h.spmp_addr 5, h.spmp_cfg 5))) =
      some [(2, 6, SPMP_ADDR_NAPOT rv32 0x4000 0x1000,
        (build32.SPMP_W ||| build32.SPMP_X ||| rv32.SPMP_NAPOT) % 256)] := by
  decide

/-! ## C19 and C20: the partition budget and undersized partitions -/

/-- Every successful `set_spmp_entry` call of the resync loop takes at least
one slot, and the cursor stays within the array. -/
theorem resync_loop_count (c : Config) (b : Build) :
    ∀ (ps : List Partition) (remaining : Nat) (st : State),
      st.index ≤ b.u_mode_slots →
      (resync_loop c b remaining ps st).oks.count true + st.index ≤
        (resync_loop c b remaining ps st).st.index ∧
      (resync_loop c b remaining ps st).st.index ≤ b.u_mode_slots := by
  intro ps
  induction ps with
  | nil =>
    intro remaining st h
    cases remaining with
    | zero => exact ⟨by simp [resync_loop], h⟩
    | succ r => exact ⟨by simp [resync_loop], h⟩
  | cons p ps ih =>
    intro remaining st h
    cases remaining with
    | zero => exact ⟨by simp [resync_loop], h⟩
    | succ r =>
      by_cases hp : p.size = 0
      · have e : resync_loop c b (r + 1) (p :: ps) st = resync_loop c b (r + 1) ps st := by
          simp [resync_loop, hp]
        rw [e]
        exact ih (r + 1) st h
      by_cases h4 : p.size < 4
      · by_cases ha : b.CONFIG_ASSERT = true
        · have e : resync_loop c b (r + 1) (p :: ps) st =
              { stop := some Stop.assertion, st := st, oks := [] } := by
            simp [resync_loop, hp, h4, ha]
          rw [e]
          exact ⟨by simp, h⟩
        · have e : resync_loop c b (r + 1) (p :: ps) st = resync_loop c b r ps st := by
            simp [resync_loop, hp, h4, ha]
          rw [e]
          exact ih r st h
      have hge := set_spmp_entry_index_ge c st (b.SPMP_W ||| b.SPMP_X) p.start p.size
        b.u_mode_slots
      have hle := set_spmp_entry_index_le c st (b.SPMP_W ||| b.SPMP_X) p.start p.size
        b.u_mode_slots h
      by_cases hf : (set_spmp_entry c st (b.SPMP_W ||| b.SPMP_X) p.start p.size
          b.u_mode_slots).1 = false ∧ b.CONFIG_ASSERT = true
      · have e : resync_loop c b (r + 1) (p :: ps) st =
            { stop := some Stop.assertion
              st := (set_spmp_entry c st (b.SPMP_W ||| b.SPMP_X) p.start p.size
                b.u_mode_slots).2
              oks := [false] } := by
          simp [resync_loop, hp, h4, hf.1, hf.2]
        rw [e]
        exact ⟨by simpa using hge, hle⟩
      · have e : resync_loop c b (r + 1) (p :: ps) st =
            { resync_loop c b r ps
                (set_spmp_entry c st (b.SPMP_W ||| b.SPMP_X) p.start p.size
                  b.u_mode_slots).2 with
              oks := (set_spmp_entry c st (b.SPMP_W ||| b.SPMP_X) p.start p.size
                  b.u_mode_slots).1 ::
                (resync_loop c b r ps
                  (set_spmp_entry c st (b.SPMP_W ||| b.SPMP_X) p.start p.size
                    b.u_mode_slots).2).oks } := by
          simp only [resync_loop, hp, h4, if_false, hf]
        rw [e]
        obtain ⟨i1, i2⟩ := ih r (set_spmp_entry c st (b.SPMP_W ||| b.SPMP_X) p.start p.size
          b.u_mode_slots).2 hle
        refine ⟨?_, i2⟩
        show ((set_spmp_entry c st (b.SPMP_W ||| b.SPMP_X) p.start p.size
              b.u_mode_slots).1 ::
            (resync_loop c b r ps (set_spmp_entry c st (b.SPMP_W ||| b.SPMP_X) p.start
              p.size b.u_mode_slots).2).oks).count true + st.index ≤
          (resync_loop c b r ps (set_spmp_entry c st (b.SPMP_W ||| b.SPMP_X) p.start
            p.size b.u_mode_slots).2).st.index
        cases hok : (set_spmp_entry c st (b.SPMP_W ||| b.SPMP_X) p.start p.size
            b.u_mode_slots).1 with
        | true =>
          have hgt := set_spmp_entry_index_gt c st (b.SPMP_W ||| b.SPMP_X) p.start p.size
            b.u_mode_slots hok
          rw [List.count_cons_self]
          omega
        | false =>
          rw [List.count_cons_of_ne (by decide)]
          omega

/-- The return values that `resync_spmp_domain` reports are those of its
loop. -/
theorem resync_spmp_domain_oks (c : Config) (b : Build) (t : Thread) (d : Domain) :
    (resync_spmp_domain c b t d).oks =
      (resync_loop c b d.num_partitions d.partitions
        (t.u_mode t.u_mode_spmp_domain_offset)).oks := by
  unfold resync_spmp_domain
  simp only []
  split <;> rfl

/-- C19 (as stated, refuted): with 4 slots, 2 of them global, and no
power-of-two requirement, `arch_mem_domain_max_partitions_get` returns 0;
`z_riscv_spmp_usermode_prepare` maps the stack in one slot and fails to map
its dummy region, and the resync for `domain_A` then encodes one partition
successfully. -/
theorem C19_counterexample :
    arch_mem_domain_max_partitions_get build32_4 global2 = 0 ∧
    (z_riscv_spmp_usermode_prepare rv32 build32_4 global2 thread0).map
      (fun t => t.u_mode_spmp_domain_offset) = some 3 ∧
    (z_riscv_spmp_usermode_prepare rv32 build32_4 global2 thread0).map
      (fun t => (resync_spmp_domain rv32 build32_4 t domain_A).stop) = some none ∧
    (z_riscv_spmp_usermode_prepare rv32 build32_4 global2 thread0).map
      (fun t => (resync_spmp_domain rv32 build32_4 t domain_A).oks) = some [true] := by
  decide

/-- C19 (amended): `arch_mem_domain_max_partitions_get` returns
CONFIG_SPMP_SLOTS minus the global end index minus r (r = 1 when
power-of-two alignment is required, else 2); and for every thread prepared
by `z_riscv_spmp_usermode_prepare` whose preparation consumed at least r
slots (domain offset >= global end index + r), with the user-mode arrays
no longer than CONFIG_SPMP_SLOTS and the global entries inside them, for
every domain the number of partitions that resync encodes successfully
does not exceed that value. -/
theorem C19_max_partitions_bound (c : Config) (b : Build) (g : Global) (t0 t : Thread)
    (d : Domain)
    (hprep : z_riscv_spmp_usermode_prepare c b g t0 = some t)
    (hG : g.global_spmp_end_index ≤ b.u_mode_slots)
    (hslots : b.u_mode_slots ≤ b.CONFIG_SPMP_SLOTS)
    (hres : g.global_spmp_end_index +
        (if b.CONFIG_MPU_REQUIRES_POWER_OF_TWO_ALIGNMENT = true then 1 else 2) ≤
      t.u_mode_spmp_domain_offset) :
    arch_mem_domain_max_partitions_get b g =
      (b.CONFIG_SPMP_SLOTS : Int) - (g.global_spmp_end_index : Int) -
        (if b.CONFIG_MPU_REQUIRES_POWER_OF_TWO_ALIGNMENT = true then 1 else 2) ∧
    (((resync_spmp_domain c b t d).oks.count true : Nat) : Int) ≤
      arch_mem_domain_max_partitions_get b g := by
  refine ⟨rfl, ?_⟩
  have hoff : t.u_mode_spmp_domain_offset ≤ b.u_mode_slots := by
    unfold z_riscv_spmp_usermode_prepare at hprep
    cases hi : z_riscv_spmp_thread_init c g t0 with
    | none =>
      rw [hi] at hprep
      exact Option.noConfusion hprep
    | some st0 =>
      rw [hi] at hprep
      have h0 : st0.index ≤ b.u_mode_slots := by
        unfold z_riscv_spmp_thread_init at hi
        by_cases hz : g.global_spmp_end_index = 0
        · rw [if_pos hz] at hi
          exact Option.noConfusion hi
        · rw [if_neg hz] at hi
          rw [← Option.some.inj hi]
          exact hG
      have h1 := set_spmp_entry_index_le c st0 (b.SPMP_R ||| b.SPMP_W) t0.stack_start
        t0.stack_size b.u_mode_slots h0
      have h2 := set_spmp_entry_index_le c _ (b.SPMP_R ||| b.SPMP_W) 0xDEAD0000 0xBEE0
        b.u_mode_slots h1
      rw [← Option.some.inj hprep]
      exact h2
  have hcount := (resync_loop_count c b d.partitions d.num_partitions
    (t.u_mode t.u_mode_spmp_domain_offset) hoff)
  rw [resync_spmp_domain_oks]
  have hidx : (t.u_mode t.u_mode_spmp_domain_offset).index = t.u_mode_spmp_domain_offset := rfl
  rw [hidx] at hcount
  unfold arch_mem_domain_max_partitions_get
  by_cases hp : b.CONFIG_MPU_REQUIRES_POWER_OF_TWO_ALIGNMENT = true
  · rw [if_pos hp] at hres ⊢
    omega
  · rw [if_neg hp] at hres ⊢
    omega

/-- C19 (amended), at a concrete thread: `thread0` prepared in the 8-slot
build (stack in slot 2, dummy region in slots 3 and 4), and `domain_A`. -/
theorem C19_max_partitions_bound_witness :
    (((resync_spmp_domain rv32 build32 thread_ready domain_A).oks.count true : Nat) : Int) ≤
      arch_mem_domain_max_partitions_get build32 global2 :=
  (C19_max_partitions_bound rv32 build32 global2 thread0 thread_ready domain_A rfl
    (by decide) (by decide) (by decide)).2

/-- Without assertions, a used partition of fewer than 4 bytes costs the
loop one count of `remaining` and nothing else. -/
theorem resync_loop_skip_small (c : Config) (b : Build) (ha : b.CONFIG_ASSERT = false)
    (p : Partition) (hp : 0 < p.size ∧ p.size < 4) (remaining : Nat) (rest : List Partition)
    (st : State) :
    resync_loop c b (remaining + 1) (p :: rest) st = resync_loop c b remaining rest st := by
  have h0 : p.size ≠ 0 := by omega
  simp [resync_loop, h0, hp.2, ha]

/-- Without assertions, the loop treats a used partition of fewer than 4
bytes like an unused slot in its place (with `remaining` one less). -/
theorem resync_loop_small_as_hole (c : Config) (b : Build) (ha : b.CONFIG_ASSERT = false)
    (p : Partition) (hp : 0 < p.size ∧ p.size < 4) (ps2 : List Partition) :
    ∀ (ps1 : List Partition) (remaining : Nat) (st : State),
      used_slots ps1 ≤ remaining →
      resync_loop c b (remaining + 1) (ps1 ++ p :: ps2) st =
        resync_loop c b remaining (ps1 ++ { p with size := 0 } :: ps2) st := by
  intro ps1
  induction ps1 with
  | nil =>
    intro remaining st _
    rw [List.nil_append, List.nil_append, resync_loop_skip_small c b ha p hp]
    cases remaining with
    | zero => simp [resync_loop]
    | succ r => simp [resync_loop]
  | cons q qs ih =>
    intro remaining st h
    rw [used_slots_cons] at h
    rw [List.cons_append, List.cons_append]
    by_cases hq : q.size = 0
    · rw [if_pos hq] at h
      have e1 : resync_loop c b (remaining + 1) (q :: (qs ++ p :: ps2)) st =
          resync_loop c b (remaining + 1) (qs ++ p :: ps2) st := by
        simp [resync_loop, hq]
      rw [e1, ih remaining st h]
      cases remaining with
      | zero => simp [resync_loop]
      | succ r => simp [resync_loop, hq]
    · rw [if_neg hq] at h
      obtain ⟨r, rfl⟩ : ∃ r, remaining = r + 1 := ⟨remaining - 1, by omega⟩
      have hr : used_slots qs ≤ r := by omega
      by_cases h4 : q.size < 4
      · rw [resync_loop_skip_small c b ha q ⟨by omega, h4⟩,
          resync_loop_skip_small c b ha q ⟨by omega, h4⟩]
        exact ih r st hr
      · simp only [resync_loop, hq, h4, if_false, ha, and_false, Bool.false_eq_true]
        rw [ih r _ hr]

/-- With assertions, a used partition of fewer than 4 bytes stops the loop
at its turn with a failed assertion: no entry is written and nothing after
it is looked at. -/
theorem resync_loop_small_assert (c : Config) (b : Build) (ha : b.CONFIG_ASSERT = true)
    (p : Partition) (hp : 0 < p.size ∧ p.size < 4) (remaining : Nat) (rest : List Partition)
    (st : State) :
    resync_loop c b (remaining + 1) (p :: rest) st =
      { stop := some Stop.assertion, st := st, oks := [] } := by
  have h0 : p.size ≠ 0 := by omega
  simp [resync_loop, h0, hp.2, ha]

/-- With assertions, a scan that counts far enough to reach a used partition
of fewer than 4 bytes ends in a failed assertion, at that partition or at
an earlier one. -/
theorem resync_loop_small_fatal (c : Config) (b : Build) (ha : b.CONFIG_ASSERT = true)
    (p : Partition) (hp : 0 < p.size ∧ p.size < 4) (ps2 : List Partition) :
    ∀ (ps1 : List Partition) (remaining : Nat) (st : State),
      used_slots ps1 ≤ remaining →
      (resync_loop c b (remaining + 1) (ps1 ++ p :: ps2) st).stop = some Stop.assertion := by
  intro ps1
  induction ps1 with
  | nil =>
    intro remaining st _
    rw [List.nil_append, resync_loop_small_assert c b ha p hp]
  | cons q qs ih =>
    intro remaining st h
    rw [used_slots_cons] at h
    rw [List.cons_append]
    by_cases hq : q.size = 0
    · rw [if_pos hq] at h
      have e1 : resync_loop c b (remaining + 1) (q :: (qs ++ p :: ps2)) st =
          resync_loop c b (remaining + 1) (qs ++ p :: ps2) st := by
        simp [resync_loop, hq]
      rw [e1]
      exact ih remaining st h
    · rw [if_neg hq] at h
      obtain ⟨r, rfl⟩ : ∃ r, remaining = r + 1 := ⟨remaining - 1, by omega⟩
      have hr : used_slots qs ≤ r := by omega
      by_cases h4 : q.size < 4
      · rw [resync_loop_small_assert c b ha q ⟨by omega, h4⟩]
      · simp only [resync_loop, hq, h4, if_false, ha, and_true]
        split_ifs
        · rfl
        · exact ih r _ hr

/-- C20 (as stated, refuted): with assertions compiled in, the 2-byte
partition of `domain_small_then` stops `resync_spmp_domain` with a fatal
assertion: the partition after it is not encoded (no `set_spmp_entry` call
is made) and the thread's end index is not updated. -/
theorem C20_counterexample :
    build32_assert.CONFIG_ASSERT = true ∧
    (resync_spmp_domain rv32 build32_assert thread_prep domain_small_then).stop =
      some Stop.assertion ∧
    (resync_spmp_domain rv32 build32_assert thread_prep domain_small_then).oks = [] ∧
    (resync_spmp_domain rv32 build32 thread_prep
      { domain_small_then with partitions := [⟨0x1000, 0, 3⟩, ⟨0x4000, 0x1000, 3⟩],
                               num_partitions := 1 }).oks = [true] := by
  decide

/-- C20 (amended): during resync, for every non-empty partition `p` whose
size is less than 4 that the scan reaches.  In a build without assertions
`p` is skipped: at its turn in the loop it writes no entry and leaves the
cursor and the arrays unchanged, and the whole resync gives the same result
as for the domain in which that slot is unused (size 0) and
`num_partitions` is one less.  In a build with assertions `p` is a fatal
assertion failure: at its turn the loop stops with no entry written, and
the whole resync stops with a failed assertion, the thread's end index and
cached update number left as they were. -/
theorem C20_small_partition_skipped (c : Config) (b : Build) (t : Thread)
    (ps1 ps2 : List Partition) (p : Partition) (n nr : Nat)
    (hp : 0 < p.size ∧ p.size < 4) (hn : used_slots ps1 ≤ n) :
    (b.CONFIG_ASSERT = false →
      (∀ (remaining : Nat) (rest : List Partition) (st : State),
        resync_loop c b (remaining + 1) (p :: rest) st = resync_loop c b remaining rest st) ∧
      resync_spmp_domain c b t
          { partitions := ps1 ++ p :: ps2, num_partitions := n + 1, spmp_update_nr := nr } =
        resync_spmp_domain c b t
          { partitions := ps1 ++ { p with size := 0 } :: ps2, num_partitions := n,
            spmp_update_nr := nr }) ∧
    (b.CONFIG_ASSERT = true →
      (∀ (remaining : Nat) (rest : List Partition) (st : State),
        resync_loop c b (remaining + 1) (p :: rest) st =
          { stop := some Stop.assertion, st := st, oks := [] }) ∧
      (resync_spmp_domain c b t
        { partitions := ps1 ++ p :: ps2, num_partitions := n + 1,
          spmp_update_nr := nr }).stop = some Stop.assertion ∧
      (resync_spmp_domain c b t
        { partitions := ps1 ++ p :: ps2, num_partitions := n + 1,
          spmp_update_nr := nr }).thread.u_mode_spmp_end_index = t.u_mode_spmp_end_index ∧
      (resync_spmp_domain c b t
        { partitions := ps1 ++ p :: ps2, num_partitions := n + 1,
          spmp_update_nr := nr }).thread.u_mode_spmp_update_nr = t.u_mode_spmp_update_nr) := by
  constructor
  · intro ha
    refine ⟨fun remaining rest st => resync_loop_skip_small c b ha p hp remaining rest st, ?_⟩
    unfold resync_spmp_domain
    simp only []
    rw [resync_loop_small_as_hole c b ha p hp ps2 ps1 n _ hn]
  · intro ha
    have hstop := resync_loop_small_fatal c b ha p hp ps2 ps1 n
      (t.u_mode t.u_mode_spmp_domain_offset) hn
    refine ⟨fun remaining rest st => resync_loop_small_assert c b ha p hp remaining rest st,
      ?_, ?_, ?_⟩
    all_goals
      unfold resync_spmp_domain
      simp only []
      rw [hstop]
      try rfl

/-- C20 (amended), at a concrete domain: the 2-byte partition of
`domain_small_then`, in the build without assertions and in the build with
them. -/
theorem C20_small_partition_skipped_witness :
    (build32.CONFIG_ASSERT = false ∧
      resync_spmp_domain rv32 build32 thread_prep
          { partitions := [] ++ (⟨0x1000, 2, 3⟩ : Partition) :: [⟨0x4000, 0x1000, 3⟩],
            num_partitions := 1 + 1, spmp_update_nr := 1 } =
        resync_spmp_domain rv32 build32 thread_prep
          { partitions := [] ++ { (⟨0x1000, 2, 3⟩ : Partition) with size := 0 } ::
              [⟨0x4000, 0x1000, 3⟩],
            num_partitions := 1, spmp_update_nr := 1 }) ∧
    (build32_assert.CONFIG_ASSERT = true ∧
      (resync_spmp_domain rv32 build32_assert thread_prep
        { partitions := [] ++ (⟨0x1000, 2, 3⟩ : Partition) :: [⟨0x4000, 0x1000, 3⟩],
          num_partitions := 1 + 1, spmp_update_nr := 1 }).stop = some Stop.assertion) :=
  ⟨⟨rfl, ((C20_small_partition_skipped rv32 build32 thread_prep [] [⟨0x4000, 0x1000, 3⟩]
      ⟨0x1000, 2, 3⟩ 1 1 (by decide) (by decide)).1 rfl).2⟩,
   ⟨rfl, ((C20_small_partition_skipped rv32 build32_assert thread_prep []
      [⟨0x4000, 0x1000, 3⟩] ⟨0x1000, 2, 3⟩ 1 1 (by decide) (by decide)).2 rfl).2.1⟩⟩

/-! ## C21 and C22: the fault classifier -/

/-- A guard test of `bad_stack_pointer` that succeeds puts the stack
pointer in the guard range, the range end taken without wrapping. -/
theorem guard_test_sound (c : Config) (sp g size : Nat)
    (h : sp ≥ g ∧ sp < addw c g size) : g ≤ sp ∧ sp < g + size :=
  ⟨h.1, lt_of_lt_of_le h.2 (Nat.mod_le _ _)⟩

/-- A stack pointer in a guard range that does not wrap passes the guard
test of `bad_stack_pointer`. -/
theorem guard_test_complete (c : Config) (sp g size : Nat)
    (h : g ≤ sp ∧ sp < g + size) (hw : g + size < 2 ^ c.bits) :
    sp ≥ g ∧ sp < addw c g size := by
  unfold addw
  rw [Nat.mod_eq_of_lt hw]
  exact h

/-- With a stack pointer in a guard range of the current thread that does
not wrap, `bad_stack_pointer` returns true. -/
theorem bad_stack_pointer_of_guard (c : Config) (k : Kernel) (cur : Thread) (esf : Esf)
    (g : Nat) (hg : guard_start c k cur g)
    (hin : g ≤ addw c esf.addr k.ESF_SIZE ∧
      addw c esf.addr k.ESF_SIZE < g + k.Z_RISCV_STACK_GUARD_SIZE)
    (hw : g + k.Z_RISCV_STACK_GUARD_SIZE < 2 ^ c.bits) :
    bad_stack_pointer c k cur esf = true := by
  have ht := guard_test_complete c _ g _ hin hw
  obtain ⟨hsg, hcase⟩ := hg
  unfold bad_stack_pointer
  rcases hcase with ⟨hu, hp, rfl⟩ | ⟨hu, hc, rfl⟩ | ⟨hm, rfl⟩ | ⟨hm, rfl | rfl⟩
  · rw [if_pos ⟨hsg, hu, hp, ht.1, ht.2⟩]
  · split_ifs <;> first | rfl | (exfalso; simp_all)
  · split_ifs <;> first | rfl | (exfalso; simp_all)
  · split_ifs <;> first | rfl | (exfalso; simp_all)
  · split_ifs <;> first | rfl | (exfalso; simp_all)

/-- With the stack pointer outside every guard range of the current thread,
`bad_stack_pointer` is decided by its last test: a trap taken in user mode
with the saved user stack pointer outside the thread's stack. -/
theorem bad_stack_pointer_outside (c : Config) (k : Kernel) (cur : Thread) (esf : Esf)
    (hout : ∀ g, guard_start c k cur g →
      ¬ (g ≤ addw c esf.addr k.ESF_SIZE ∧
        addw c esf.addr k.ESF_SIZE < g + k.Z_RISCV_STACK_GUARD_SIZE)) :
    bad_stack_pointer c k cur esf =
      decide (k.CONFIG_USERSPACE = true ∧ esf.mstatus &&& k.MSTATUS_MPP = 0 ∧
        (esf.sp < cur.stack_start ∨
          esf.sp > subw c (addw c cur.stack_start cur.stack_size) cur.stack_delta)) := by
  have h1 : ¬ (k.CONFIG_SPMP_STACK_GUARD = true ∧ k.CONFIG_USERSPACE = true ∧
      cur.priv_stack_start ≠ 0 ∧
      addw c esf.addr k.ESF_SIZE ≥ cur.priv_stack_start ∧
      addw c esf.addr k.ESF_SIZE <
        addw c cur.priv_stack_start k.Z_RISCV_STACK_GUARD_SIZE) := by
    rintro ⟨a, b, d, e, f⟩
    exact hout _ ⟨a, Or.inl ⟨b, d, rfl⟩⟩ (guard_test_sound c _ _ _ ⟨e, f⟩)
  have h2 : ¬ (k.CONFIG_SPMP_STACK_GUARD = true ∧ k.CONFIG_USERSPACE = true ∧
      cur.user_capable = true ∧
      addw c esf.addr k.ESF_SIZE ≥ subw c cur.stack_start k.K_THREAD_STACK_RESERVED ∧
      addw c esf.addr k.ESF_SIZE <
        addw c (subw c cur.stack_start k.K_THREAD_STACK_RESERVED)
          k.Z_RISCV_STACK_GUARD_SIZE) := by
    rintro ⟨a, b, d, e, f⟩
    exact hout _ ⟨a, Or.inr (Or.inl ⟨b, d, rfl⟩)⟩ (guard_test_sound c _ _ _ ⟨e, f⟩)
  have h3 : ¬ (k.CONFIG_SPMP_STACK_GUARD = true ∧ k.CONFIG_MULTITHREADING = true ∧
      addw c esf.addr k.ESF_SIZE ≥ subw c cur.stack_start k.K_KERNEL_STACK_RESERVED ∧
      addw c esf.addr k.ESF_SIZE <
        addw c (subw c cur.stack_start k.K_KERNEL_STACK_RESERVED)
          k.Z_RISCV_STACK_GUARD_SIZE) := by
    rintro ⟨a, b, e, f⟩
    exact hout _ ⟨a, Or.inr (Or.inr (Or.inl ⟨b, rfl⟩))⟩ (guard_test_sound c _ _ _ ⟨e, f⟩)
  have h4 : ¬ (k.CONFIG_SPMP_STACK_GUARD = true ∧ k.CONFIG_MULTITHREADING = false ∧
      ((addw c esf.addr k.ESF_SIZE ≥ k.isr_stack ∧
          addw c esf.addr k.ESF_SIZE < addw c k.isr_stack k.Z_RISCV_STACK_GUARD_SIZE) ∨
        (addw c esf.addr k.ESF_SIZE ≥ k.main_stack ∧
          addw c esf.addr k.ESF_SIZE <
            addw c k.main_stack k.Z_RISCV_STACK_GUARD_SIZE))) := by
    rintro ⟨a, b, ⟨e, f⟩ | ⟨e, f⟩⟩
    · exact hout _ ⟨a, Or.inr (Or.inr (Or.inr ⟨b, Or.inl rfl⟩))⟩
        (guard_test_sound c _ _ _ ⟨e, f⟩)
    · exact hout _ ⟨a, Or.inr (Or.inr (Or.inr ⟨b, Or.inr rfl⟩))⟩
        (guard_test_sound c _ _ _ ⟨e, f⟩)
  unfold bad_stack_pointer
  rw [if_neg h1, if_neg h2, if_neg h3, if_neg h4]
  split_ifs with h5
  · exact (decide_eq_true h5).symm
  · exact (decide_eq_false h5).symm

/-- When no entry of the table matches, `z_riscv_fault` escalates with the
reason that `bad_stack_pointer` selects and leaves the frame as it is. -/
theorem z_riscv_fault_unhandled (c : Config) (k : Kernel) (cur : Thread) (esf : Esf)
    (hno : fixup_loop (exceptions k) esf = none) :
    z_riscv_fault c k cur esf =
      { fatal := some (if bad_stack_pointer c k cur esf = true then k.K_ERR_STACK_CHK_FAIL
          else k.K_ERR_CPU_EXCEPTION)
        esf := esf } := by
  unfold z_riscv_fault
  rw [hno]

/-- C21 (as stated, refuted): a trap taken in user mode that the probe table
does not handle, with the kernel stack pointer before the trap (0x2FF80)
and the saved user stack pointer (0x1FF00) both outside every guard range
of the current thread, is escalated with the stack-check-failure reason,
not the CPU-exception reason: the user stack pointer is below the thread's
stack. -/
theorem C21_counterexample :
    (fixup_loop (exceptions kernel32) esf_user_low).isNone = true ∧
    (∀ g, guard_start rv32 kernel32 thread0 g →
      ¬ (g ≤ addw rv32 esf_user_low.addr kernel32.ESF_SIZE ∧
        addw rv32 esf_user_low.addr kernel32.ESF_SIZE <
          g + kernel32.Z_RISCV_STACK_GUARD_SIZE) ∧
      ¬ (g ≤ z_riscv_get_sp_before_exc rv32 kernel32 esf_user_low ∧
        z_riscv_get_sp_before_exc rv32 kernel32 esf_user_low <
          g + kernel32.Z_RISCV_STACK_GUARD_SIZE)) ∧
    (z_riscv_fault rv32 kernel32 thread0 esf_user_low).fatal =
      some kernel32.K_ERR_STACK_CHK_FAIL ∧
    kernel32.K_ERR_STACK_CHK_FAIL ≠ kernel32.K_ERR_CPU_EXCEPTION := by
  refine ⟨by decide, ?_, by decide, by decide⟩
  intro g hg
  have hgv : g = 0x1FFC0 := by
    rcases hg.2 with ⟨_, hp, _⟩ | ⟨_, hc, _⟩ | ⟨_, rfl⟩ | ⟨hm, _⟩
    · exact absurd rfl hp
    · exact absurd hc (by decide)
    · decide
    · exact absurd hm (by decide)
  subst hgv
  decide

/-- C21 (amended): for every trap that the probe table does not handle,
`z_riscv_fault` escalates with the stack-check-failure reason when the
kernel stack pointer before the trap (frame address plus frame size) lies
inside a guard range [guardStart, guardStart + GUARD_SIZE) of the current
thread that does not wrap around the address space; when that stack
pointer lies outside all guard ranges it escalates with the generic
CPU-exception reason, except for a trap taken in user mode whose saved
user stack pointer is outside [stack.start, stack.start + stack.size -
stack.delta], which is a stack-check failure too. -/
theorem C21_fault_reason (c : Config) (k : Kernel) (cur : Thread) (esf : Esf)
    (hno : fixup_loop (exceptions k) esf = none) :
    (∀ g, guard_start c k cur g →
      g ≤ addw c esf.addr k.ESF_SIZE ∧
        addw c esf.addr k.ESF_SIZE < g + k.Z_RISCV_STACK_GUARD_SIZE →
      g + k.Z_RISCV_STACK_GUARD_SIZE < 2 ^ c.bits →
      (z_riscv_fault c k cur esf).fatal = some k.K_ERR_STACK_CHK_FAIL) ∧
    ((∀ g, guard_start c k cur g →
        ¬ (g ≤ addw c esf.addr k.ESF_SIZE ∧
          addw c esf.addr k.ESF_SIZE < g + k.Z_RISCV_STACK_GUARD_SIZE)) →
      ((k.CONFIG_USERSPACE = true ∧ esf.mstatus &&& k.MSTATUS_MPP = 0 ∧
          (esf.sp < cur.stack_start ∨
            esf.sp > subw c (addw c cur.stack_start cur.stack_size) cur.stack_delta)) →
        (z_riscv_fault c k cur esf).fatal = some k.K_ERR_STACK_CHK_FAIL) ∧
      (¬ (k.CONFIG_USERSPACE = true ∧ esf.mstatus &&& k.MSTATUS_MPP = 0 ∧
          (esf.sp < cur.stack_start ∨
            esf.sp > subw c (addw c cur.stack_start cur.stack_size) cur.stack_delta)) →
        (z_riscv_fault c k cur esf).fatal = some k.K_ERR_CPU_EXCEPTION)) := by
  rw [z_riscv_fault_unhandled c k cur esf hno]
  refine ⟨fun g hg hin hw => ?_, fun hout => ⟨fun hu => ?_, fun hu => ?_⟩⟩
  · simp [bad_stack_pointer_of_guard c k cur esf g hg hin hw]
  · simp [bad_stack_pointer_outside c k cur esf hout, hu]
  · simp [bad_stack_pointer_outside c k cur esf hout, hu]

/-- C21 (amended), at a concrete trap: the frame `esf_guard`, whose kernel
stack pointer is in the guard [0x1FFC0, 0x20000) of `thread0`. -/
theorem C21_fault_reason_witness :
    (z_riscv_fault rv32 kernel32 thread0 esf_guard).fatal =
      some kernel32.K_ERR_STACK_CHK_FAIL :=
  (C21_fault_reason rv32 kernel32 thread0 esf_guard rfl).1 0x1FFC0
    ⟨rfl, Or.inr (Or.inr (Or.inl ⟨rfl, by decide⟩))⟩ (by decide) (by decide)

/-- C22: for every exception frame whose saved program counter pc satisfies
start <= pc < end for an entry of the probe table, `z_riscv_fault` sets the
saved program counter to that entry's fixup address, changes no other
field of the frame, and returns without escalating; a pc equal to the end
of an entry, or outside every range, is not fixed up: the frame is left as
it is and the fault is escalated with the reason that `bad_stack_pointer`
selects. -/
theorem C22_probe_fixup (c : Config) (k : Kernel) (cur : Thread) (esf : Esf) :
    (∀ h ∈ exceptions k, h.start ≤ esf.mepc → esf.mepc < h.last →
      z_riscv_fault c k cur esf = { fatal := none, esf := { esf with mepc := h.fixup } }) ∧
    (∀ h ∈ exceptions k, esf.mepc = h.last →
      z_riscv_fault c k cur esf =
        { fatal := some (if bad_stack_pointer c k cur esf = true then k.K_ERR_STACK_CHK_FAIL
            else k.K_ERR_CPU_EXCEPTION)
          esf := esf }) ∧
    ((∀ h ∈ exceptions k, ¬ (h.start ≤ esf.mepc ∧ esf.mepc < h.last)) →
      z_riscv_fault c k cur esf =
        { fatal := some (if bad_stack_pointer c k cur esf = true then k.K_ERR_STACK_CHK_FAIL
            else k.K_ERR_CPU_EXCEPTION)
          esf := esf }) := by
  by_cases hu : k.CONFIG_USERSPACE = true
  · have he : exceptions k =
        [{ start := k.exc_start, last := k.exc_end, fixup := k.exc_fixup }] := by
      unfold exceptions
      rw [if_pos hu]
    rw [he]
    refine ⟨fun h hh h1 h2 => ?_, fun h hh h1 => ?_, fun hno => ?_⟩
    · rw [List.mem_singleton] at hh
      subst hh
      unfold z_riscv_fault
      rw [he]
      simp only [fixup_loop]
      rw [if_pos ⟨h1, h2⟩]
    · rw [List.mem_singleton] at hh
      subst hh
      apply z_riscv_fault_unhandled
      rw [he]
      simp only [fixup_loop]
      have h1' : esf.mepc = k.exc_end := h1
      rw [if_neg (fun hh => by
        have h2 : esf.mepc < k.exc_end := hh.2
        omega)]
    · apply z_riscv_fault_unhandled
      rw [he]
      simp only [fixup_loop]
      rw [if_neg (fun hh => hno _ (List.mem_singleton.mpr rfl) ⟨hh.1, hh.2⟩)]
  · have he : exceptions k = [] := by
      unfold exceptions
      rw [if_neg hu]
    rw [he]
    refine ⟨fun h hh => absurd hh (List.not_mem_nil _),
      fun h hh => absurd hh (List.not_mem_nil _), fun _ => ?_⟩
    apply z_riscv_fault_unhandled
    rw [he]
    rfl

/-- C22, at a concrete frame: a trap at pc 0x80001010, inside the probe
routine [0x80001000, 0x80001020) of `kernel32`. -/
theorem C22_probe_fixup_witness :
    z_riscv_fault rv32 kernel32 thread0 esf_probe =
      { fatal := none, esf := { esf_probe with mepc := 0x80001040 } } :=
  (C22_probe_fixup rv32 kernel32 thread0 esf_probe).1
    { start := 0x80001000, last := 0x80001020, fixup := 0x80001040 }
    (List.mem_singleton.mpr rfl) (by decide) (by decide)

/-! ## C23: boot-time initialisation -/

/-- On one core, as soon as one entry was encoded, and as long as the
entries encoded fit the one config register of the local `spmp_cfg`,
`z_riscv_spmp_init` does not stop: it writes the entries [0, cursor) to
the hardware and records the globals, whatever the `set_spmp_entry` calls
returned. -/
theorem z_riscv_spmp_init_goes_on (c : Config) (b : Build) (k : Kernel) (g : Global)
    (addr0 cfg0 : Nat → Nat) (hsmp : k.CONFIG_SMP = false)
    (hidx : 0 < (set_spmp_entries c b.CONFIG_SPMP_SLOTS
      { index := 0, spmp_addr := addr0, spmp_n_cfg := cfg0, spmp_switch := fun _ => 0 }
      (init_regions b k)).2.index)
    (hfit : (set_spmp_entries c b.CONFIG_SPMP_SLOTS
      { index := 0, spmp_addr := addr0, spmp_n_cfg := cfg0, spmp_switch := fun _ => 0 }
      (init_regions b k)).2.index ≤ c.RV_REGSIZE) :
    (z_riscv_spmp_init c b k g addr0 cfg0).stop = none ∧
    (z_riscv_spmp_init c b k g addr0 cfg0).oks =
      (set_spmp_entries c b.CONFIG_SPMP_SLOTS
        { index := 0, spmp_addr := addr0, spmp_n_cfg := cfg0, spmp_switch := fun _ => 0 }
        (init_regions b k)).1 ∧
    (z_riscv_spmp_init c b k g addr0 cfg0).hw ≠ [] ∧
    (z_riscv_spmp_init c b k g addr0 cfg0).global.global_spmp_end_index =
      (set_spmp_entries c b.CONFIG_SPMP_SLOTS
        { index := 0, spmp_addr := addr0, spmp_n_cfg := cfg0, spmp_switch := fun _ => 0 }
        (init_regions b k)).2.index := by
  have hle := set_spmp_entries_index_le c b.CONFIG_SPMP_SLOTS (init_regions b k)
    { index := 0, spmp_addr := addr0, spmp_n_cfg := cfg0, spmp_switch := fun _ => 0 }
    (Nat.zero_le _)
  have h1 : ∀ (cl : Bool) (a f s : Nat → Nat), ¬ (b.CONFIG_ASSERT = true ∧
      ¬ (0 < (set_spmp_entries c b.CONFIG_SPMP_SLOTS
          { index := 0, spmp_addr := addr0, spmp_n_cfg := cfg0, spmp_switch := fun _ => 0 }
          (init_regions b k)).2.index ∧
        (set_spmp_entries c b.CONFIG_SPMP_SLOTS
          { index := 0, spmp_addr := addr0, spmp_n_cfg := cfg0, spmp_switch := fun _ => 0 }
          (init_regions b k)).2.index ≤ b.CONFIG_SPMP_SLOTS ∧
        b.CONFIG_SPMP_SLOTS ≤ b.CONFIG_SPMP_SLOTS)) :=
    fun _ _ _ _ h => h.2 ⟨hidx, hle, le_refl _⟩
  have h2 : ¬ (0 ≥ (set_spmp_entries c b.CONFIG_SPMP_SLOTS
        { index := 0, spmp_addr := addr0, spmp_n_cfg := cfg0, spmp_switch := fun _ => 0 }
        (init_regions b k)).2.index ∨
      (set_spmp_entries c b.CONFIG_SPMP_SLOTS
        { index := 0, spmp_addr := addr0, spmp_n_cfg := cfg0, spmp_switch := fun _ => 0 }
        (init_regions b k)).2.index > b.CONFIG_SPMP_SLOTS) := by omega
  unfold z_riscv_spmp_init write_spmp_entries
  simp only [if_neg (h1 true addr0 addr0 addr0), if_neg h2, if_neg (Nat.not_lt.mpr hfit), hsmp]
  simp

/-- C23 (the code at the failing input): with 4 slots, the read-only region
and the kernel RAM take two slots each and the encoding of the interrupt
stack guard fails for lack of slots; `z_riscv_spmp_init` does not stop, it
writes the four entries without the guard to the hardware and records the
global table with end index 4. -/
theorem C23_init_ignores_exhaustion :
    (z_riscv_spmp_init rv32 build32_4 kernel32 global0 (const_array 0) (const_array 0)).oks =
      [true, true, false] ∧
    (z_riscv_spmp_init rv32 build32_4 kernel32 global0 (const_array 0) (const_array 0)).stop =
      none ∧
    (z_riscv_spmp_init rv32 build32_4 kernel32 global0 (const_array 0)
      (const_array 0)).hw.map (fun h => (h.first, h.last)) = [(0, 4)] ∧
    (z_riscv_spmp_init rv32 build32_4 kernel32 global0 (const_array 0)
      (const_array 0)).global.global_spmp_end_index = 4 ∧
    (z_riscv_spmp_init rv32 build32_4 kernel32 global0 (const_array 0)
      (const_array 0)).global.global_spmp_last_addr = SPMP_ADDR 0x80007000 := by
  decide

/-! ## C24 and C27: what the written entries cover -/

theorem two_pow_sub_one_shiftRight_three (n : Nat) (h : 3 ≤ n) :
    (2 ^ n - 1) >>> 3 = 2 ^ (n - 3) - 1 := by
  rw [Nat.shiftRight_eq_div_pow]
  have e : 2 ^ n = 2 ^ 3 * 2 ^ (n - 3) := by
    rw [← Nat.pow_add]
    congr 1
    omega
  have hp : 0 < 2 ^ (n - 3) := Nat.two_pow_pos _
  rw [e]
  omega

/-- Where the request start = 0, size = 0 does get the whole address range:
with NAPOT enabled, a free slot and no TOR continuation (TOR disabled, or
the cursor not 0 and the address field before it not 0), the entry written
is a NAPOT entry whose address field is 2^(bits-3) - 1, that is bits - 3
trailing ones: the naturally aligned block of 2^bits bytes at 0. -/
theorem set_spmp_entry_whole_range (c : Config) (st : State) (perm index_limit : Nat)
    (hn : c.napot = true) (hb : 3 ≤ c.bits) (hidx : st.index < index_limit)
    (hc : ¬ tor_continuation c st 0) :
    set_spmp_entry c st perm 0 0 index_limit =
      (true, write_one c st (2 ^ (c.bits - 3) - 1) (perm ||| c.SPMP_NAPOT)) := by
  have hp : napot_applies c 0 0 :=
    napot_applies_of_pot c 0 0 hn (by decide) (Nat.two_pow_pos _) (Nat.two_pow_pos _)
      ⟨Or.inl rfl, rfl⟩
  rw [set_spmp_entry_napot c st perm 0 0 index_limit hidx hc (fun h => absurd h.2 (by decide))
    hp]
  have e : SPMP_ADDR_NAPOT c 0 0 = 2 ^ (c.bits - 3) - 1 := by
    unfold SPMP_ADDR_NAPOT SPMP_ADDR NAPOT_RANGE
    rw [subw_zero_one, Nat.zero_or, ← Nat.shiftRight_add]
    exact two_pow_sub_one_shiftRight_three c.bits hb
  rw [e]

/-- C27 (as stated, refuted): the region (0xFFFFD000, 0x3000) of a 32-bit
build is 4-byte aligned and ends at the address-space size 2^32, not
beyond it; its two-slot TOR encoding succeeds, but the sum start + size
wraps to 0, so the TOR entry in slot 1 has upper bound 0 and its range
[0xFFFFD000, 0) is not [start, start + size). -/
theorem C27_counterexample :
    0xFFFFD000 % 4 = 0 ∧ 0x3000 % 4 = 0 ∧ 0xFFFFD000 + 0x3000 ≤ 2 ^ rv32.bits ∧
    (set_spmp_entry rv32 (empty_at 0) 3 0xFFFFD000 0x3000 8).1 = true ∧
    (set_spmp_entry rv32 (empty_at 0) 3 0xFFFFD000 0x3000 8).2.index = 2 ∧
    (set_spmp_entry rv32 (empty_at 0) 3 0xFFFFD000 0x3000 8).2.spmp_n_cfg 1 =
      (3 ||| rv32.SPMP_TOR) % 256 ∧
    tor_lower (set_spmp_entry rv32 (empty_at 0) 3 0xFFFFD000 0x3000 8).2.spmp_addr 1 =
      0xFFFFD000 ∧
    tor_upper (set_spmp_entry rv32 (empty_at 0) 3 0xFFFFD000 0x3000 8).2.spmp_addr 1 = 0 ∧
    tor_upper (set_spmp_entry rv32 (empty_at 0) 3 0xFFFFD000 0x3000 8).2.spmp_addr 1 ≠
      0xFFFFD000 + 0x3000 := by
  decide

/-- C27 (amended): for every successful `set_spmp_entry` call that uses TOR
(the continuation rule applies, or neither NA4 nor NAPOT does) on a
4-byte-aligned region with start + size below the address-space size
2^bits, the hardware TOR range of the entry written last, in slot i = new
cursor - 1, [addr[i-1] << 2, addr[i] << 2) with lower bound 0 when i == 0,
is exactly [start, start + size). -/
theorem C27_tor_range_exact (c : Config) (st : State) (perm start size index_limit : Nat)
    (htor : tor_continuation c st start ∨
      (¬ na4_applies c size ∧ ¬ napot_applies c start size))
    (hok : (set_spmp_entry c st perm start size index_limit).1 = true)
    (hs4 : start % 4 = 0) (hz4 : size % 4 = 0) (hsum : start + size < 2 ^ c.bits) :
    tor_lower (set_spmp_entry c st perm start size index_limit).2.spmp_addr
      ((set_spmp_entry c st perm start size index_limit).2.index - 1) = start ∧
    tor_upper (set_spmp_entry c st perm start size index_limit).2.spmp_addr
      ((set_spmp_entry c st perm start size index_limit).2.index - 1) = start + size := by
  have hidx : st.index < index_limit := by
    by_contra hh
    rw [set_spmp_entry_full c st perm start size index_limit (by omega)] at hok
    exact Bool.noConfusion hok
  have hend : (SPMP_ADDR (addw c start size)) <<< 2 = start + size := by
    unfold SPMP_ADDR addw
    rw [Nat.mod_eq_of_lt hsum]
    exact shr_shl_two _ (by omega)
  have hbeg : (SPMP_ADDR start) <<< 2 = start := shr_shl_two _ hs4
  by_cases hc : tor_continuation c st start
  · rw [set_spmp_entry_tor_cont c st perm start size index_limit hidx hc]
    have hi : (write_one c st (SPMP_ADDR (addw c start size)) (perm ||| c.SPMP_TOR)).index - 1
        = st.index := rfl
    rw [hi]
    constructor
    · unfold tor_lower
      rcases hc.2 with ⟨h0, hs0⟩ | ⟨h0, hprev⟩
      · rw [if_pos h0, hs0]
      · rw [if_neg h0]
        have hne : st.index - 1 ≠ st.index := by omega
        simp only [write_one, upd, if_neg hne]
        rw [hprev]
        exact hbeg
    · unfold tor_upper
      simp only [write_one, upd, if_true]
      exact hend
  · rcases htor with hf | ⟨hf4, hfn⟩
    · exact absurd hf hc
    · have hroom : st.index + 1 < index_limit := by
        by_contra hh
        rw [set_spmp_entry_no_room c st perm start size index_limit (by omega) hc hf4 hfn]
          at hok
        exact Bool.noConfusion hok
      have ht : c.tor = true := by
        by_contra hh
        rw [set_spmp_entry_bad_range c st perm start size index_limit hc hf4 hfn
          (by simpa using hh)] at hok
        exact Bool.noConfusion hok
      rw [set_spmp_entry_tor_two c st perm start size index_limit hroom hc hf4 hfn ht]
      have hi : (write_two c st (SPMP_ADDR start) (SPMP_ADDR (addw c start size))
          (perm ||| c.SPMP_TOR)).index - 1 = st.index + 1 := rfl
      rw [hi]
      constructor
      · unfold tor_lower
        rw [if_neg (Nat.succ_ne_zero _)]
        have hne : st.index ≠ st.index + 1 := by omega
        simp only [write_two, upd, Nat.add_sub_cancel, if_neg hne, if_true]
        exact hbeg
      · unfold tor_upper
        simp only [write_two, upd, if_true]
        exact hend

/-- C27 (amended), at a concrete call: the two-slot TOR encoding of
(0x1000, 0x3000) at cursor 0. -/
theorem C27_tor_range_exact_witness :
    tor_lower (set_spmp_entry rv32 (empty_at 0) 3 0x1000 0x3000 8).2.spmp_addr
      ((set_spmp_entry rv32 (empty_at 0) 3 0x1000 0x3000 8).2.index - 1) = 0x1000 ∧
    tor_upper (set_spmp_entry rv32 (empty_at 0) 3 0x1000 0x3000 8).2.spmp_addr
      ((set_spmp_entry rv32 (empty_at 0) 3 0x1000 0x3000 8).2.index - 1) = 0x1000 + 0x3000 :=
  C27_tor_range_exact rv32 (empty_at 0) 3 0x1000 0x3000 8 (Or.inr (by decide)) (by decide)
    (by decide) (by decide) (by decide)

/-! ## C25 and C26: the partition scans -/

/-- The loop of `resync_spmp_domain` reads only the start and the size of
the partitions. -/
theorem resync_loop_attr_indep (c : Config) (b : Build) :
    ∀ (ps1 ps2 : List Partition) (remaining : Nat) (st : State),
      ps1.map (fun p => (p.start, p.size)) = ps2.map (fun p => (p.start, p.size)) →
      resync_loop c b remaining ps1 st = resync_loop c b remaining ps2 st := by
  intro ps1
  induction ps1 with
  | nil =>
    intro ps2 remaining st h
    cases ps2 with
    | nil => rfl
    | cons q qs => simp at h
  | cons p ps ih =>
    intro ps2 remaining st h
    cases ps2 with
    | nil => simp at h
    | cons q qs =>
      simp only [List.map_cons, List.cons.injEq, Prod.mk.injEq] at h
      obtain ⟨⟨h1, h2⟩, h3⟩ := h
      cases remaining with
      | zero => simp [resync_loop]
      | succ r =>
        simp only [resync_loop, h1, h2]
        rw [ih qs (r + 1) st h3, ih qs r st h3,
          ih qs r (set_spmp_entry c st (b.SPMP_W ||| b.SPMP_X) q.start q.size
            b.u_mode_slots).2 h3]

/-- Every slot that a call writes gets config 0 or the permission together
with one of the three modes. -/
theorem set_spmp_entry_written_cfg (c : Config) (st : State)
    (perm start size index_limit i : Nat) (h1 : st.index ≤ i)
    (h2 : i < (set_spmp_entry c st perm start size index_limit).2.index) :
    (set_spmp_entry c st perm start size index_limit).2.spmp_n_cfg i = 0 ∨
    (set_spmp_entry c st perm start size index_limit).2.spmp_n_cfg i =
      (perm ||| c.SPMP_TOR) % 256 ∨
    (set_spmp_entry c st perm start size index_limit).2.spmp_n_cfg i =
      (perm ||| c.SPMP_NA4) % 256 ∨
    (set_spmp_entry c st perm start size index_limit).2.spmp_n_cfg i =
      (perm ||| c.SPMP_NAPOT) % 256 := by
  revert h2
  unfold set_spmp_entry
  split_ifs
  · intro h2; exact absurd h2 (by simp only []; omega)
  · intro h2
    have e : i = st.index := by
      have : i < st.index + 1 := h2
      omega
    subst e
    right; left
    simp [write_one, upd]
  · intro h2
    have e : i = st.index := by
      have : i < st.index + 1 := h2
      omega
    subst e
    right; right; left
    simp [write_one, upd]
  · intro h2
    have e : i = st.index := by
      have : i < st.index + 1 := h2
      omega
    subst e
    right; right; right
    simp [write_one, upd]
  · intro h2; exact absurd h2 (by simp only []; omega)
  · intro h2
    have h3 : i < st.index + 2 := h2
    by_cases e : i = st.index
    · subst e
      left
      simp [write_two, upd]
    · have e2 : i = st.index + 1 := by omega
      subst e2
      right; left
      simp [write_two, upd]
  · intro h2; exact absurd h2 (by simp only []; omega)

/-- What every `set_spmp_entry` call of the loop preserves, the loop
preserves. -/
theorem resync_loop_invariant (c : Config) (b : Build) (P : State → Prop)
    (hP : ∀ (st : State) (start size : Nat), P st →
      P (set_spmp_entry c st (b.SPMP_W ||| b.SPMP_X) start size b.u_mode_slots).2) :
    ∀ (ps : List Partition) (remaining : Nat) (st : State),
      P st → P (resync_loop c b remaining ps st).st := by
  intro ps
  induction ps with
  | nil =>
    intro remaining st h
    cases remaining with
    | zero => exact h
    | succ r => exact h
  | cons p ps ih =>
    intro remaining st h
    cases remaining with
    | zero => exact h
    | succ r =>
      simp only [resync_loop]
      split_ifs
      · exact ih (r + 1) st h
      · exact h
      · exact ih r st h
      · exact hP st p.start p.size h
      · exact ih r _ (hP st p.start p.size h)

/-- The loop of `resync_spmp_domain` never moves the cursor back, leaves the
address and config entries below the starting cursor alone, and stores in
the slots it passes only config 0 or write and execute permission with a
mode. -/
theorem resync_loop_written (c : Config) (b : Build) (ps : List Partition)
    (remaining : Nat) (st : State) :
    st.index ≤ (resync_loop c b remaining ps st).st.index ∧
    (∀ i, i < st.index →
      (resync_loop c b remaining ps st).st.spmp_addr i = st.spmp_addr i ∧
      (resync_loop c b remaining ps st).st.spmp_n_cfg i = st.spmp_n_cfg i) ∧
    (∀ i, st.index ≤ i → i < (resync_loop c b remaining ps st).st.index →
      wx_config c b ((resync_loop c b remaining ps st).st.spmp_n_cfg i)) := by
  apply resync_loop_invariant c b (fun s => st.index ≤ s.index ∧
    (∀ i, i < st.index → s.spmp_addr i = st.spmp_addr i ∧ s.spmp_n_cfg i = st.spmp_n_cfg i) ∧
    (∀ i, st.index ≤ i → i < s.index → wx_config c b (s.spmp_n_cfg i)))
  · intro s start size ⟨h1, h2, h3⟩
    have hge := set_spmp_entry_index_ge c s (b.SPMP_W ||| b.SPMP_X) start size b.u_mode_slots
    refine ⟨le_trans h1 hge, fun i hi => ?_, fun i hi1 hi2 => ?_⟩
    · have hb := set_spmp_entry_below c s (b.SPMP_W ||| b.SPMP_X) start size b.u_mode_slots i
        (lt_of_lt_of_le hi h1)
      exact ⟨hb.1.trans (h2 i hi).1, hb.2.trans (h2 i hi).2⟩
    · by_cases hlt : i < s.index
      · have hb := set_spmp_entry_below c s (b.SPMP_W ||| b.SPMP_X) start size
          b.u_mode_slots i hlt
        rw [hb.2]
        exact h3 i hi1 hlt
      · exact set_spmp_entry_written_cfg c s (b.SPMP_W ||| b.SPMP_X) start size
          b.u_mode_slots i (by omega) hi2
  · exact ⟨le_refl _, fun i _ => ⟨rfl, rfl⟩, fun i h1 h2 => absurd h2 (by omega)⟩

/-- The user-mode arrays that `resync_spmp_domain` leaves are those of its
loop, also when the loop stops. -/
theorem resync_spmp_domain_arrays (c : Config) (b : Build) (t : Thread) (d : Domain) :
    (resync_spmp_domain c b t d).thread.u_mode_spmpaddr_regs =
      (resync_loop c b d.num_partitions d.partitions
        (t.u_mode t.u_mode_spmp_domain_offset)).st.spmp_addr ∧
    (resync_spmp_domain c b t d).thread.u_mode_spmpcfg_regs =
      (resync_loop c b d.num_partitions d.partitions
        (t.u_mode t.u_mode_spmp_domain_offset)).st.spmp_n_cfg ∧
    (resync_spmp_domain c b t d).thread.u_mode_spmpswitch_reg =
      (resync_loop c b d.num_partitions d.partitions
        (t.u_mode t.u_mode_spmp_domain_offset)).st.spmp_switch ∧
    (resync_spmp_domain c b t d).stop =
      (resync_loop c b d.num_partitions d.partitions
        (t.u_mode t.u_mode_spmp_domain_offset)).stop := by
  unfold resync_spmp_domain
  simp only []
  split
  · rename_i s hs
    exact ⟨rfl, rfl, rfl, hs.symm⟩
  · rename_i hs
    exact ⟨rfl, rfl, rfl, hs.symm⟩

/-- C25: the entries `resync_spmp_domain` writes do not depend on a
partition's declared attribute: for any two domains whose partitions have
the same start and size sequences (and the same `num_partitions`),
whatever their attributes, resync produces identical address, config and
switch-mask contents and the same end index; and every slot it writes from
the domain offset on holds either config 0 (boundary of a two-slot TOR
encoding) or exactly `SPMP_W | SPMP_X` together with the mode. -/
theorem C25_attr_ignored (c : Config) (b : Build) (t : Thread) (d1 d2 : Domain)
    (hgeo : d1.partitions.map (fun p => (p.start, p.size)) =
      d2.partitions.map (fun p => (p.start, p.size)))
    (hnum : d1.num_partitions = d2.num_partitions) :
    (resync_spmp_domain c b t d1).thread.u_mode_spmpaddr_regs =
      (resync_spmp_domain c b t d2).thread.u_mode_spmpaddr_regs ∧
    (resync_spmp_domain c b t d1).thread.u_mode_spmpcfg_regs =
      (resync_spmp_domain c b t d2).thread.u_mode_spmpcfg_regs ∧
    (resync_spmp_domain c b t d1).thread.u_mode_spmpswitch_reg =
      (resync_spmp_domain c b t d2).thread.u_mode_spmpswitch_reg ∧
    (resync_spmp_domain c b t d1).thread.u_mode_spmp_end_index =
      (resync_spmp_domain c b t d2).thread.u_mode_spmp_end_index ∧
    (resync_spmp_domain c b t d1).stop = (resync_spmp_domain c b t d2).stop ∧
    ∀ i, t.u_mode_spmp_domain_offset ≤ i →
      i < (resync_loop c b d1.num_partitions d1.partitions
        (t.u_mode t.u_mode_spmp_domain_offset)).st.index →
      wx_config c b ((resync_spmp_domain c b t d1).thread.u_mode_spmpcfg_regs i) := by
  have hl := resync_loop_attr_indep c b d1.partitions d2.partitions d1.num_partitions
    (t.u_mode t.u_mode_spmp_domain_offset) hgeo
  have a1 := resync_spmp_domain_arrays c b t d1
  have a2 := resync_spmp_domain_arrays c b t d2
  rw [← hnum, ← hl] at a2
  refine ⟨a1.1.trans a2.1.symm, a1.2.1.trans a2.2.1.symm, a1.2.2.1.trans a2.2.2.1.symm, ?_,
    a1.2.2.2.trans a2.2.2.2.symm, fun i h1 h2 => ?_⟩
  · unfold resync_spmp_domain
    simp only []
    rw [← hnum, ← hl]
    split <;> rfl
  · rw [a1.2.1]
    exact (resync_loop_written c b d1.partitions d1.num_partitions
      (t.u_mode t.u_mode_spmp_domain_offset)).2.2 i h1 h2

/-- C25, at a concrete pair of domains: `domain_small_then` and the same
partitions declared without write permission. -/
theorem C25_attr_ignored_witness :
    (resync_spmp_domain rv32 build32 thread_prep domain_small_then).thread.u_mode_spmpcfg_regs
      = (resync_spmp_domain rv32 build32 thread_prep
        domain_small_then_ro).thread.u_mode_spmpcfg_regs ∧
    wx_config rv32 build32
      ((resync_spmp_domain rv32 build32 thread_prep domain_small_then).thread.u_mode_spmpcfg_regs
        3) :=
  have h := C25_attr_ignored rv32 build32 thread_prep domain_small_then domain_small_then_ro
    (by decide) (by decide)
  ⟨h.2.1, h.2.2.2.2.2 3 (by decide) (by decide)⟩

/-- With `remaining` at most the number of used slots ahead, the loop of
`resync_spmp_domain` does not read past the end of the partition array. -/
theorem resync_loop_in_array (c : Config) (b : Build) :
    ∀ (ps : List Partition) (remaining : Nat) (st : State),
      remaining ≤ used_slots ps →
      (resync_loop c b remaining ps st).stop ≠ some Stop.out_of_array := by
  intro ps
  induction ps with
  | nil =>
    intro remaining st h
    have e : remaining = 0 := by
      have : used_slots [] = 0 := rfl
      omega
    subst e
    simp [resync_loop]
  | cons p ps ih =>
    intro remaining st h
    rw [used_slots_cons] at h
    cases remaining with
    | zero => simp [resync_loop]
    | succ r =>
      simp only [resync_loop]
      by_cases hp : p.size = 0
      · rw [if_pos hp] at h ⊢
        exact ih (r + 1) st h
      · rw [if_neg hp] at h ⊢
        have hr : r ≤ used_slots ps := by omega
        split_ifs
        · simp
        · exact ih r st hr
        · simp
        · exact ih r _ hr

/-- With `remaining` at most the number of used slots ahead, the loop of
`arch_buffer_validate` does not read past the end of the partition array:
it ends with a value. -/
theorem validate_loop_in_array (c : Config) (start size bit : Nat) :
    ∀ (ps : List Partition) (remaining : Nat),
      remaining ≤ used_slots ps →
      validate_loop c start size bit remaining ps ≠ none := by
  intro ps
  induction ps with
  | nil =>
    intro remaining h
    have e : remaining = 0 := by
      have : used_slots [] = 0 := rfl
      omega
    subst e
    simp [validate_loop]
  | cons p ps ih =>
    intro remaining h
    rw [used_slots_cons] at h
    cases remaining with
    | zero => simp [validate_loop]
    | succ r =>
      simp only [validate_loop]
      by_cases hp : p.size = 0
      · rw [if_pos hp] at h ⊢
        exact ih (r + 1) h
      · rw [if_neg hp] at h ⊢
        have hr : r ≤ used_slots ps := by omega
        split_ifs <;> first | exact ih r hr | simp

/-- C26: for every domain whose `num_partitions` equals the number of
non-empty slots of its partition array, the partition scans of
`resync_spmp_domain` and `arch_buffer_validate` end without reading a slot
at or beyond the end of the array: resync never stops for an access
outside the array, and the validator returns a value.  Both scans move to
the next slot at every iteration (they are recursions on the part of the
array not yet visited), so no slot is visited twice and there are at most
as many iterations as slots. -/
theorem C26_scans_stay_in_array (c : Config) (b : Build) (t cur : Thread) (d : Domain)
    (rom_region_start rom_region_size addr size : Nat) (write : Bool)
    (hwf : d.num_partitions = used_slots d.partitions) :
    (resync_spmp_domain c b t d).stop ≠ some Stop.out_of_array ∧
    (∀ st : State,
      (resync_loop c b d.num_partitions d.partitions st).stop ≠ some Stop.out_of_array) ∧
    arch_buffer_validate c b cur d rom_region_start rom_region_size addr size write ≠
      none := by
  refine ⟨?_, fun st => resync_loop_in_array c b d.partitions d.num_partitions st
    (le_of_eq hwf), ?_⟩
  · rw [(resync_spmp_domain_arrays c b t d).2.2.2]
    exact resync_loop_in_array c b d.partitions d.num_partitions _ (le_of_eq hwf)
  · unfold arch_buffer_validate
    split_ifs <;> first
      | exact validate_loop_in_array c addr size _ d.partitions d.num_partitions
          (le_of_eq hwf)
      | simp

/-- C26, at a concrete domain: `domain_ro_rw`, an unused slot followed by two
partitions. -/
theorem C26_scans_stay_in_array_witness :
    (resync_spmp_domain rv32 build32 thread_prep domain_ro_rw).stop ≠
      some Stop.out_of_array ∧
    arch_buffer_validate rv32 build32 thread0 domain_ro_rw 0 0x1000 0x9000 16 true ≠ none :=
  have h := C26_scans_stay_in_array rv32 build32 thread_prep thread0 domain_ro_rw 0 0x1000
    0x9000 16 true (by decide)
  ⟨h.1, h.2.2⟩

/-! ## C28: containment test -/

/-- C28: for all machine-word values (only inner_start and outer_size need
to be below 2^bits), `IS_WITHIN(inner_start, inner_size, outer_start,
outer_size)` holds if and only if outer_start <= inner_start
and inner_start + inner_size <= outer_start + outer_size computed in
unbounded integers; when its first two conjuncts hold, its two
subtractions do not wrap. -/
theorem C28_is_within_exact (c : Config)
    (inner_start inner_size outer_start outer_size : Nat)
    (h1 : inner_start < 2 ^ c.bits) (h4 : outer_size < 2 ^ c.bits) :
    (IS_WITHIN c inner_start inner_size outer_start outer_size ↔
      (outer_start ≤ inner_start ∧
        inner_start + inner_size ≤ outer_start + outer_size)) ∧
    (inner_start ≥ outer_start → inner_size ≤ outer_size →
      subw c inner_start outer_start = inner_start - outer_start ∧
      subw c outer_size inner_size = outer_size - inner_size) :=
  ⟨IS_WITHIN_iff c inner_start inner_size outer_start outer_size h1 h4,
    fun ha hb => ⟨subw_of_le c _ _ ha h1, subw_of_le c _ _ hb h4⟩⟩

/-- C28, at concrete words: a range whose end would wrap around a 32-bit
address space is not contained in a region at the bottom of it. -/
theorem C28_is_within_exact_witness :
    IS_WITHIN rv32 0xFFFFFFF0 0x20 0 0x1000 ↔
      (0 ≤ 0xFFFFFFF0 ∧ 0xFFFFFFF0 + 0x20 ≤ 0 + 0x1000) :=
  (C28_is_within_exact rv32 0xFFFFFFF0 0x20 0 0x1000 (by decide) (by decide)).1

/-! ## C29: the stack guard and the fault classifier -/

/-- C29: with the stack guard, userspace and multithreading enabled, the
guard region that `z_riscv_spmp_stackguard_prepare` encodes for a thread
is the region [stack_bottom, stack_bottom + Z_RISCV_STACK_GUARD_SIZE) with
no permission, and (the region not wrapping around the address space) for
every thread, with a private privileged stack, a user-capable stack or a
kernel-only stack, and every kernel stack pointer before the trap inside
that region, `bad_stack_pointer` returns true. -/
theorem C29_guard_recognised (c : Config) (k : Kernel) (g : Global) (t : Thread) (esf : Esf)
    (hu : k.CONFIG_USERSPACE = true) (hsg : k.CONFIG_SPMP_STACK_GUARD = true)
    (hm : k.CONFIG_MULTITHREADING = true)
    (hw : stackguard_bottom c k t + k.Z_RISCV_STACK_GUARD_SIZE < 2 ^ c.bits)
    (hin : stackguard_bottom c k t ≤ addw c esf.addr k.ESF_SIZE ∧
      addw c esf.addr k.ESF_SIZE < stackguard_bottom c k t + k.Z_RISCV_STACK_GUARD_SIZE) :
    bad_stack_pointer c k t esf = true ∧
    ∀ st0, z_riscv_spmp_thread_init c g t.s_mode_args = some st0 →
      (z_riscv_spmp_stackguard_prepare c k g t).map (fun t1 => t1.s_mode_spmp_end_index) =
        some (set_spmp_entry c st0 0 (stackguard_bottom c k t) k.Z_RISCV_STACK_GUARD_SIZE
          k.s_mode_slots).2.index := by
  constructor
  · apply bad_stack_pointer_of_guard c k t esf (stackguard_bottom c k t) _ hin hw
    refine ⟨hsg, ?_⟩
    unfold stackguard_bottom
    by_cases hp : t.priv_stack_start ≠ 0
    · rw [if_pos ⟨hu, hp⟩]
      exact Or.inl ⟨hu, hp, rfl⟩
    · rw [if_neg (fun h => hp h.2)]
      by_cases hc : t.user_capable = true
      · rw [if_pos ⟨hu, hc⟩]
        exact Or.inr (Or.inl ⟨hu, hc, rfl⟩)
      · rw [if_neg (fun h => hc h.2)]
        exact Or.inr (Or.inr (Or.inl ⟨hm, rfl⟩))
  · intro st0 h0
    unfold z_riscv_spmp_stackguard_prepare
    rw [h0]
    rfl

/-- C29, at a concrete thread: `thread_priv`, whose guard is the bottom of
its private privileged stack, and a frame with the kernel stack pointer in
it. -/
theorem C29_guard_recognised_witness :
    bad_stack_pointer rv32 kernel32 thread_priv esf_priv_guard = true :=
  (C29_guard_recognised rv32 kernel32 global2 thread_priv esf_priv_guard rfl rfl rfl
    (by decide) (by decide)).1

end Spmp
